import Mathlib

/-!
# Tabby Grabby: bookmark / tab export and import

A shallow embedding of `src/bookmarkManager.js`, `src/tabManager.js`,
`src/exportService.js` and `src/importService.js`, with the properties of the
flatten / restore / validate engine stated and proved over it.
-/

namespace TabbyGrabby

/-! ## Data model -/

/-- A node of the browser's bookmark tree (`chrome.bookmarks.getTree()`).
`leaf` is a node without a `children` list, `dir` a node with one.  The `url`
is absent (`none`) or a string. -/
inductive NativeNode where
  | leaf (title : String) (url : Option String)
  | dir (title : String) (url : Option String) (children : List NativeNode)

/-- A node of the exported bookmark tree: `{type:'folder',title,path,children}`
or `{type:'bookmark',title,url,path}`. -/
inductive PortableNode where
  | folder (title : String) (path : String) (children : List PortableNode)
  | bookmark (title : String) (url : String) (path : String)

/-- JavaScript truthiness of a string. -/
def truthyStr (s : String) : Bool := s != ""

/-- JavaScript truthiness of `child.url` (absent or empty is falsy). -/
def truthyUrl : Option String → Bool
  | none => false
  | some u => truthyStr u

/-! ## `BookmarkManager.processBookmarkNode` / `getAllBookmarks` -/

/-- The expression `parentPath ? parentPath + '/' + child.title : child.title`. -/
def folderPathOf (parentPath title : String) : String :=
  if truthyStr parentPath then parentPath ++ "/" ++ title else title

mutual
/-- `processBookmarkNode(node, result, parentPath)`: returns `result` after the
pushes made by the call. -/
def processBookmarkNode : NativeNode → List PortableNode → String → List PortableNode
  | .leaf _ _, result, _ => result
  | .dir _ _ children, result, parentPath => processChildren children result parentPath
/-- The loop `for (const child of node.children)` of `processBookmarkNode`. -/
def processChildren : List NativeNode → List PortableNode → String → List PortableNode
  | [], result, _ => result
  | .dir title url children :: rest, result, parentPath =>
    let folderPath := folderPathOf parentPath title
    let folderChildren := processBookmarkNode (.dir title url children) [] folderPath
    if folderChildren.length > 0 then
      processChildren rest (result ++ [.folder title folderPath folderChildren]) parentPath
    else
      processChildren rest result parentPath
  | .leaf title url :: rest, result, parentPath =>
    match url with
    | some u =>
      if truthyStr u then
        processChildren rest (result ++ [.bookmark title u parentPath]) parentPath
      else
        processChildren rest result parentPath
    | none => processChildren rest result parentPath
end

/-- The loop over the roots in `getAllBookmarks`: a root is processed only when
it has a `children` list. -/
def processRoots : List NativeNode → List PortableNode → List PortableNode
  | [], processed => processed
  | .leaf _ _ :: rest, processed => processRoots rest processed
  | .dir title url children :: rest, processed =>
    processRoots rest (processBookmarkNode (.dir title url children) processed "")

/-- `getAllBookmarks()` on the tree returned by `chrome.bookmarks.getTree()`. -/
def getAllBookmarks (bookmarkTree : List NativeNode) : List PortableNode :=
  processRoots bookmarkTree []


mutual
/-- The number of nodes of type `bookmark` in the subtree of one portable node. -/
def bookmarkNodesOf : PortableNode → Nat
  | .bookmark _ _ _ => 1
  | .folder _ _ children => bookmarkNodes children
/-- The number of nodes of type `bookmark` in a portable tree, at any depth. -/
def bookmarkNodes : List PortableNode → Nat
  | [] => 0
  | node :: rest => bookmarkNodesOf node + bookmarkNodes rest
end

mutual
/-- The body of the loop of `countBookmarks` for one `item`: a bookmark increments
the counter, a folder (its `children` array is always truthy) is descended. -/
def countBookmarksItem : PortableNode → Nat → Nat
  | .bookmark _ _ _, count => count + 1
  | .folder _ _ children, count => countBookmarks children count
/-- The closure `countBookmarks(items)` of `getBookmarkCount`, with the captured
counter `count` passed in and returned. -/
def countBookmarks : List PortableNode → Nat → Nat
  | [], count => count
  | item :: rest, count => countBookmarks rest (countBookmarksItem item count)
end

mutual
/-- The number of nodes in the subtree of one native node (the node included) that
have no `children` list and a non-empty `url`. -/
def urlLeavesOf : NativeNode → Nat
  | .leaf _ url => if truthyUrl url then 1 else 0
  | .dir _ _ children => urlLeafCount children
/-- The number of nodes of a native forest, at any depth, that have no `children`
list and a non-empty `url`. -/
def urlLeafCount : List NativeNode → Nat
  | [] => 0
  | node :: rest => urlLeavesOf node + urlLeafCount rest
end

/-- `getBookmarkCount()`. -/
def getBookmarkCount (bookmarkTree : List NativeNode) : Nat :=
  countBookmarks (getAllBookmarks bookmarkTree) 0

/-- The number of native nodes strictly below a forest root that have no
`children` list and a non-empty `url`. -/
def urlLeavesBelowRoots : List NativeNode → Nat
  | [] => 0
  | .leaf _ _ :: rest => urlLeavesBelowRoots rest
  | .dir _ _ children :: rest => urlLeafCount children + urlLeavesBelowRoots rest

mutual
/-- The node, if a folder, has a bookmark among its descendants, and so has every
folder below it. -/
def folderHasBookmark : PortableNode → Bool
  | .bookmark _ _ _ => true
  | .folder _ _ children => decide (0 < bookmarkNodes children) && foldersHaveBookmark children
/-- Every `folder` node of the tree, at any depth, has at least one `bookmark`
node among its descendants. -/
def foldersHaveBookmark : List PortableNode → Bool
  | [] => true
  | node :: rest => folderHasBookmark node && foldersHaveBookmark rest
end

mutual
/-- A bookmark has path `enclosing`; the children of a folder agree with the
folder's own path. -/
def pathAgrees : String → PortableNode → Bool
  | enclosing, .bookmark _ _ path => path == enclosing
  | _, .folder _ path children => pathsAgree path children
/-- Every `bookmark` node directly in this list has path `enclosing`, and, at any
depth, every `bookmark` child of a `folder` node has that folder's path. -/
def pathsAgree : String → List PortableNode → Bool
  | _, [] => true
  | enclosing, node :: rest => pathAgrees enclosing node && pathsAgree enclosing rest
end

/-! ## JavaScript values -/

/-- A value obtained from `JSON.parse`.  Numbers are modelled by integers: the
code only tests a number for being zero or positive and otherwise passes it on. -/
inductive Json where
  | null
  | bool (b : Bool)
  | num (n : Int)
  | str (s : String)
  | arr (elems : List Json)
  | obj (fields : List (String × Json))

/-- JavaScript truthiness of a value. -/
def Json.truthy : Json → Bool
  | .null => false
  | .bool b => b
  | .num n => n != 0
  | .str s => truthyStr s
  | .arr _ => true
  | .obj _ => true

/-- Truthiness of a value that may be `undefined` (`none`). -/
def truthyVal : Option Json → Bool
  | none => false
  | some v => v.truthy

/-- The value of the property `key` of a value that is not `null`, for the
property names the code reads (`type`, `title`, `url`, `path`, `children`,
`pinned`, `openTabs`, `bookmarks`, `exportInfo`): an object yields its field, or
`undefined`; strings, numbers, booleans and arrays have none of them. -/
def Json.field : Json → String → Option Json
  | .obj fields, key => fields.lookup key
  | _, _ => none

/-- The message of the `TypeError` raised by reading a property of `null`. -/
def cannotReadNull (key : String) : String :=
  "Cannot read properties of null (reading '" ++ key ++ "')"

/-- The message of the `TypeError` raised by `for (... of v)` on a value that is
not iterable, `expression` being the text of `v` in the source. -/
def notIterable (expression : String) : String := expression ++ " is not iterable"

/-- The message of the `TypeError` raised by calling `url.startsWith` on a value
that is not a string. -/
def notAFunction : String := "url.startsWith is not a function"

/-- The property read `v.key`: a `TypeError` on `null`. -/
def getProp (v : Json) (key : String) : Except String (Option Json) :=
  match v with
  | .null => .error (cannotReadNull key)
  | _ => .ok (v.field key)

/-- The test `v === 'literal'`. -/
def isStr (v : Option Json) (literal : String) : Bool :=
  match v with
  | some (.str s) => s == literal
  | _ => false

/-- `typeof v === 'object'`. -/
def Json.typeofObject : Json → Bool
  | .null => true
  | .arr _ => true
  | .obj _ => true
  | _ => false

/-- `key in v` for a value with `typeof v === 'object'` that is not `null`, for
the property names `exportInfo`, `openTabs` and `bookmarks`. -/
def Json.hasKey : Json → String → Bool
  | .obj fields, key => (fields.lookup key).isSome
  | _, _ => false

/-! ## `ImportService.validateImportData` -/

/-- The loop `for (const tab of data.openTabs)` of `validateImportData`; `false`
is the early `return false`. -/
def validateTabs : List Json → Except String Bool
  | [] => .ok true
  | tab :: rest =>
    match getProp tab "url" with
    | .error e => .error e
    | .ok url =>
      if !truthyVal url then .ok false
      else
        match getProp tab "title" with
        | .error e => .error e
        | .ok title => if !truthyVal title then .ok false else validateTabs rest

/-- The loop `for (const bookmark of data.bookmarks)` of `validateImportData`. -/
def validateBookmarks : List Json → Except String Bool
  | [] => .ok true
  | bookmark :: rest =>
    match getProp bookmark "type" with
    | .error e => .error e
    | .ok type =>
      if isStr type "bookmark" &&
          (!truthyVal (bookmark.field "url") || !truthyVal (bookmark.field "title")) then
        .ok false
      else if isStr type "folder" && !truthyVal (bookmark.field "title") then .ok false
      else validateBookmarks rest

/-- `validateImportData(data)`: the boolean returned, or the error raised. -/
def validateImportData (data : Json) : Except String Bool :=
  if !data.truthy || !data.typeofObject then .ok false
  else if !data.hasKey "openTabs" || !data.hasKey "bookmarks" then .ok false
  else
    match data.field "openTabs", data.field "bookmarks" with
    | some (.arr openTabs), some (.arr bookmarks) =>
      match validateTabs openTabs with
      | .error e => .error e
      | .ok false => .ok false
      | .ok true => validateBookmarks bookmarks
    | _, _ => .ok false

/-! ### The schema of §4.3, in the words of the specification -/

/-- A value is empty when it is absent, `null`, `false`, zero or the empty
string. -/
def isEmptyValue : Option Json → Bool
  | none => true
  | some .null => true
  | some (.bool b) => !b
  | some (.num n) => n == 0
  | some (.str s) => s == ""
  | some (.arr _) => false
  | some (.obj _) => false

/-- An `openTabs` entry carries a non-empty `url` and a non-empty `title`. -/
def tabEntryOk (tab : Json) : Bool :=
  !isEmptyValue (tab.field "url") && !isEmptyValue (tab.field "title")

/-- A `bookmarks` entry tagged `bookmark` carries a non-empty `url` and `title`;
one tagged `folder` a non-empty `title`. -/
def bookmarkEntryOk (entry : Json) : Bool :=
  (!isStr (entry.field "type") "bookmark" ||
    (!isEmptyValue (entry.field "url") && !isEmptyValue (entry.field "title"))) &&
  (!isStr (entry.field "type") "folder" || !isEmptyValue (entry.field "title"))

/-- The document is a non-null object with keys `openTabs` and `bookmarks`, both
arrays, all of whose entries are in order. -/
def importSchemaOk (data : Json) : Bool :=
  match data with
  | .obj fields =>
    match fields.lookup "openTabs", fields.lookup "bookmarks" with
    | some (.arr openTabs), some (.arr bookmarks) =>
      openTabs.all tabEntryOk && bookmarks.all bookmarkEntryOk
    | _, _ => false
  | _ => false

/-- A JavaScript object: an object literal or an array, not `null` and not a
primitive. -/
def Json.isObject : Json → Bool
  | .arr _ => true
  | .obj _ => true
  | _ => false

/-- The entries of the document's `openTabs` and `bookmarks` arrays, where it has
them, are objects. -/
def entriesAreObjects (data : Json) : Bool :=
  (match data.field "openTabs" with
    | some (.arr openTabs) => openTabs.all Json.isObject
    | _ => true) &&
  (match data.field "bookmarks" with
    | some (.arr bookmarks) => bookmarks.all Json.isObject
    | _ => true)

/-! ## `ImportService.countBookmarksInData` -/

mutual
/-- The closure `countRecursive(items)` of `countBookmarksInData`, with the
captured counter `count` passed in and returned.  `for (... of items)` runs over
the elements of an array; over a string it yields one-character strings, which
have no `type`; any other value is not iterable. -/
def countRecursive : Json → Nat → Except String Nat
  | .arr items, count => countItems items count
  | .str _, count => .ok count
  | _, _ => .error (notIterable "items")
/-- The loop of `countRecursive` over the elements of an array. -/
def countItems : List Json → Nat → Except String Nat
  | [], count => .ok count
  | item :: rest, count =>
    match countItem item count with
    | .ok count' => countItems rest count'
    | .error e => .error e
/-- The body of the loop of `countRecursive` for one `item`. -/
def countItem : Json → Nat → Except String Nat
  | .null, _ => .error (cannotReadNull "type")
  | .obj fields, count =>
    if isStr (fields.lookup "type") "bookmark" then .ok (count + 1)
    else if isStr (fields.lookup "type") "folder" && truthyVal (fields.lookup "children") then
      countChildren fields count
    else .ok count
  | _, count => .ok count
/-- The call `countRecursive(item.children)`, with `item.children` located among
the fields of `item`. -/
def countChildren : List (String × Json) → Nat → Except String Nat
  | [], count => .ok count
  | (key, value) :: rest, count =>
    if "children" == key then countRecursive value count else countChildren rest count
end

/-- `countBookmarksInData(bookmarks)`. -/
def countBookmarksInData (bookmarks : Json) : Except String Nat :=
  countRecursive bookmarks 0

/-! ### Portable trees as JSON, and their bookmark nodes -/

mutual
/-- The value is a portable bookmark tree: an array of nodes. -/
def isPortableTree : Json → Bool
  | .arr items => arePortableNodes items
  | _ => false
/-- Every element is a portable node. -/
def arePortableNodes : List Json → Bool
  | [] => true
  | item :: rest => isPortableNode item && arePortableNodes rest
/-- The value is a portable node: an object whose `children`, when it has them,
are a portable tree. -/
def isPortableNode : Json → Bool
  | .obj fields => childrenArePortable fields
  | _ => false
/-- The `children` field among these fields, when there is one, is a portable
tree. -/
def childrenArePortable : List (String × Json) → Bool
  | [] => true
  | (key, value) :: rest =>
    if "children" == key then isPortableTree value else childrenArePortable rest
end

mutual
/-- The number of nodes of type `bookmark` reachable from a sequence of nodes by
descending through the children of nodes of type `folder`. -/
def bookmarkTypeNodes : Json → Nat
  | .arr items => bookmarkTypeNodesIn items
  | _ => 0
/-- The same number, summed over the elements of a sequence. -/
def bookmarkTypeNodesIn : List Json → Nat
  | [] => 0
  | item :: rest => bookmarkTypeNodesAt item + bookmarkTypeNodesIn rest
/-- The same number for one node: one for a node of type `bookmark`, the number
reachable through its children for a node of type `folder`. -/
def bookmarkTypeNodesAt : Json → Nat
  | .obj fields =>
    if isStr (fields.lookup "type") "bookmark" then 1
    else if isStr (fields.lookup "type") "folder" then bookmarkTypeNodesBelow fields
    else 0
  | _ => 0
/-- The same number for the `children` field among these fields. -/
def bookmarkTypeNodesBelow : List (String × Json) → Nat
  | [] => 0
  | (key, value) :: rest =>
    if "children" == key then bookmarkTypeNodes value else bookmarkTypeNodesBelow rest
end

mutual
/-- The JSON form of a portable node, `JSON.parse(JSON.stringify(node))`. -/
def PortableNode.toJson : PortableNode → Json
  | .folder title path children =>
    .obj [("type", .str "folder"), ("title", .str title), ("path", .str path),
      ("children", .arr (portableToJson children))]
  | .bookmark title url path =>
    .obj [("type", .str "bookmark"), ("title", .str title), ("url", .str url),
      ("path", .str path)]
/-- The JSON forms of the nodes of a portable tree. -/
def portableToJson : List PortableNode → List Json
  | [] => []
  | node :: rest => node.toJson :: portableToJson rest
end

/-- The input of the test "countBookmarksInData should count bookmarks
recursively". -/
def countTestInput : Json :=
  .arr [.obj [("type", .str "bookmark"), ("title", .str "Bookmark 1")],
    .obj [("type", .str "folder"), ("title", .str "Folder"), ("children", .arr [
      .obj [("type", .str "bookmark"), ("title", .str "Bookmark 2")],
      .obj [("type", .str "bookmark"), ("title", .str "Bookmark 3")]])]]

/-- The document of the test "should validate correct import data structure". -/
def validImportData : Json :=
  .obj [("openTabs", .arr [.obj [("url", .str "https://example.com"), ("title", .str "Example")]]),
    ("bookmarks", .arr [.obj [("type", .str "bookmark"), ("title", .str "Google"),
      ("url", .str "https://google.com")]])]

/-! ## The browser -/

/-- A tab as `chrome.windows.getAll` reports it. -/
structure NativeTab where
  url : Option String
  title : String
  index : Nat
  pinned : Bool
  active : Bool

/-- A window with its tabs (`populate: true`). -/
structure NativeWindow where
  id : Nat
  tabs : List NativeTab

/-- An exported tab `{url, title, windowId, index, pinned, active}`. -/
structure PortableTab where
  url : String
  title : String
  windowId : Nat
  index : Nat
  pinned : Bool
  active : Bool

/-- The `exportInfo` block of an export document. -/
structure ExportInfo where
  timestamp : String
  version : String
  extensionName : String
  tabCount : Nat
  bookmarkCount : Nat

/-- The export document `{exportInfo, openTabs, bookmarks}`. -/
structure ExportDocument where
  exportInfo : ExportInfo
  openTabs : List PortableTab
  bookmarks : List PortableNode

/-- A call to the browser that changes its state or hands data out. -/
inductive NativeCall where
  | bookmarksCreate (parentId : String) (title : Option Json) (url : Option Json)
  | windowsCreate (url : Option Json) (focused : Bool)
  | tabsCreate (windowId : Nat) (url : Option Json) (pinned : Json) (active : Bool)
  | download (document : ExportDocument) (filename : String)

/-- The host the extension runs in.  For the browser: what its read calls return,
and how it answers each state-changing call given the calls issued before it (the
id of the created node or window, or a failure with its message).
`bookmarksGetTree k` is the answer to the call number `k` (counted from 0) of
`chrome.bookmarks.getTree()` in a run, so that the tree may change or the read
may fail between two calls.  `tabsSettleFirst` says which of two collections
started together settles first, the tab collection or the bookmark collection.
For the JavaScript engine: `jsonParse` is `JSON.parse` (`none` when it throws,
`parseFailure text` being the message of the error thrown), and
`coercesPositive v` is the outcome of `v > 0` for a string, array or object
`v` (the ToNumber coercion, which is not modelled). -/
structure Browser where
  bookmarksGetTree : Nat → Except String (List NativeNode)
  windowsGetAll : Except String (List NativeWindow)
  tabsSettleFirst : Bool
  parseFailure : String → String
  jsonParse : String → Option Json
  coercesPositive : Json → Bool
  bookmarksCreate : List NativeCall → NativeCall → Except String String
  windowsCreate : List NativeCall → NativeCall → Except String Nat
  tabsCreate : List NativeCall → NativeCall → Except String Unit
  download : List NativeCall → NativeCall → Except String Unit

/-! ## `TabManager` -/

/-- The list `invalidPrefixes` of `isValidUrl`. -/
def invalidPrefixes : List String :=
  ["chrome://", "chrome-extension://", "edge://", "about:", "moz-extension://"]

/-- `url.startsWith(start)`. -/
def startsWith (url start : String) : Bool :=
  start.toList.isPrefixOf url.toList

/-- `isValidUrl(url)`: a falsy `url` is invalid; a string is valid unless it starts
with an entry of `invalidPrefixes`; any other truthy value has no `startsWith`
method, and the call raises. -/
def isValidUrl (url : Option Json) : Except String Bool :=
  if !truthyVal url then .ok false
  else
    match url with
    | some (.str s) => .ok (!invalidPrefixes.any fun start => startsWith s start)
    | _ => .error notAFunction

/-- The inner loop `for (const tab of window.tabs)` of `getAllTabs`. -/
def collectTabs (windowId : Nat) :
    List NativeTab → List PortableTab → Except String (List PortableTab)
  | [], allTabs => .ok allTabs
  | tab :: rest, allTabs =>
    match isValidUrl (tab.url.map Json.str) with
    | .error e => .error e
    | .ok true =>
      collectTabs windowId rest
        (allTabs ++ [⟨tab.url.getD "", tab.title, windowId, tab.index, tab.pinned, tab.active⟩])
    | .ok false => collectTabs windowId rest allTabs

/-- The outer loop `for (const window of windows)` of `getAllTabs`. -/
def collectWindows : List NativeWindow → List PortableTab → Except String (List PortableTab)
  | [], allTabs => .ok allTabs
  | window :: rest, allTabs =>
    match collectTabs window.id window.tabs allTabs with
    | .error e => .error e
    | .ok allTabs' => collectWindows rest allTabs'

/-- `getAllTabs()`: any failure is re-raised as 'Failed to collect tabs'. -/
def getAllTabs (browser : Browser) : Except String (List PortableTab) :=
  match browser.windowsGetAll with
  | .error _ => .error "Failed to collect tabs"
  | .ok windows =>
    match collectWindows windows [] with
    | .error _ => .error "Failed to collect tabs"
    | .ok allTabs => .ok allTabs

/-- The value `tab.pinned || false`. -/
def pinnedOrFalse (pinned : Option Json) : Json :=
  match pinned with
  | some v => if v.truthy then v else .bool false
  | none => .bool false

/-- The loop `for (let i = 1; i < tabs.length; i++)` of `restoreTabs`, over the
entries after the first. -/
def createRemainingTabs (browser : Browser) (windowId : Nat) :
    List Json → List NativeCall → Except String Unit × List NativeCall
  | [], log => (.ok (), log)
  | tab :: rest, log =>
    match getProp tab "url" with
    | .error e => (.error e, log)
    | .ok url =>
      match isValidUrl url with
      | .error e => (.error e, log)
      | .ok false => createRemainingTabs browser windowId rest log
      | .ok true =>
        let call := NativeCall.tabsCreate windowId url (pinnedOrFalse (tab.field "pinned")) false
        match browser.tabsCreate log call with
        | .error e => (.error e, log ++ [call])
        | .ok _ => createRemainingTabs browser windowId rest (log ++ [call])

/-- `restoreTabs(tabs)`: the outcome and the log of calls issued so far.  Any
failure inside the `try` is re-raised as 'Failed to restore tabs'. -/
def restoreTabs (browser : Browser) (tabs : Json) (log : List NativeCall) :
    Except String Unit × List NativeCall :=
  match tabs with
  | .arr (first :: rest) =>
    match getProp first "url" with
    | .error _ => (.error "Failed to restore tabs", log)
    | .ok url =>
      let call := NativeCall.windowsCreate url true
      match browser.windowsCreate log call with
      | .error _ => (.error "Failed to restore tabs", log ++ [call])
      | .ok windowId =>
        match createRemainingTabs browser windowId rest (log ++ [call]) with
        | (.error _, log') => (.error "Failed to restore tabs", log')
        | (.ok _, log') => (.ok (), log')
  | _ => (.ok (), log)

/-! ## `BookmarkManager.restoreBookmarks` -/

/-- Equality of two keys of a JavaScript `Map` (SameValueZero): primitives are
compared by value, while two objects or arrays parsed from different places of a
document are never the same key. -/
def sameKey : Option Json → Option Json → Bool
  | none, none => true
  | some .null, some .null => true
  | some (.bool a), some (.bool b) => a == b
  | some (.num a), some (.num b) => a == b
  | some (.str a), some (.str b) => a == b
  | _, _ => false

/-- The `folderMap`: the entries of the `Map`, the latest `set` first. -/
abbrev FolderMap := List (Option Json × String)

/-- `folderMap.set(key, id)`. -/
def FolderMap.set (folderMap : FolderMap) (key : Option Json) (id : String) : FolderMap :=
  (key, id) :: folderMap

/-- `folderMap.get(key)`. -/
def FolderMap.get : FolderMap → Option Json → Option String
  | [], _ => none
  | (key', id) :: rest, key => if sameKey key' key then some id else FolderMap.get rest key

/-- The value `item.path || ''`. -/
def pathOrEmpty (path : Option Json) : Option Json :=
  if truthyVal path then path else some (.str "")

/-- The value `folderMap.get(item.path || '') || importFolder.id`. -/
def resolveParent (folderMap : FolderMap) (path : Option Json) (importFolderId : String) :
    String :=
  match folderMap.get (pathOrEmpty path) with
  | some id => if truthyStr id then id else importFolderId
  | none => importFolderId

/-- The date part `toISOString().split('T')[0]` of a timestamp. -/
def isoDate (now : String) : String :=
  String.mk (now.toList.takeWhile fun c => c != 'T')

mutual
/-- `createFolderStructure(folder, parentId, folderMap)`: the `folderMap` after
the call, or the error raised, and the log of calls issued so far. -/
def createFolderStructure (browser : Browser) :
    Json → String → FolderMap → List NativeCall → Except String FolderMap × List NativeCall
  | .null, _, _, log => (.error (cannotReadNull "title"), log)
  | .obj fields, parentId, folderMap, log =>
    let call := NativeCall.bookmarksCreate parentId (fields.lookup "title") none
    match browser.bookmarksCreate log call with
    | .error e => (.error e, log ++ [call])
    | .ok createdId =>
      createChildFolders browser fields createdId
        (folderMap.set (fields.lookup "path") createdId) (log ++ [call])
  | _, parentId, _, log =>
    let call := NativeCall.bookmarksCreate parentId none none
    match browser.bookmarksCreate log call with
    | .error e => (.error e, log ++ [call])
    | .ok _ => (.error (notIterable "folder.children"), log ++ [call])
/-- The loop `for (const child of folder.children)` of `createFolderStructure`,
with `folder.children` located among the fields of `folder`: an array is run
through, a string yields characters without a `type`, anything else (also an
absent `children`) is not iterable. -/
def createChildFolders (browser : Browser) :
    List (String × Json) → String → FolderMap → List NativeCall →
      Except String FolderMap × List NativeCall
  | [], _, _, log => (.error (notIterable "folder.children"), log)
  | (key, value) :: rest, createdId, folderMap, log =>
    if "children" == key then
      match value with
      | .arr children => createFolders browser children createdId folderMap log
      | .str _ => (.ok folderMap, log)
      | _ => (.error (notIterable "folder.children"), log)
    else createChildFolders browser rest createdId folderMap log
/-- The loop `for (const item of ...) if (item.type === 'folder') await
createFolderStructure(item, parentId, folderMap)`, which `restoreBookmarks` runs
over its input and `createFolderStructure` over the children of a folder. -/
def createFolders (browser : Browser) :
    List Json → String → FolderMap → List NativeCall →
      Except String FolderMap × List NativeCall
  | [], _, folderMap, log => (.ok folderMap, log)
  | .null :: _, _, _, log => (.error (cannotReadNull "type"), log)
  | .obj fields :: rest, parentId, folderMap, log =>
    if isStr (fields.lookup "type") "folder" then
      match createFolderStructure browser (.obj fields) parentId folderMap log with
      | (.error e, log') => (.error e, log')
      | (.ok folderMap', log') => createFolders browser rest parentId folderMap' log'
    else createFolders browser rest parentId folderMap log
  | _ :: rest, parentId, folderMap, log => createFolders browser rest parentId folderMap log
end

/-- The second loop of `restoreBookmarks`: `for (const item of bookmarks) if
(item.type === 'bookmark') await chrome.bookmarks.create(...)`. -/
def createBookmarkItems (browser : Browser) (importFolderId : String) (folderMap : FolderMap) :
    List Json → List NativeCall → Except String Unit × List NativeCall
  | [], log => (.ok (), log)
  | item :: rest, log =>
    match getProp item "type" with
    | .error e => (.error e, log)
    | .ok type =>
      if isStr type "bookmark" then
        let parentId := resolveParent folderMap (item.field "path") importFolderId
        let call := NativeCall.bookmarksCreate parentId (item.field "title") (item.field "url")
        match browser.bookmarksCreate log call with
        | .error e => (.error e, log ++ [call])
        | .ok _ => createBookmarkItems browser importFolderId folderMap rest (log ++ [call])
      else createBookmarkItems browser importFolderId folderMap rest log

/-- The title of the import container folder. -/
def importFolderTitle (now : String) : String :=
  "Tabby Grabby Import - " ++ isoDate now

/-- The body of the `try` block of `restoreBookmarks`, `now` being the reading of
the clock. -/
def restoreBookmarksBody (browser : Browser) (now : String) (bookmarks : List Json)
    (log : List NativeCall) : Except String Unit × List NativeCall :=
  let call := NativeCall.bookmarksCreate "1" (some (.str (importFolderTitle now))) none
  match browser.bookmarksCreate log call with
  | .error e => (.error e, log ++ [call])
  | .ok importFolderId =>
    match createFolders browser bookmarks importFolderId
        (FolderMap.set [] (some (.str "")) importFolderId) (log ++ [call]) with
    | (.error e, log') => (.error e, log')
    | (.ok folderMap, log') => createBookmarkItems browser importFolderId folderMap bookmarks log'

/-- `restoreBookmarks(bookmarks)`: the outcome and the log of calls issued so far.
Any failure inside the `try` is re-raised as 'Failed to restore bookmarks'. -/
def restoreBookmarks (browser : Browser) (now : String) (bookmarks : Json)
    (log : List NativeCall) : Except String Unit × List NativeCall :=
  match bookmarks with
  | .arr (item :: rest) =>
    match restoreBookmarksBody browser now (item :: rest) log with
    | (.error _, log') => (.error "Failed to restore bookmarks", log')
    | (.ok _, log') => (.ok (), log')
  | _ => (.ok (), log)

/-! ## A browser whose creations succeed, and the bookmark store it builds -/

/-- A browser in which every creation succeeds and the call number `k` (counted
from 0) returns the node id `ids k`; it has no bookmarks and no windows to read. -/
def idBrowser (ids : Nat → String) : Browser where
  bookmarksGetTree := fun _ => .ok []
  tabsSettleFirst := true
  parseFailure := fun _ => "Unexpected token in JSON"
  windowsGetAll := .ok []
  jsonParse := fun _ => none
  coercesPositive := fun _ => false
  bookmarksCreate := fun log _ => .ok (ids log.length)
  windowsCreate := fun log _ => .ok log.length
  tabsCreate := fun _ _ => .ok ()
  download := fun _ _ => .ok ()

/-- The title the store gives a created node: the `title` passed when it is a
string, the empty title otherwise. -/
def titleText : Option Json → String
  | some (.str title) => title
  | _ => ""

/-- The children of the node `parentId` in the bookmark store built by the calls
`calls`, the first of which is call number `k` against `idBrowser ids`: each
`chrome.bookmarks.create` under `parentId`, in call order, is a bookmark when it
carried a string `url` and a folder otherwise, and the children of a folder are
the nodes that later calls create under the id `ids k` it was given. -/
def buildStore (ids : Nat → String) : Nat → List NativeCall → String → List NativeNode
  | _, [], _ => []
  | k, .bookmarksCreate parent title url :: rest, parentId =>
    if parent == parentId then
      (match url with
        | some (.str u) => NativeNode.leaf (titleText title) (some u)
        | _ => NativeNode.dir (titleText title) none (buildStore ids (k + 1) rest (ids k))) ::
        buildStore ids (k + 1) rest parentId
    else buildStore ids (k + 1) rest parentId
  | k, _ :: rest, parentId => buildStore ids (k + 1) rest parentId

/-- The portable tree obtained by flattening what a restore of `bookmarks` into an
empty store has created under the import container folder (the first node
created, with id `ids 0`). -/
def reflattenRestored (ids : Nat → String) (now : String) (bookmarks : List PortableNode) :
    List PortableNode :=
  let log := (restoreBookmarks (idBrowser ids) now (.arr (portableToJson bookmarks)) []).2
  processChildren (buildStore ids 0 log (ids 0)) [] ""

/-- The node is of type `bookmark`. -/
def isBookmarkNode : PortableNode → Bool
  | .bookmark _ _ _ => true
  | .folder _ _ _ => false

mutual
/-- The node is not a folder with the empty path, and no folder below it is. -/
def folderPathNonEmpty : PortableNode → Bool
  | .bookmark _ _ _ => true
  | .folder _ path children => truthyStr path && folderPathsNonEmpty children
/-- No folder node of the tree, at any depth, has the empty path. -/
def folderPathsNonEmpty : List PortableNode → Bool
  | [] => true
  | node :: rest => folderPathNonEmpty node && folderPathsNonEmpty rest
end

/-- The node ids `"n"`, `"nn"`, `"nnn"`, ... -/
def freshIds (k : Nat) : String :=
  String.mk (List.replicate (k + 1) 'n')

/-- A native forest: one root holding the bookmark `Google` and the folder `Work`
with the bookmark `GitHub`. -/
def sampleForest : List NativeNode :=
  [.dir "" none [.leaf "Google" (some "https://google.com"),
    .dir "Work" none [.leaf "GitHub" (some "https://github.com")]]]

/-- The portable tree of the specification's example: the folder `Work` holding
the bookmark `Docs`. -/
def workDocs : Json :=
  .arr [.obj [("type", .str "folder"), ("title", .str "Work"), ("path", .str "Work"),
    ("children", .arr [.obj [("type", .str "bookmark"), ("title", .str "Docs"),
      ("url", .str "https://docs.example"), ("path", .str "Work")]])]]

/-! ## `ExportService.exportAll` -/

/-- `getAllBookmarks()` with its call of `chrome.bookmarks.getTree()`, the call
number `read` of the run: any failure is re-raised as 'Failed to collect
bookmarks'. -/
def getAllBookmarksOf (browser : Browser) (read : Nat) : Except String (List PortableNode) :=
  match browser.bookmarksGetTree read with
  | .error _ => .error "Failed to collect bookmarks"
  | .ok bookmarkTree => .ok (getAllBookmarks bookmarkTree)

/-- `getBookmarkCount()` with its call of `getAllBookmarks()`, whose failure it does
not catch. -/
def getBookmarkCountOf (browser : Browser) (read : Nat) : Except String Nat :=
  match getAllBookmarksOf browser read with
  | .error e => .error e
  | .ok bookmarks => .ok (countBookmarks bookmarks 0)

/-- What `exportAll` returns. -/
structure ExportResult where
  success : Bool
  filename : String
  tabCount : Nat
  bookmarkCount : Nat

/-- `toISOString().slice(0, 19).replace(/[:.]/g, '-')`. -/
def filenameTimestamp (now : String) : String :=
  String.mk ((now.toList.take 19).map fun c => if c == ':' || c == '.' then '-' else c)

/-- The name of the export file. -/
def exportFilename (now : String) : String :=
  "tabby-grabby-export-" ++ filenameTimestamp now ++ ".json"

/-- `downloadJSON(data, filename)`: the document is handed to
`chrome.downloads.download`; a failure is re-raised as 'Failed to download
file'. -/
def downloadJSON (browser : Browser) (data : ExportDocument) (filename : String)
    (log : List NativeCall) : Except String Unit × List NativeCall :=
  let call := NativeCall.download data filename
  match browser.download log call with
  | .error _ => (.error "Failed to download file", log ++ [call])
  | .ok _ => (.ok (), log ++ [call])

/-- The body of the `try` block of `exportAll`; `now₁` and `now₂` are the two
readings of the clock.  The two collections of the `Promise.all` are both
started, the bookmark collection making the first call of
`chrome.bookmarks.getTree()`; when both fail, the failure reported is that of
the one that settles first.  The two calls of `getBookmarkCount()`, one for
`exportInfo` and one after the download for the returned object, make the
second and the third call of `chrome.bookmarks.getTree()`. -/
def exportAllBody (browser : Browser) (now₁ now₂ : String) (log : List NativeCall) :
    Except String ExportResult × List NativeCall :=
  match getAllTabs browser, getAllBookmarksOf browser 0 with
  | .error e₁, .error e₂ => (.error (if browser.tabsSettleFirst then e₁ else e₂), log)
  | .error e, .ok _ => (.error e, log)
  | .ok _, .error e => (.error e, log)
  | .ok tabs, .ok bookmarks =>
    match getBookmarkCountOf browser 1 with
    | .error e => (.error e, log)
    | .ok bookmarkCount =>
      let exportData : ExportDocument :=
        ⟨⟨now₁, "1.0.0", "Tabby Grabby", tabs.length, bookmarkCount⟩, tabs, bookmarks⟩
      let filename := exportFilename now₂
      match downloadJSON browser exportData filename log with
      | (.error e, log') => (.error e, log')
      | (.ok _, log') =>
        match getBookmarkCountOf browser 2 with
        | .error e => (.error e, log')
        | .ok returnedCount => (.ok ⟨true, filename, tabs.length, returnedCount⟩, log')

/-- `exportAll()`: the result and the log of calls issued so far.  Any failure is
re-raised with the message 'Failed to export data: ' followed by its own. -/
def exportAll (browser : Browser) (now₁ now₂ : String) (log : List NativeCall) :
    Except String ExportResult × List NativeCall :=
  match exportAllBody browser now₁ now₂ log with
  | (.error e, log') => (.error ("Failed to export data: " ++ e), log')
  | (.ok result, log') => (.ok result, log')

/-! ## `ImportService.processImport` / `importFromFile` -/

/-- The number of UTF-16 code units of a string, its JavaScript `length`. -/
def utf16Length (s : String) : Nat :=
  (s.toList.map fun c => if c.val < 65536 then 1 else 2).sum

/-- The property `v.length` of a truthy value: the number of elements of an array,
the length of a string, the field `length` of an object, `undefined` for a number
or boolean. -/
def lengthOf : Json → Option Json
  | .arr elems => some (.num elems.length)
  | .str s => some (.num (utf16Length s))
  | .obj fields => fields.lookup "length"
  | _ => none

/-- The comparison `v > 0`: `undefined` compares as NaN, `null` as 0, `true` as 1;
strings, arrays and objects are coerced by the engine. -/
def greaterThanZero (browser : Browser) : Option Json → Bool
  | none => false
  | some .null => false
  | some (.bool b) => b
  | some (.num n) => decide (0 < n)
  | some v => browser.coercesPositive v

/-- The `results` object of `processImport`. -/
structure ImportResults where
  tabsImported : Option Json
  bookmarksImported : Nat
  errors : List String

/-- The first `try` block of `processImport`: the value of `results.tabsImported`
after it, the error messages it pushed, and the log. -/
def importTabs (browser : Browser) (importData : Json) (log : List NativeCall) :
    (Option Json × List String) × List NativeCall :=
  match getProp importData "openTabs" with
  | .error e => ((some (.num 0), ["Failed to import tabs: " ++ e]), log)
  | .ok none => ((some (.num 0), []), log)
  | .ok (some openTabs) =>
    if openTabs.truthy && greaterThanZero browser (lengthOf openTabs) then
      match restoreTabs browser openTabs log with
      | (.error e, log') => ((some (.num 0), ["Failed to import tabs: " ++ e]), log')
      | (.ok _, log') => ((lengthOf openTabs, []), log')
    else ((some (.num 0), []), log)

/-- The second `try` block of `processImport`: the value of
`results.bookmarksImported` after it, the error messages it pushed, and the
log. -/
def importBookmarks (browser : Browser) (now : String) (importData : Json)
    (log : List NativeCall) : (Nat × List String) × List NativeCall :=
  match getProp importData "bookmarks" with
  | .error e => ((0, ["Failed to import bookmarks: " ++ e]), log)
  | .ok none => ((0, []), log)
  | .ok (some bookmarks) =>
    if bookmarks.truthy && greaterThanZero browser (lengthOf bookmarks) then
      match restoreBookmarks browser now bookmarks log with
      | (.error e, log') => ((0, ["Failed to import bookmarks: " ++ e]), log')
      | (.ok _, log') =>
        match countBookmarksInData bookmarks with
        | .error e => ((0, ["Failed to import bookmarks: " ++ e]), log')
        | .ok count => ((count, []), log')
    else ((0, []), log)

/-- `processImport(importData)`: the `results` and the log of calls issued so
far. -/
def processImport (browser : Browser) (now : String) (importData : Json)
    (log : List NativeCall) : ImportResults × List NativeCall :=
  match importTabs browser importData log with
  | ((tabsImported, tabErrors), log') =>
    match importBookmarks browser now importData log' with
    | ((bookmarksImported, bookmarkErrors), log'') =>
      (⟨tabsImported, bookmarksImported, tabErrors ++ bookmarkErrors⟩, log'')

/-- A `File` handed to `importFromFile`: its MIME type and what reading it as text
yields, the content or the failure of the reader. -/
structure ImportFile where
  type : String
  content : Except String String

/-- What `importFromFile` returns: `success: true` and the fields of `results`. -/
structure ImportReport where
  success : Bool
  tabsImported : Option Json
  bookmarksImported : Nat
  errors : List String

/-- The body of the `try` block of `importFromFile`. -/
def importFromFileBody (browser : Browser) (now : String) (file : Option ImportFile)
    (log : List NativeCall) : Except String ImportReport × List NativeCall :=
  match file with
  | none => (.error "Please select a valid JSON file", log)
  | some file =>
    if file.type != "application/json" then (.error "Please select a valid JSON file", log)
    else
      match file.content with
      | .error e => (.error e, log)
      | .ok fileContent =>
        match browser.jsonParse fileContent with
        | none => (.error "Invalid JSON format", log)
        | some importData =>
          match validateImportData importData with
          | .error e => (.error e, log)
          | .ok false => (.error "Invalid import data format", log)
          | .ok true =>
            match processImport browser now importData log with
            | (results, log') =>
              (.ok ⟨true, results.tabsImported, results.bookmarksImported, results.errors⟩,
                log')

/-- `importFromFile(file)`: the report and the log of calls issued so far.  Any
failure is re-raised with the message 'Failed to import data: ' followed by its
own. -/
def importFromFile (browser : Browser) (now : String) (file : Option ImportFile)
    (log : List NativeCall) : Except String ImportReport × List NativeCall :=
  match importFromFileBody browser now file log with
  | (.error e, log') => (.error ("Failed to import data: " ++ e), log')
  | (.ok report, log') => (.ok report, log')

/-! ## Sample host -/

/-- The text of the corrupted document of the integration tests,
`openTabs` a string and `bookmarks` null. -/
def corruptedText : String :=
  "\x7b\"openTabs\":\"not an array\",\"bookmarks\":null\x7d"

/-- A host with one window of two tabs (one of them internal), the sample forest
as its bookmarks, fresh node ids, and a `JSON.parse` that reads the corrupted
document and rejects every other text. -/
def sampleBrowser : Browser where
  bookmarksGetTree := fun _ => .ok sampleForest
  tabsSettleFirst := true
  parseFailure := fun _ => "Unexpected token in JSON"
  windowsGetAll := .ok [⟨1, [⟨some "https://example.com", "Example", 0, false, true⟩,
    ⟨some "chrome://settings", "Settings", 1, false, false⟩]⟩]
  jsonParse := fun text =>
    if text == corruptedText then
      some (.obj [("openTabs", .str "not an array"), ("bookmarks", .null)])
    else none
  coercesPositive := fun _ => false
  bookmarksCreate := fun log _ => .ok (freshIds log.length)
  windowsCreate := fun log _ => .ok log.length
  tabsCreate := fun _ _ => .ok ()
  download := fun _ _ => .ok ()

/-! ## Tab flattening and restoring, in the words of the specification -/

/-- The url satisfies `isValidUrl`: the call returns `true`. -/
def satisfiesIsValidUrl (url : Option Json) : Bool :=
  match isValidUrl url with
  | .ok true => true
  | _ => false

/-- The record `{url, title, windowId, index, pinned, active}` of a native tab of
the window `windowId`. -/
def tabRecord (windowId : Nat) (tab : NativeTab) : PortableTab :=
  ⟨tab.url.getD "", tab.title, windowId, tab.index, tab.pinned, tab.active⟩

/-- The tabs of one window whose url satisfies `isValidUrl`, in their given order,
as records. -/
def windowTabRecords (window : NativeWindow) : List PortableTab :=
  (window.tabs.filter fun tab => satisfiesIsValidUrl (tab.url.map Json.str)).map
    (tabRecord window.id)

/-- The concatenation, in window order, of the records of each window. -/
def flattenedTabs : List NativeWindow → List PortableTab
  | [] => []
  | window :: rest => windowTabRecords window ++ flattenedTabs rest

/-- The total number of native tabs. -/
def nativeTabCount : List NativeWindow → Nat
  | [] => 0
  | window :: rest => window.tabs.length + nativeTabCount rest

/-- The value is a tab record: an object whose `url`, when it has one, is a string
and whose `pinned`, when it has one, is a boolean. -/
def isTabRecord : Json → Bool
  | .obj fields =>
    (match fields.lookup "url" with
      | none => true
      | some (.str _) => true
      | _ => false) &&
    (match fields.lookup "pinned" with
      | none => true
      | some (.bool _) => true
      | _ => false)
  | _ => false

/-- The `pinned` flag of a tab record, `false` when absent. -/
def pinnedOf (tab : Json) : Json :=
  match tab.field "pinned" with
  | some v => v
  | none => .bool false

/-- One `chrome.tabs.create` call in the window `windowId`, with `active = false`,
for each of the entries whose url satisfies `isValidUrl`, in their order. -/
def expectedTabCalls (windowId : Nat) (entries : List Json) : List NativeCall :=
  (entries.filter fun tab => satisfiesIsValidUrl (tab.field "url")).map fun tab =>
    .tabsCreate windowId (tab.field "url") (pinnedOf tab) false

/-- A list of two tabs, the first with an internal url. -/
def internalFirstTabs : Json :=
  .arr [.obj [("url", .str "chrome://settings"), ("title", .str "Settings")],
    .obj [("url", .str "https://example.com"), ("title", .str "Example")]]

/-- The list of the test "should create new window and tabs". -/
def twoTabs : Json :=
  .arr [.obj [("url", .str "https://example.com"), ("title", .str "Example"),
      ("pinned", .bool false)],
    .obj [("url", .str "https://google.com"), ("title", .str "Google"),
      ("pinned", .bool true)]]

/-- An `Except` outcome is a raised error. -/
def raised {α : Type} : Except String α → Bool
  | .error _ => true
  | .ok _ => false

/-- The text of the document `validImportData`. -/
def validText : String :=
  "\x7b\"openTabs\":[\x7b\"url\":\"https://example.com\",\"title\":\"Example\"\x7d]," ++
    "\"bookmarks\":[\x7b\"type\":\"bookmark\",\"title\":\"Google\"," ++
    "\"url\":\"https://google.com\"\x7d]\x7d"

/-- A host in which every creation of a window or bookmark fails with 'Permission
denied', and whose `JSON.parse` reads the document `validImportData`. -/
def failingBrowser : Browser where
  bookmarksGetTree := fun _ => .ok sampleForest
  tabsSettleFirst := true
  parseFailure := fun _ => "Unexpected token in JSON"
  windowsGetAll := .ok []
  jsonParse := fun text => if text == validText then some validImportData else none
  coercesPositive := fun _ => false
  bookmarksCreate := fun _ _ => .error "Permission denied"
  windowsCreate := fun _ _ => .error "Permission denied"
  tabsCreate := fun _ _ => .error "Permission denied"
  download := fun _ _ => .error "Permission denied"

/-- A host in which every window creation fails and every other call succeeds, and
whose `JSON.parse` reads the document `validImportData`. -/
def noWindowBrowser : Browser where
  bookmarksGetTree := fun _ => .ok sampleForest
  tabsSettleFirst := true
  parseFailure := fun _ => "Unexpected token in JSON"
  windowsGetAll := .ok []
  jsonParse := fun text => if text == validText then some validImportData else none
  coercesPositive := fun _ => false
  bookmarksCreate := fun log _ => .ok (freshIds log.length)
  windowsCreate := fun _ _ => .error "Permission denied"
  tabsCreate := fun _ _ => .ok ()
  download := fun _ _ => .ok ()

/-- A host in which every bookmark creation fails and every other call succeeds. -/
def noBookmarkBrowser : Browser where
  bookmarksGetTree := fun _ => .ok sampleForest
  tabsSettleFirst := true
  parseFailure := fun _ => "Unexpected token in JSON"
  windowsGetAll := .ok []
  jsonParse := fun text => if text == validText then some validImportData else none
  coercesPositive := fun _ => false
  bookmarksCreate := fun _ _ => .error "Permission denied"
  windowsCreate := fun log _ => .ok log.length
  tabsCreate := fun _ _ => .ok ()
  download := fun _ _ => .ok ()

/-! ## Folder creation order, in the words of the specification -/

/-- The creation of one folder: the `parentId` of the call, the folder's `title`
and `path`, and the `id` the browser returned for it. -/
structure FolderCreation where
  parentId : String
  title : String
  path : String
  id : String

mutual
/-- The folder creations for one node and the folders below it, the next call
being call number `k`: a folder is created under `parentId` and given the id
`ids k`; the folders among its children follow, created under that id. -/
def folderCreationsOf (ids : Nat → String) : Nat → String → PortableNode → List FolderCreation
  | _, _, .bookmark _ _ _ => []
  | k, parentId, .folder title path children =>
    ⟨parentId, title, path, ids k⟩ :: folderCreations ids (k + 1) (ids k) children
/-- The folder creations for the nodes of a list, all under `parentId`, parent
before child and in list order. -/
def folderCreations (ids : Nat → String) : Nat → String → List PortableNode → List FolderCreation
  | _, _, [] => []
  | k, parentId, node :: rest =>
    folderCreationsOf ids k parentId node ++
      folderCreations ids (k + (folderCreationsOf ids k parentId node).length) parentId rest
end

/-- The native call of a folder creation: its title and no url. -/
def FolderCreation.toCall (creation : FolderCreation) : NativeCall :=
  .bookmarksCreate creation.parentId (some (.str creation.title)) none

/-- The folder map after the creations have been recorded in it, in order. -/
def recordCreations (creations : List FolderCreation) (folderMap : FolderMap) : FolderMap :=
  creations.foldl (fun m creation => m.set (some (.str creation.path)) creation.id) folderMap

/-- Every creation is under a node of `known` or under a folder created earlier in
the list. -/
def parentsPrecede : List String → List FolderCreation → Bool
  | _, [] => true
  | known, creation :: rest =>
    known.contains creation.parentId && parentsPrecede (creation.id :: known) rest

mutual
/-- The number of folder nodes in the subtree of a node. -/
def folderNodesOf : PortableNode → Nat
  | .bookmark _ _ _ => 0
  | .folder _ _ children => 1 + folderNodes children
/-- The number of folder nodes of a portable tree, at any depth. -/
def folderNodes : List PortableNode → Nat
  | [] => 0
  | node :: rest => folderNodesOf node + folderNodes rest
end

/-- The calls of the second loop of `restoreBookmarks` on a portable tree: one for
each top-level bookmark, under the parent its path resolves to in `folderMap`. -/
def bookmarkCallsWith (folderMap : FolderMap) (importFolderId : String) :
    List PortableNode → List NativeCall
  | [] => []
  | .bookmark title url path :: rest =>
    .bookmarksCreate (resolveParent folderMap (some (.str path)) importFolderId)
      (some (.str title)) (some (.str url)) :: bookmarkCallsWith folderMap importFolderId rest
  | .folder _ _ _ :: rest => bookmarkCallsWith folderMap importFolderId rest

/-- The call carries a `url`. -/
def carriesUrl : NativeCall → Bool
  | .bookmarksCreate _ _ (some _) => true
  | _ => false

/-- A portable tree with nested folders: `A` holding `B` holding a bookmark, and
a second top-level folder `C`. -/
def nestedTree : List PortableNode :=
  [.folder "A" "A" [.folder "B" "A/B" [.bookmark "x" "https://x.example" "A/B"]],
    .folder "C" "C" [.bookmark "y" "https://y.example" "C"]]

mutual
/-- The path of a folder node followed by the paths of the folders below it. -/
def folderPathsOf : PortableNode → List String
  | .bookmark _ _ _ => []
  | .folder _ path children => path :: folderPaths children
/-- The paths of the folder nodes of a portable tree, at any depth. -/
def folderPaths : List PortableNode → List String
  | [] => []
  | node :: rest => folderPathsOf node ++ folderPaths rest
end

/-- The flattened form of a forest whose root holds a folder with the empty title
(holding the bookmark `X`) and the bookmark `B`. -/
def emptyTitleTree : List PortableNode :=
  [.folder "" "" [.bookmark "X" "https://x.example" ""],
    .bookmark "B" "https://b.example" ""]

/-! ## The export document as JSON -/

/-- The JSON form of an exported tab. -/
def PortableTab.toJson (tab : PortableTab) : Json :=
  .obj [("url", .str tab.url), ("title", .str tab.title), ("windowId", .num tab.windowId),
    ("index", .num tab.index), ("pinned", .bool tab.pinned), ("active", .bool tab.active)]

/-- The JSON form of the `exportInfo` block. -/
def ExportInfo.toJson (info : ExportInfo) : Json :=
  .obj [("timestamp", .str info.timestamp), ("version", .str info.version),
    ("extensionName", .str info.extensionName), ("tabCount", .num info.tabCount),
    ("bookmarkCount", .num info.bookmarkCount)]

/-- The JSON form of an export document, `JSON.parse(JSON.stringify(exportData))`. -/
def ExportDocument.toJson (document : ExportDocument) : Json :=
  .obj [("exportInfo", document.exportInfo.toJson),
    ("openTabs", .arr (document.openTabs.map PortableTab.toJson)),
    ("bookmarks", .arr (portableToJson document.bookmarks))]

mutual
/-- The node and every node below it have a non-empty title. -/
def titledNode : NativeNode → Bool
  | .leaf title _ => truthyStr title
  | .dir title _ children => truthyStr title && titledNodes children
/-- Every node of the forest, at any depth, has a non-empty title. -/
def titledNodes : List NativeNode → Bool
  | [] => true
  | node :: rest => titledNode node && titledNodes rest
end

/-- Every node strictly below a forest root has a non-empty title. -/
def titledBelowRoots : List NativeNode → Bool
  | [] => true
  | .leaf _ _ :: rest => titledBelowRoots rest
  | .dir _ _ children :: rest => titledNodes children && titledBelowRoots rest

/-- Every tab of every window has a non-empty title. -/
def titledTabs (windows : List NativeWindow) : Bool :=
  windows.all fun window => window.tabs.all fun tab => truthyStr tab.title

/-- Every top-level node of a portable tree has a non-empty title. -/
def topTitlesTruthy : List PortableNode → Bool
  | [] => true
  | .bookmark title _ _ :: rest => truthyStr title && topTitlesTruthy rest
  | .folder title _ _ :: rest => truthyStr title && topTitlesTruthy rest

/-! ## Export followed by import -/

/-- The document that `exportAll` assembles from the windows and the bookmark
forest of the browser, `now` being the first reading of the clock. -/
def exportedDocument (now : String) (windows : List NativeWindow) (forest : List NativeNode) :
    ExportDocument :=
  ⟨⟨now, "1.0.0", "Tabby Grabby", (flattenedTabs windows).length,
      bookmarkNodes (getAllBookmarks forest)⟩,
    flattenedTabs windows, getAllBookmarks forest⟩

/-- The windows of the sample host. -/
def sampleWindows : List NativeWindow :=
  [⟨1, [⟨some "https://example.com", "Example", 0, false, true⟩,
    ⟨some "chrome://settings", "Settings", 1, false, false⟩]⟩]

/-- The text of the document exported from the sample host. -/
def exportedText : String :=
  "\x7b\"exportInfo\":\x7b\"timestamp\":\"2026-11-04T09:30:00.000Z\",\"ve" ++
    "rsion\":\"1.0.0\",\"extensionName\":\"Tabby Grabby\",\"tabCount\":1,\"" ++
    "bookmarkCount\":2\x7d,\"openTabs\":[\x7b\"url\":\"https://example.com\"" ++
    ",\"title\":\"Example\",\"windowId\":1,\"index\":0,\"pinned\":false,\"a" ++
    "ctive\":true\x7d],\"bookmarks\":[\x7b\"type\":\"bookmark\",\"title\":\"" ++
    "Google\",\"url\":\"https://google.com\",\"path\":\"\"\x7d,\x7b\"type\"" ++
    ":\"folder\",\"title\":\"Work\",\"path\":\"Work\",\"children\":[\x7b\"t" ++
    "ype\":\"bookmark\",\"title\":\"GitHub\",\"url\":\"https://github.com\"" ++
    ",\"path\":\"Work\"\x7d]\x7d]\x7d"

/-- A host in which every creation succeeds and whose `JSON.parse` reads the
document exported from the sample host. -/
def importingBrowser : Browser where
  bookmarksGetTree := fun _ => .ok []
  tabsSettleFirst := true
  parseFailure := fun _ => "Unexpected token in JSON"
  windowsGetAll := .ok []
  jsonParse := fun text =>
    if text == exportedText then
      some (exportedDocument "2026-11-04T09:30:00.000Z" sampleWindows sampleForest).toJson
    else none
  coercesPositive := fun _ => false
  bookmarksCreate := fun log _ => .ok (freshIds log.length)
  windowsCreate := fun log _ => .ok log.length
  tabsCreate := fun _ _ => .ok ()
  download := fun _ _ => .ok ()

/-! ## Flattening, in the words of the specification -/

/-- What one root contributes to the output of `getAllBookmarks`: the flattening
of its children with parent path `''`, and nothing when it has no `children`
list. -/
def rootContribution : NativeNode → List PortableNode
  | .leaf _ _ => []
  | .dir _ _ children => processChildren children [] ""

/-- The concatenation, in root order, of the contributions of the roots. -/
def rootContributions : List NativeNode → List PortableNode
  | [] => []
  | root :: rest => rootContribution root ++ rootContributions rest

/-- The root with its title replaced. -/
def retitled (title : String) : NativeNode → NativeNode
  | .leaf _ url => .leaf title url
  | .dir _ url children => .dir title url children

/-- The image of a native child in the output, under the parent path
`parentPath`: a leaf with a non-empty url becomes a bookmark, a folder whose
flattened content is not empty becomes a folder node holding it, and any other
child is omitted. -/
def nodeImage (parentPath : String) : NativeNode → Option PortableNode
  | .leaf title url =>
    if truthyUrl url then some (.bookmark title (url.getD "") parentPath) else none
  | .dir title _ children =>
    if (processChildren children [] (folderPathOf parentPath title)).length > 0 then
      some (.folder title (folderPathOf parentPath title)
        (processChildren children [] (folderPathOf parentPath title)))
    else none

/-- The number of bookmark entries at the top level of a portable tree. -/
def topBookmarks : List PortableNode → Nat
  | [] => 0
  | .bookmark _ _ _ :: rest => 1 + topBookmarks rest
  | .folder _ _ _ :: rest => topBookmarks rest

/-- The input of the test "should create import folder and restore bookmarks": a
top-level bookmark and a folder holding one bookmark. -/
def restoreTestTree : List PortableNode :=
  [.bookmark "Google" "https://google.com" "",
    .folder "Work" "Work" [.bookmark "GitHub" "https://github.com" "Work"]]

/-! ## `ExportService.validateExportData` -/

/-- The list `requiredProps` of `validateExportData`. -/
def requiredProps : List String := ["exportInfo", "openTabs", "bookmarks"]

/-- `Array.isArray(v)` for a value that may be `undefined`. -/
def isArrayVal : Option Json → Bool
  | some (.arr _) => true
  | _ => false

/-- `validateExportData(data)`.  No step of it can raise: the `in` tests are
reached only for a value that is an object. -/
def validateExportData (data : Json) : Bool :=
  if !data.truthy || !data.typeofObject then false
  else if requiredProps.any fun prop => !data.hasKey prop then false
  else if !isArrayVal (data.field "openTabs") || !isArrayVal (data.field "bookmarks") then false
  else true

/-- A document with the three keys whose only tab entry is empty. -/
def emptyTabDocument : Json :=
  .obj [("exportInfo", .obj []), ("openTabs", .arr [.obj []]), ("bookmarks", .arr [])]

/-! ## `ImportService.getImportPreview` -/

/-- What `getImportPreview` returns: `{valid: true, tabCount, bookmarkCount,
exportInfo}` or `{valid: false, error}`. -/
inductive ImportPreview where
  | valid (tabCount : Option Json) (bookmarkCount : Nat) (exportInfo : Json)
  | invalid (error : String)

/-- The value `importData.exportInfo || null`. -/
def exportInfoOrNull (exportInfo : Option Json) : Json :=
  match exportInfo with
  | some v => if v.truthy then v else .null
  | none => .null

/-- The value `importData.openTabs ? importData.openTabs.length : 0`. -/
def previewTabCount (openTabs : Option Json) : Option Json :=
  match openTabs with
  | some v => if v.truthy then lengthOf v else some (.num 0)
  | none => some (.num 0)

/-- The value `importData.bookmarks ? this.countBookmarksInData(importData.bookmarks)
: 0`. -/
def previewBookmarkCount (bookmarks : Option Json) : Except String Nat :=
  match bookmarks with
  | some v => if v.truthy then countBookmarksInData v else .ok 0
  | none => .ok 0

/-- `getImportPreview(file)`.  It reads and parses the file, validates the
document and counts; it takes no log of native calls because it issues none.
Every failure inside the `try` becomes `{valid: false, error}`. -/
def getImportPreview (browser : Browser) (file : ImportFile) : ImportPreview :=
  match file.content with
  | .error e => .invalid e
  | .ok fileContent =>
    match browser.jsonParse fileContent with
    | none => .invalid (browser.parseFailure fileContent)
    | some importData =>
      match validateImportData importData with
      | .error e => .invalid e
      | .ok false => .invalid "Invalid import data format"
      | .ok true =>
        match previewBookmarkCount (importData.field "bookmarks") with
        | .error e => .invalid e
        | .ok bookmarkCount =>
          .valid (previewTabCount (importData.field "openTabs")) bookmarkCount
            (exportInfoOrNull (importData.field "exportInfo"))

/-- A document that `validateImportData` accepts and in which a folder holds a
`null` child. -/
def nullChildDocument : Json :=
  .obj [("openTabs", .arr []),
    ("bookmarks", .arr [.obj [("type", .str "folder"), ("title", .str "F"),
      ("children", .arr [.null])]])]

/-- The text of `nullChildDocument`. -/
def nullChildText : String :=
  "\x7b\"openTabs\":[],\"bookmarks\":[\x7b\"type\":\"folder\",\"title\":\"F\"," ++
    "\"children\":[null]\x7d]\x7d"

/-- A host whose `JSON.parse` reads `validImportData` and `nullChildDocument`. -/
def previewBrowser : Browser where
  bookmarksGetTree := fun _ => .ok []
  tabsSettleFirst := true
  parseFailure := fun _ => "Unexpected token in JSON"
  windowsGetAll := .ok []
  jsonParse := fun text =>
    if text == validText then some validImportData
    else if text == nullChildText then some nullChildDocument
    else none
  coercesPositive := fun _ => false
  bookmarksCreate := fun log _ => .ok (freshIds log.length)
  windowsCreate := fun log _ => .ok log.length
  tabsCreate := fun _ _ => .ok ()
  download := fun _ _ => .ok ()

/-- A forest whose root holds one bookmark with an empty title. -/
def untitledForest : List NativeNode :=
  [.dir "" none [.leaf "" (some "https://example.com")]]

/-! ## Folder paths, in the words of the specification -/

/-- The titles joined with `'/'`. -/
def joinTitles (titles : List String) : String :=
  "/".intercalate titles

/-- The titles from the first non-empty one on, joined with `'/'`. -/
def joinFromFirstNonEmpty (titles : List String) : String :=
  joinTitles (titles.dropWhile fun title => title == "")

mutual
/-- The path of a folder node is `expected chain`, where `chain` lists the titles
of the folder nodes from its top-level ancestor down to itself, `ancestors` being
the titles above the node; and so for every folder node below it. -/
def pathIsOf (expected : List String → String) : List String → PortableNode → Bool
  | _, .bookmark _ _ _ => true
  | ancestors, .folder title path children =>
    decide (path = expected (ancestors ++ [title])) &&
      pathsAre expected (ancestors ++ [title]) children
/-- Every folder node of the list, at any depth, has the path `expected chain`. -/
def pathsAre (expected : List String → String) : List String → List PortableNode → Bool
  | _, [] => true
  | ancestors, node :: rest =>
    pathIsOf expected ancestors node && pathsAre expected ancestors rest
end

/-- The top-level folder nodes have their own title as path. -/
def topPathsAreTitles : List PortableNode → Bool
  | [] => true
  | .folder title path _ :: rest => decide (path = title) && topPathsAreTitles rest
  | .bookmark _ _ _ :: rest => topPathsAreTitles rest

/-- A forest whose root holds a folder with the empty title, holding the folder
`x`, holding a bookmark. -/
def emptyTitleForest : List NativeNode :=
  [.dir "" none [.dir "" none [.dir "x" none [.leaf "b" (some "https://b.example")]]]]

/-- The titles of the top-level folder nodes of a portable tree. -/
def topFolderTitles : List PortableNode → List String
  | [] => []
  | .folder title _ _ :: rest => title :: topFolderTitles rest
  | .bookmark _ _ _ :: rest => topFolderTitles rest

/-- The title is not empty and holds no `'/'`. -/
def cleanTitle (title : String) : Bool :=
  title != "" && !title.data.contains '/'

mutual
/-- The folder titles in the subtree of the node are clean. -/
def titlesCleanOf : PortableNode → Bool
  | .bookmark _ _ _ => true
  | .folder title _ children => cleanTitle title && titlesClean children
/-- Every folder node of the tree, at any depth, has a title that is not empty
and holds no `'/'`. -/
def titlesClean : List PortableNode → Bool
  | [] => true
  | node :: rest => titlesCleanOf node && titlesClean rest
end

mutual
/-- Below the node, the folders held by one folder have pairwise distinct titles. -/
def distinctBelowOf : PortableNode → Bool
  | .bookmark _ _ _ => true
  | .folder _ _ children => decide (topFolderTitles children).Nodup && distinctBelow children
/-- Below every node of the list, the folders held by one folder have pairwise
distinct titles. -/
def distinctBelow : List PortableNode → Bool
  | [] => true
  | node :: rest => distinctBelowOf node && distinctBelow rest
end

/-- Sibling folders have pairwise distinct titles, at the top level and inside
every folder. -/
def siblingTitlesDistinct (tree : List PortableNode) : Bool :=
  decide (topFolderTitles tree).Nodup && distinctBelow tree

/-- A forest with the two roots of a browser, each holding a folder `Work` with a
bookmark. -/
def twoWorkForest : List NativeNode :=
  [.dir "Bookmarks bar" none [.dir "Work" none [.leaf "a" (some "https://a.example")]],
    .dir "Other bookmarks" none [.dir "Work" none [.leaf "b" (some "https://b.example")]]]

/-! ## Abort of a restore, in the words of the specification -/

/-- The call is a `chrome.bookmarks.create`. -/
def isBookmarkCreation : NativeCall → Bool
  | .bookmarksCreate _ _ _ => true
  | _ => false

/-- Every call of the list succeeds when the calls are issued in order after the
calls of `log`. -/
def succeedFrom (browser : Browser) : List NativeCall → List NativeCall → Bool
  | _, [] => true
  | log, call :: rest =>
    (match browser.bookmarksCreate log call with
      | .ok _ => true
      | .error _ => false) && succeedFrom browser (log ++ [call]) rest

/-- A browser in which the bookmark creation number `k` (counted from 0) fails and
every other one returns a fresh id. -/
def failingAt (k : Nat) : Browser where
  bookmarksGetTree := fun _ => .ok []
  tabsSettleFirst := true
  parseFailure := fun _ => "Unexpected token in JSON"
  windowsGetAll := .ok []
  jsonParse := fun _ => none
  coercesPositive := fun _ => false
  bookmarksCreate := fun log _ =>
    if log.length = k then .error "Bookmark quota exceeded" else .ok (freshIds log.length)
  windowsCreate := fun log _ => .ok log.length
  tabsCreate := fun _ _ => .ok ()
  download := fun _ _ => .ok ()

/-! ## Further sample hosts and inputs -/

/-- The sample host with a bookmark tree that can be read twice: the third call of
`chrome.bookmarks.getTree()`, made after the download, fails. -/
def lateFailingBrowser : Browser where
  bookmarksGetTree := fun read =>
    if read < 2 then .ok sampleForest else .error "Extension context invalidated"
  tabsSettleFirst := true
  parseFailure := fun _ => "Unexpected token in JSON"
  windowsGetAll := .ok sampleWindows
  jsonParse := fun _ => none
  coercesPositive := fun _ => false
  bookmarksCreate := fun log _ => .ok (freshIds log.length)
  windowsCreate := fun log _ => .ok log.length
  tabsCreate := fun _ _ => .ok ()
  download := fun _ _ => .ok ()

/-- The sample host with the bookmark forest `untitledForest`. -/
def untitledBrowser : Browser where
  bookmarksGetTree := fun _ => .ok untitledForest
  tabsSettleFirst := true
  parseFailure := fun _ => "Unexpected token in JSON"
  windowsGetAll := .ok sampleWindows
  jsonParse := fun _ => none
  coercesPositive := fun _ => false
  bookmarksCreate := fun log _ => .ok (freshIds log.length)
  windowsCreate := fun log _ => .ok log.length
  tabsCreate := fun _ _ => .ok ()
  download := fun _ _ => .ok ()

/-- Every exported tab and every top-level node of the exported bookmark tree has
a non-empty title. -/
def exportedTitlesTruthy (windows : List NativeWindow) (forest : List NativeNode) : Bool :=
  ((flattenedTabs windows).all fun tab => truthyStr tab.title) &&
    topTitlesTruthy (getAllBookmarks forest)

/-- Windows in which a tab with an internal url has no title. -/
def internalUntitledWindows : List NativeWindow :=
  [⟨1, [⟨some "https://example.com", "Example", 0, false, true⟩,
    ⟨some "chrome://settings", "", 1, false, false⟩]⟩]

/-- A forest in which a bookmark inside a folder has no title. -/
def nestedUntitledForest : List NativeNode :=
  [.dir "" none [.dir "Work" none [.leaf "" (some "https://github.com")]]]

/-- A list of three tabs with a title each, the second with the number 5 as
`url`. -/
def numberUrlTabs : List Json :=
  [.obj [("url", .str "https://a.example"), ("title", .str "A")],
    .obj [("url", .num 5), ("title", .str "B")],
    .obj [("url", .str "https://c.example"), ("title", .str "C")]]

/-- A forest with nested folders: `A` holding `B` and a second top-level folder
`C`. -/
def nestedForest : List NativeNode :=
  [.dir "" none
    [.dir "A" none [.dir "B" none [.leaf "x" (some "https://x.example")]],
      .dir "C" none [.leaf "y" (some "https://y.example")]]]

/-- The sample host with the windows `internalUntitledWindows` and the forest
`nestedUntitledForest`. -/
def internalUntitledBrowser : Browser where
  bookmarksGetTree := fun _ => .ok nestedUntitledForest
  tabsSettleFirst := true
  parseFailure := fun _ => "Unexpected token in JSON"
  windowsGetAll := .ok internalUntitledWindows
  jsonParse := fun _ => none
  coercesPositive := fun _ => false
  bookmarksCreate := fun log _ => .ok (freshIds log.length)
  windowsCreate := fun log _ => .ok log.length
  tabsCreate := fun _ _ => .ok ()
  download := fun _ _ => .ok ()

/-! ## Auxiliary notions for the restore proofs -/

/-- A call that creates a node without a `url`. -/
def urlFreeCall : NativeCall → Bool
  | .bookmarksCreate _ _ none => true
  | _ => false

/-- The calls of the second loop of `restoreBookmarks` for top-level bookmarks
created under the folder `parentId`. -/
def topBookmarkCalls (parentId : String) : List PortableNode → List NativeCall
  | [] => []
  | .bookmark title url _ :: rest =>
    .bookmarksCreate parentId (some (.str title)) (some (.str url)) :: topBookmarkCalls parentId rest
  | .folder _ _ _ :: rest => topBookmarkCalls parentId rest

/-- The loop `for (const child of children)` of `createFolderStructure` on the
value read from `folder.children`. -/
def createFoldersOf (browser : Browser) (children : Option Json) (createdId : String)
    (folderMap : FolderMap) (log : List NativeCall) :
    Except String FolderMap × List NativeCall :=
  match children with
  | some (.arr items) => createFolders browser items createdId folderMap log
  | some (.str _) => (.ok folderMap, log)
  | _ => (.error (notIterable "folder.children"), log)

/-- The call creates a node without a `url`, or creates one under `containerId`. -/
def storeShape (containerId : String) : NativeCall → Bool
  | .bookmarksCreate _ _ none => true
  | .bookmarksCreate parent _ (some _) => parent == containerId
  | _ => true

/-- The bookmark nodes that the calls carrying a string `url` create. -/
def createdLeaves : List NativeCall → List NativeNode
  | [] => []
  | .bookmarksCreate _ title (some (.str u)) :: rest =>
    .leaf (titleText title) (some u) :: createdLeaves rest
  | _ :: rest => createdLeaves rest

/-- Every top-level bookmark of the tree has a non-empty `url`. -/
def topUrlsTruthy : List PortableNode → Bool
  | [] => true
  | .bookmark _ url _ :: rest => truthyStr url && topUrlsTruthy rest
  | .folder _ _ _ :: rest => topUrlsTruthy rest

mutual
/-- The chain of titles of a folder node, `ancestors` being the titles above it,
followed by the chains of the folder nodes below it. -/
def folderChainsOf : List String → PortableNode → List (List String)
  | _, .bookmark _ _ _ => []
  | ancestors, .folder title _ children =>
    (ancestors ++ [title]) :: folderChains (ancestors ++ [title]) children
/-- The chains of titles of the folder nodes of a tree, at any depth, in the order
of `folderPaths`. -/
def folderChains : List String → List PortableNode → List (List String)
  | _, [] => []
  | ancestors, node :: rest => folderChainsOf ancestors node ++ folderChains ancestors rest
end

/-- The characters that follow the first title in the titles joined with `'/'`. -/
def joinedTail : List String → List Char
  | [] => []
  | title :: rest => '/' :: (title.data ++ joinedTail rest)

/-- The outcome of a stage started after the calls of `log`: the log has grown by
bookmark creations only, and either the stage returned and all of them
succeeded, or the last of them failed, all before it succeeded, and the stage
raised the failure. -/
def AbortsAtFailure {α : Type} (browser : Browser) (log : List NativeCall)
    (out : Except String α × List NativeCall) : Prop :=
  ∃ new, out.2 = log ++ new ∧ new.all isBookmarkCreation = true ∧
    (((∃ a, out.1 = .ok a) ∧ succeedFrom browser log new = true) ∨
      ∃ pre call e, new = pre ++ [call] ∧ succeedFrom browser log pre = true ∧
        browser.bookmarksCreate (log ++ pre) call = .error e ∧ out.1 = .error e)

/-! # Theorems -/

theorem portableForest_induction {P : List PortableNode → Prop} (hnil : P [])
    (hbookmark : ∀ t u p rest, P rest → P (.bookmark t u p :: rest))
    (hfolder : ∀ t p cs rest, P cs → P rest → P (.folder t p cs :: rest)) : ∀ l, P l
  | [] => hnil
  | .bookmark t u p :: rest =>
    hbookmark t u p rest (portableForest_induction hnil hbookmark hfolder rest)
  | .folder t p cs :: rest =>
    hfolder t p cs rest (portableForest_induction hnil hbookmark hfolder cs)
      (portableForest_induction hnil hbookmark hfolder rest)

theorem nativeForest_induction {P : List NativeNode → Prop} (hnil : P [])
    (hleaf : ∀ t u rest, P rest → P (.leaf t u :: rest))
    (hdir : ∀ t u cs rest, P cs → P rest → P (.dir t u cs :: rest)) : ∀ l, P l
  | [] => hnil
  | .leaf t u :: rest => hleaf t u rest (nativeForest_induction hnil hleaf hdir rest)
  | .dir t u cs :: rest =>
    hdir t u cs rest (nativeForest_induction hnil hleaf hdir cs)
      (nativeForest_induction hnil hleaf hdir rest)

theorem processChildren_nil (acc : List PortableNode) (p : String) :
    processChildren [] acc p = acc := by
  simp [processChildren]

theorem processChildren_leaf (t : String) (u : Option String) (rest : List NativeNode)
    (acc : List PortableNode) (p : String) :
    processChildren (.leaf t u :: rest) acc p =
      processChildren rest
        (if truthyUrl u then acc ++ [.bookmark t (u.getD "") p] else acc) p := by
  cases u with
  | none => simp [processChildren, truthyUrl]
  | some v =>
    by_cases hv : truthyStr v = true <;> simp [processChildren, truthyUrl, hv]

theorem processChildren_dir (t : String) (u : Option String) (cs rest : List NativeNode)
    (acc : List PortableNode) (p : String) :
    processChildren (.dir t u cs :: rest) acc p =
      processChildren rest
        (if (processChildren cs [] (folderPathOf p t)).length > 0 then
          acc ++ [.folder t (folderPathOf p t) (processChildren cs [] (folderPathOf p t))]
         else acc) p := by
  by_cases h : (processChildren cs [] (folderPathOf p t)).length > 0
  · simp [processChildren, processBookmarkNode, h]
  · simp [processChildren, processBookmarkNode, h]

theorem processChildren_acc (cs : List NativeNode) :
    ∀ (acc : List PortableNode) (p : String),
      processChildren cs acc p = acc ++ processChildren cs [] p := by
  induction cs using nativeForest_induction with
  | hnil => intro acc p; simp [processChildren_nil]
  | hleaf t u rest ih =>
    intro acc p
    rw [processChildren_leaf, processChildren_leaf]
    split
    · rw [ih (acc ++ _), ih ([] ++ _)]; simp
    · exact ih acc p
  | hdir t u cs rest _ ih =>
    intro acc p
    rw [processChildren_dir, processChildren_dir]
    split
    · rw [ih (acc ++ _), ih ([] ++ _)]; simp
    · exact ih acc p


theorem processRoots_acc (roots : List NativeNode) :
    ∀ acc : List PortableNode, processRoots roots acc = acc ++ processRoots roots [] := by
  induction roots with
  | nil => intro acc; simp [processRoots]
  | cons r rest ih =>
    intro acc
    cases r with
    | leaf t u => simpa [processRoots] using ih acc
    | dir t u cs =>
      simp only [processRoots, processBookmarkNode]
      rw [ih, ih (processChildren cs [] ""), processChildren_acc cs acc]
      simp

theorem bookmarkNodes_append (l₁ l₂ : List PortableNode) :
    bookmarkNodes (l₁ ++ l₂) = bookmarkNodes l₁ + bookmarkNodes l₂ := by
  induction l₁ using portableForest_induction with
  | hnil => simp [bookmarkNodes, bookmarkNodesOf]
  | hbookmark t u p rest ih => simp [bookmarkNodes, bookmarkNodesOf, ih]; omega
  | hfolder t p cs rest _ ih => simp [bookmarkNodes, bookmarkNodesOf, ih]; omega

theorem countBookmarks_eq (l : List PortableNode) :
    ∀ count : Nat, countBookmarks l count = count + bookmarkNodes l := by
  induction l using portableForest_induction with
  | hnil => intro count; simp [countBookmarks, countBookmarksItem, bookmarkNodes]
  | hbookmark t u p rest ih => intro count; simp [countBookmarks, countBookmarksItem, bookmarkNodes, bookmarkNodesOf, ih]; omega
  | hfolder t p cs rest ihc ih =>
    intro count; simp [countBookmarks, countBookmarksItem, bookmarkNodes, bookmarkNodesOf, ih, ihc]; omega

theorem bookmarkNodes_processChildren (cs : List NativeNode) :
    ∀ p : String, bookmarkNodes (processChildren cs [] p) = urlLeafCount cs := by
  induction cs using nativeForest_induction with
  | hnil => intro p; simp [processChildren_nil, bookmarkNodes, bookmarkNodesOf, urlLeafCount, urlLeavesOf]
  | hleaf t u rest ih =>
    intro p
    rw [processChildren_leaf, processChildren_acc, bookmarkNodes_append, ih]
    split <;> simp [bookmarkNodes, bookmarkNodesOf, urlLeafCount, urlLeavesOf, *]
  | hdir t u cs rest ihc ih =>
    intro p
    rw [processChildren_dir, processChildren_acc, bookmarkNodes_append, ih]
    split
    · simp [bookmarkNodes, bookmarkNodesOf, urlLeafCount, urlLeavesOf, ihc]
    · rename_i h
      have h0 : processChildren cs [] (folderPathOf p t) = [] := by
        simpa using h
      have := ihc (folderPathOf p t)
      rw [h0] at this
      simp [bookmarkNodes, bookmarkNodesOf, urlLeafCount, urlLeavesOf] at this ⊢
      omega

theorem bookmarkNodes_getAllBookmarks (forest : List NativeNode) :
    bookmarkNodes (getAllBookmarks forest) = urlLeavesBelowRoots forest := by
  unfold getAllBookmarks
  induction forest with
  | nil => simp [processRoots, bookmarkNodes, bookmarkNodesOf, urlLeavesBelowRoots]
  | cons r rest ih =>
    cases r with
    | leaf t u => simpa [processRoots, urlLeavesBelowRoots] using ih
    | dir t u cs =>
      simp only [processRoots, processBookmarkNode, urlLeavesBelowRoots]
      rw [processRoots_acc, bookmarkNodes_append, ih, bookmarkNodes_processChildren]

/-- C6: flatten loses no bookmark.  `getBookmarkCount` equals the number of native
nodes strictly below a forest root that have no children list and a non-empty
url. -/
theorem getBookmarkCount_eq_urlLeaves (forest : List NativeNode) :
    getBookmarkCount forest = urlLeavesBelowRoots forest := by
  unfold getBookmarkCount
  rw [countBookmarks_eq, bookmarkNodes_getAllBookmarks]; simp

theorem foldersHaveBookmark_append (l₁ l₂ : List PortableNode) :
    foldersHaveBookmark (l₁ ++ l₂) = (foldersHaveBookmark l₁ && foldersHaveBookmark l₂) := by
  induction l₁ using portableForest_induction with
  | hnil => simp [foldersHaveBookmark, folderHasBookmark]
  | hbookmark t u p rest ih => simp [foldersHaveBookmark, folderHasBookmark, ih]
  | hfolder t p cs rest _ ih => simp [foldersHaveBookmark, folderHasBookmark, ih, Bool.and_assoc]

theorem pathsAgree_append (e : String) (l₁ l₂ : List PortableNode) :
    pathsAgree e (l₁ ++ l₂) = (pathsAgree e l₁ && pathsAgree e l₂) := by
  induction l₁ with
  | nil => simp [pathsAgree, pathAgrees]
  | cons n rest ih =>
    cases n <;> simp [pathsAgree, pathAgrees, ih, Bool.and_assoc]

/-- A non-empty flattened list holds at least one bookmark. -/
theorem bookmarkNodes_pos_of_ne_nil (l : List PortableNode)
    (h : foldersHaveBookmark l = true) (hne : l ≠ []) : 0 < bookmarkNodes l := by
  cases l with
  | nil => exact absurd rfl hne
  | cons n rest =>
    cases n with
    | bookmark t u p => simp [bookmarkNodes, bookmarkNodesOf]
    | folder t p cs =>
      simp [foldersHaveBookmark, folderHasBookmark] at h
      simp [bookmarkNodes, bookmarkNodesOf]; omega

theorem foldersHaveBookmark_processChildren (cs : List NativeNode) :
    ∀ p : String, foldersHaveBookmark (processChildren cs [] p) = true := by
  induction cs using nativeForest_induction with
  | hnil => intro p; simp [processChildren_nil, foldersHaveBookmark, folderHasBookmark]
  | hleaf t u rest ih =>
    intro p
    rw [processChildren_leaf, processChildren_acc, foldersHaveBookmark_append, ih]
    split <;> simp [foldersHaveBookmark, folderHasBookmark]
  | hdir t u cs rest ihc ih =>
    intro p
    rw [processChildren_dir, processChildren_acc, foldersHaveBookmark_append, ih]
    split
    · rename_i h
      have hne : processChildren cs [] (folderPathOf p t) ≠ [] := by
        intro h0; rw [h0] at h; simp at h
      have := bookmarkNodes_pos_of_ne_nil _ (ihc _) hne
      simp [foldersHaveBookmark, folderHasBookmark, ihc, this]
    · simp [foldersHaveBookmark, folderHasBookmark]

theorem pathsAgree_processChildren (cs : List NativeNode) :
    ∀ p : String, pathsAgree p (processChildren cs [] p) = true := by
  induction cs using nativeForest_induction with
  | hnil => intro p; simp [processChildren_nil, pathsAgree, pathAgrees]
  | hleaf t u rest ih =>
    intro p
    rw [processChildren_leaf, processChildren_acc, pathsAgree_append, ih]
    split <;> simp [pathsAgree, pathAgrees]
  | hdir t u cs rest ihc ih =>
    intro p
    rw [processChildren_dir, processChildren_acc, pathsAgree_append, ih]
    split <;> simp [pathsAgree, pathAgrees, ihc]


theorem processChildren_of_no_urlLeaf (cs : List NativeNode) (h : urlLeafCount cs = 0)
    (p : String) : processChildren cs [] p = [] := by
  by_contra hne
  have hpos := bookmarkNodes_pos_of_ne_nil _ (foldersHaveBookmark_processChildren cs p) hne
  rw [bookmarkNodes_processChildren, h] at hpos
  exact absurd hpos (by decide)

theorem foldersHaveBookmark_getAllBookmarks (forest : List NativeNode) :
    foldersHaveBookmark (getAllBookmarks forest) = true := by
  unfold getAllBookmarks
  induction forest with
  | nil => simp [processRoots, foldersHaveBookmark, folderHasBookmark]
  | cons r rest ih =>
    cases r with
    | leaf t u => simpa [processRoots] using ih
    | dir t u cs =>
      simp only [processRoots, processBookmarkNode]
      rw [processRoots_acc, foldersHaveBookmark_append, ih,
        foldersHaveBookmark_processChildren]
      rfl

/-- C3: pruning.  Every folder node at any depth of the output of `getAllBookmarks`
has a bookmark node among its descendants, and a native folder whose subtree
holds no URL leaf contributes no node to the output. -/
theorem flatten_prunes_empty_folders :
    (∀ forest : List NativeNode, foldersHaveBookmark (getAllBookmarks forest) = true) ∧
    (∀ (t : String) (u : Option String) (cs rest : List NativeNode)
        (acc : List PortableNode) (p : String),
        urlLeafCount cs = 0 →
          processChildren (.dir t u cs :: rest) acc p = processChildren rest acc p) := by
  refine ⟨foldersHaveBookmark_getAllBookmarks, ?_⟩
  intro t u cs rest acc p h
  rw [processChildren_dir, processChildren_of_no_urlLeaf cs h]
  simp

/-- C3 at a concrete forest: a folder holding only an empty subfolder is pruned. -/
theorem flatten_prunes_empty_folders_witness :
    urlLeafCount [.dir "B" none []] = 0 ∧
    processChildren [.dir "A" none [.dir "B" none []], .leaf "G" (some "https://g.co")] [] "" =
      processChildren [.leaf "G" (some "https://g.co")] [] "" :=
  ⟨rfl, flatten_prunes_empty_folders.2 "A" none [.dir "B" none []]
    [.leaf "G" (some "https://g.co")] [] "" rfl⟩

/-- C4: path identity.  In the output of `getAllBookmarks` every bookmark child of a
folder node carries that folder's path and every top-level bookmark carries the
empty path. -/
theorem flatten_paths_agree (forest : List NativeNode) :
    pathsAgree "" (getAllBookmarks forest) = true := by
  unfold getAllBookmarks
  induction forest with
  | nil => simp [processRoots, pathsAgree, pathAgrees]
  | cons r rest ih =>
    cases r with
    | leaf t u => simpa [processRoots] using ih
    | dir t u cs =>
      simp only [processRoots, processBookmarkNode]
      rw [processRoots_acc, pathsAgree_append, ih, pathsAgree_processChildren]
      rfl

theorem truthyVal_eq (v : Option Json) : truthyVal v = !isEmptyValue v := by
  cases v with
  | none => rfl
  | some j => cases j <;> first | rfl | simp [truthyVal, Json.truthy, isEmptyValue, truthyStr, bne]

theorem getProp_of_isObject (v : Json) (h : v.isObject = true) (key : String) :
    getProp v key = .ok (v.field key) := by
  cases v <;> simp [Json.isObject] at h <;> rfl

theorem validateTabs_eq (tabs : List Json) (h : tabs.all Json.isObject = true) :
    validateTabs tabs = .ok (tabs.all tabEntryOk) := by
  induction tabs with
  | nil => rfl
  | cons t rest ih =>
    simp only [List.all_cons, Bool.and_eq_true] at h
    simp only [validateTabs, getProp_of_isObject t h.1, truthyVal_eq, Bool.not_not, List.all_cons,
      tabEntryOk]
    cases isEmptyValue (t.field "url") <;> cases isEmptyValue (t.field "title") <;>
      simp [ih h.2, tabEntryOk, truthyVal_eq]

theorem validateBookmarks_eq (bms : List Json) (h : bms.all Json.isObject = true) :
    validateBookmarks bms = .ok (bms.all bookmarkEntryOk) := by
  induction bms with
  | nil => rfl
  | cons b rest ih =>
    simp only [List.all_cons, Bool.and_eq_true] at h
    simp only [validateBookmarks, getProp_of_isObject b h.1, truthyVal_eq, Bool.not_not,
      List.all_cons, bookmarkEntryOk]
    cases isStr (b.field "type") "bookmark" <;> cases isStr (b.field "type") "folder" <;>
    cases isEmptyValue (b.field "url") <;> cases isEmptyValue (b.field "title") <;>
      simp [ih h.2, bookmarkEntryOk, truthyVal_eq]

/-- C8: characterisation of `validateImportData`.  On a document whose `openTabs`
and `bookmarks` entries are objects it returns, without raising, `true` exactly
when the document is a non-null object with keys `openTabs` and `bookmarks`, both
arrays, every tab entry with non-empty `url` and `title`, every entry of type
`bookmark` with non-empty `url` and `title` and every entry of type `folder`
with a non-empty `title`. -/
theorem validateImportData_eq_schema (data : Json) (h : entriesAreObjects data = true) :
    validateImportData data = .ok (importSchemaOk data) := by
  cases data with
  | obj fields =>
    simp only [entriesAreObjects, Json.field, Bool.and_eq_true] at h
    simp only [validateImportData, Json.truthy, Json.typeofObject, Json.hasKey, Json.field,
      importSchemaOk]
    cases ht : fields.lookup "openTabs" with
    | none => simp
    | some tv =>
      cases hb : fields.lookup "bookmarks" with
      | none => simp
      | some bv =>
        cases tv <;> cases bv <;> simp
        rename_i tabs bms
        rw [ht, hb] at h
        simp only at h
        rw [validateTabs_eq tabs h.1]
        cases hta : tabs.all tabEntryOk
        · simp
        · simp [validateBookmarks_eq bms h.2]
  | _ => simp [validateImportData, Json.truthy, Json.typeofObject, Json.hasKey, importSchemaOk]

/-- C8 at the document of the test "should validate correct import data
structure". -/
theorem validateImportData_eq_schema_witness :
    entriesAreObjects validImportData = true ∧
    validateImportData validImportData = .ok true :=
  ⟨rfl, validateImportData_eq_schema validImportData rfl⟩

/-- C9: on the document `{"openTabs":[null],"bookmarks":[]}` the validator raises a
`TypeError` (reading `tab.url` of `null`) instead of returning a boolean. -/
theorem validateImportData_raises_on_null_entry :
    validateImportData (.obj [("openTabs", .arr [.null]), ("bookmarks", .arr [])]) =
      .error (cannotReadNull "url") := rfl

theorem bookmarkTypeNodesBelow_eq_lookup (fields : List (String × Json)) :
    bookmarkTypeNodesBelow fields =
      match fields.lookup "children" with
      | some v => bookmarkTypeNodes v
      | none => 0 := by
  induction fields with
  | nil => rfl
  | cons kv rest ih =>
    obtain ⟨k, v⟩ := kv
    simp only [bookmarkTypeNodesBelow, List.lookup]
    cases hk : ("children" == k) <;> simp [ih]

theorem childrenArePortable_eq_lookup (fields : List (String × Json)) :
    childrenArePortable fields =
      match fields.lookup "children" with
      | some v => isPortableTree v
      | none => true := by
  induction fields with
  | nil => rfl
  | cons kv rest ih =>
    obtain ⟨k, v⟩ := kv
    simp only [childrenArePortable, List.lookup]
    cases hk : ("children" == k) <;> simp [ih]

theorem countChildren_eq_lookup (fields : List (String × Json)) (count : Nat) :
    countChildren fields count =
      match fields.lookup "children" with
      | some v => countRecursive v count
      | none => .ok count := by
  induction fields with
  | nil => rfl
  | cons kv rest ih =>
    obtain ⟨k, v⟩ := kv
    simp only [countChildren, List.lookup]
    cases hk : ("children" == k) <;> simp [ih]

theorem truthy_of_isPortableTree {v : Json} (h : isPortableTree v = true) : v.truthy = true := by
  cases v <;> simp [isPortableTree] at h
  rfl

mutual
theorem countRecursive_eq : ∀ (v : Json) (count : Nat), isPortableTree v = true →
    countRecursive v count = .ok (count + bookmarkTypeNodes v)
  | .arr items, count, h => by
    simp only [isPortableTree] at h
    simp only [countRecursive, bookmarkTypeNodes]
    exact countItems_eq items count h
  | .null, _, h | .bool _, _, h | .num _, _, h | .str _, _, h | .obj _, _, h => by
    simp [isPortableTree] at h
theorem countItems_eq : ∀ (items : List Json) (count : Nat), arePortableNodes items = true →
    countItems items count = .ok (count + bookmarkTypeNodesIn items)
  | [], count, _ => by simp [countItems, bookmarkTypeNodesIn]
  | item :: rest, count, h => by
    simp only [arePortableNodes, Bool.and_eq_true] at h
    simp only [countItems, countItem_eq item count h.1, countItems_eq rest _ h.2,
      bookmarkTypeNodesIn, Nat.add_assoc]
theorem countItem_eq : ∀ (item : Json) (count : Nat), isPortableNode item = true →
    countItem item count = .ok (count + bookmarkTypeNodesAt item)
  | .obj fields, count, h => by
    simp only [isPortableNode] at h
    simp only [countItem, bookmarkTypeNodesAt]
    by_cases hb : isStr (fields.lookup "type") "bookmark" = true
    · simp [hb]
    · by_cases hf : isStr (fields.lookup "type") "folder" = true
      · by_cases hc : truthyVal (fields.lookup "children") = true
        · simp [hb, hf, hc, countChildren_eq fields count h]
        · have : bookmarkTypeNodesBelow fields = 0 := by
            rw [bookmarkTypeNodesBelow_eq_lookup]
            rw [childrenArePortable_eq_lookup] at h
            cases hl : fields.lookup "children" with
            | none => rfl
            | some v =>
              rw [hl] at h hc
              exact absurd (truthy_of_isPortableTree h) hc
          simp [hb, hf, hc, this]
      · simp [hb, hf]
  | .null, _, h | .bool _, _, h | .num _, _, h | .str _, _, h | .arr _, _, h => by
    simp [isPortableNode] at h
theorem countChildren_eq : ∀ (fields : List (String × Json)) (count : Nat),
    childrenArePortable fields = true →
    countChildren fields count = .ok (count + bookmarkTypeNodesBelow fields)
  | [], count, _ => by simp [countChildren, bookmarkTypeNodesBelow]
  | (key, value) :: rest, count, h => by
    simp only [childrenArePortable] at h
    simp only [countChildren, bookmarkTypeNodesBelow]
    by_cases hk : ("children" == key) = true
    · simp only [hk, if_true] at h ⊢
      exact countRecursive_eq value count h
    · simp only [hk] at h ⊢
      exact countChildren_eq rest count h
end

/-- C5: count invariant.  On every portable bookmark tree `countBookmarksInData`
returns the number of nodes of type `bookmark` reachable by descending through
the children of nodes of type `folder`, and it returns 0 on the empty sequence.
The input is only read: the one variable the function writes is its counter. -/
theorem countBookmarksInData_eq (bookmarks : Json) (h : isPortableTree bookmarks = true) :
    countBookmarksInData bookmarks = .ok (bookmarkTypeNodes bookmarks) ∧
    countBookmarksInData (.arr []) = .ok 0 := by
  refine ⟨?_, rfl⟩
  simpa [countBookmarksInData] using countRecursive_eq bookmarks 0 h

theorem countBookmarksInData_eq_witness :
    isPortableTree countTestInput = true ∧
    countBookmarksInData countTestInput = .ok 3 :=
  ⟨rfl, (countBookmarksInData_eq countTestInput rfl).1⟩

mutual
theorem isPortableNode_toJson : ∀ n : PortableNode, isPortableNode n.toJson = true
  | .bookmark _ _ _ => rfl
  | .folder _ _ cs => by
    have := arePortableNodes_toJson cs
    simp only [PortableNode.toJson, isPortableNode, childrenArePortable_eq_lookup]
    simpa [List.lookup, isPortableTree] using this
theorem arePortableNodes_toJson : ∀ l : List PortableNode, arePortableNodes (portableToJson l) = true
  | [] => rfl
  | n :: rest => by
    simp [portableToJson, arePortableNodes, isPortableNode_toJson n, arePortableNodes_toJson rest]
end

mutual
theorem bookmarkTypeNodesAt_toJson : ∀ n : PortableNode, bookmarkTypeNodesAt n.toJson = bookmarkNodesOf n
  | .bookmark _ _ _ => rfl
  | .folder _ _ cs => by
    have := bookmarkTypeNodesIn_toJson cs
    simp only [PortableNode.toJson, bookmarkTypeNodesAt, bookmarkTypeNodesBelow_eq_lookup, bookmarkNodesOf]
    simpa [List.lookup, isStr, bookmarkTypeNodes] using this
theorem bookmarkTypeNodesIn_toJson : ∀ l : List PortableNode, bookmarkTypeNodesIn (portableToJson l) = bookmarkNodes l
  | [] => rfl
  | n :: rest => by
    simp [portableToJson, bookmarkTypeNodesIn, bookmarkNodes, bookmarkTypeNodesAt_toJson n, bookmarkTypeNodesIn_toJson rest]
end

theorem countBookmarksInData_toJson (tree : List PortableNode) :
    countBookmarksInData (.arr (portableToJson tree)) = .ok (bookmarkNodes tree) := by
  have h : isPortableTree (.arr (portableToJson tree)) = true := by
    simpa [isPortableTree] using arePortableNodes_toJson tree
  rw [countBookmarksInData, countRecursive_eq _ 0 h]
  simp [bookmarkTypeNodes, bookmarkTypeNodesIn_toJson]

theorem createChildFolders_eq_lookup (browser : Browser) (fields : List (String × Json))
    (createdId : String) (folderMap : FolderMap) (log : List NativeCall) :
    createChildFolders browser fields createdId folderMap log =
      createFoldersOf browser (fields.lookup "children") createdId folderMap log := by
  induction fields with
  | nil => rfl
  | cons kv rest ih =>
    obtain ⟨k, v⟩ := kv
    by_cases hk : ("children" == k) = true
    · cases v <;> simp [createChildFolders, List.lookup, hk, createFoldersOf]
    · cases v <;> simpa [createChildFolders, List.lookup, hk] using ih

theorem idBrowser_bookmarksCreate (ids : Nat → String) (log : List NativeCall)
    (call : NativeCall) : (idBrowser ids).bookmarksCreate log call = .ok (ids log.length) := rfl

theorem createFolders_toJson (ids : Nat → String) (tree : List PortableNode) :
    ∀ (parentId : String) (folderMap : FolderMap) (log : List NativeCall),
      ∃ (folderMap' : FolderMap) (calls : List NativeCall),
        createFolders (idBrowser ids) (portableToJson tree) parentId folderMap log =
          (.ok folderMap', log ++ calls) ∧
        (∀ c ∈ calls, urlFreeCall c = true) ∧
        (folderPathsNonEmpty tree = true →
          folderMap'.get (some (.str "")) = folderMap.get (some (.str ""))) := by
  induction tree using portableForest_induction with
  | hnil =>
    intro parentId folderMap log
    exact ⟨folderMap, [], by simp [portableToJson, createFolders], by simp, fun _ => rfl⟩
  | hbookmark t u p rest ih =>
    intro parentId folderMap log
    obtain ⟨fm', calls, h1, h2, h3⟩ := ih parentId folderMap log
    refine ⟨fm', calls, ?_, h2, ?_⟩
    · simp only [portableToJson, PortableNode.toJson, createFolders]
      simpa [List.lookup, isStr] using h1
    · intro h; apply h3; simpa [folderPathsNonEmpty, folderPathNonEmpty] using h
  | hfolder t p cs rest ihc ih =>
    intro parentId folderMap log
    obtain ⟨fm1, calls1, h1, h2, h3⟩ :=
      ihc (ids log.length) (FolderMap.set folderMap (some (.str p)) (ids log.length))
        (log ++ [.bookmarksCreate parentId (some (.str t)) none])
    obtain ⟨fm2, calls2, k1, k2, k3⟩ := ih parentId fm1
      (log ++ [.bookmarksCreate parentId (some (.str t)) none] ++ calls1)
    refine ⟨fm2, .bookmarksCreate parentId (some (.str t)) none :: (calls1 ++ calls2), ?_, ?_, ?_⟩
    · simp only [portableToJson, PortableNode.toJson, createFolders, createFolderStructure,
        createChildFolders_eq_lookup]
      simp only [idBrowser_bookmarksCreate]
      simp [List.lookup, isStr, createFoldersOf, h1]
      simpa using k1
    · intro c hc
      simp only [List.mem_cons, List.mem_append] at hc
      rcases hc with rfl | hc | hc
      · rfl
      · exact h2 c hc
      · exact k2 c hc
    · intro h
      simp only [folderPathsNonEmpty, folderPathNonEmpty, Bool.and_eq_true] at h
      rw [k3 h.2, h3 h.1.2]
      have hp : p ≠ "" := by simpa [truthyStr] using h.1.1
      simp [FolderMap.set, FolderMap.get, sameKey, hp]

theorem createBookmarkItems_toJson (ids : Nat → String) (folderMap : FolderMap)
    (hmap : folderMap.get (some (.str "")) = some (ids 0)) (tree : List PortableNode) :
    ∀ (log : List NativeCall), pathsAgree "" tree = true →
      createBookmarkItems (idBrowser ids) (ids 0) folderMap (portableToJson tree) log =
        (.ok (), log ++ topBookmarkCalls (ids 0) tree) := by
  induction tree with
  | nil => intro log _; simp [portableToJson, createBookmarkItems, topBookmarkCalls]
  | cons n rest ih =>
    intro log h
    simp only [pathsAgree, Bool.and_eq_true] at h
    cases n with
    | bookmark t u p =>
      have hp : p = "" := by simpa [pathAgrees] using h.1
      subst hp
      have hr : resolveParent folderMap (some (.str "")) (ids 0) = ids 0 := by
        simp only [resolveParent, pathOrEmpty, truthyVal, Json.truthy, truthyStr]
        simp [hmap]
      simp only [portableToJson, PortableNode.toJson, createBookmarkItems, getProp, Json.field,
        idBrowser_bookmarksCreate]
      simp [List.lookup, isStr, hr, ih _ h.2, topBookmarkCalls]
    | folder t p cs =>
      simp only [portableToJson, PortableNode.toJson, createBookmarkItems, getProp, Json.field]
      simp [List.lookup, isStr, ih _ h.2, topBookmarkCalls]

/-- The log of a restore of a flattened tree into `idBrowser ids`: the container,
calls without a url, then one call for each top-level bookmark. -/
theorem restoreBookmarks_toJson_log (ids : Nat → String) (now : String)
    (tree : List PortableNode) (hne : tree ≠ []) (hpaths : pathsAgree "" tree = true)
    (hfolders : folderPathsNonEmpty tree = true) :
    ∃ calls : List NativeCall, (∀ c ∈ calls, urlFreeCall c = true) ∧
      restoreBookmarks (idBrowser ids) now (.arr (portableToJson tree)) [] =
        (.ok (), .bookmarksCreate "1" (some (.str (importFolderTitle now))) none ::
          (calls ++ topBookmarkCalls (ids 0) tree)) := by
  obtain ⟨fm, calls, h1, h2, h3⟩ := createFolders_toJson ids tree (ids 0)
    (FolderMap.set [] (some (.str "")) (ids 0))
    [.bookmarksCreate "1" (some (.str (importFolderTitle now))) none]
  refine ⟨calls, h2, ?_⟩
  have hmap : fm.get (some (.str "")) = some (ids 0) := by
    rw [h3 hfolders]; simp [FolderMap.set, FolderMap.get, sameKey]
  cases tree with
  | nil => exact absurd rfl hne
  | cons n rest =>
    have hj : portableToJson (n :: rest) = n.toJson :: portableToJson rest := by
      simp [portableToJson]
    rw [hj, restoreBookmarks, ← hj, restoreBookmarksBody]
    simp only [idBrowser_bookmarksCreate, List.length_nil, List.nil_append]
    rw [h1]
    simp only
    rw [createBookmarkItems_toJson ids fm hmap _ _ hpaths]
    simp

theorem buildStore_no_urlLeaf (ids : Nat → String) (hinj : Function.Injective ids) :
    ∀ (calls : List NativeCall) (k : Nat) (parentId : String), 1 ≤ k →
      (∀ c ∈ calls, storeShape (ids 0) c = true) → parentId ≠ ids 0 →
      urlLeafCount (buildStore ids k calls parentId) = 0 := by
  intro calls
  induction calls with
  | nil => intro k p _ _ _; simp [buildStore, urlLeafCount]
  | cons c rest ih =>
    intro k p hk hshape hp
    have hrest : ∀ c ∈ rest, storeShape (ids 0) c = true :=
      fun c hc => hshape c (List.mem_cons_of_mem _ hc)
    have hc := hshape c (List.mem_cons_self _ _)
    have hk0 : ids k ≠ ids 0 := fun h => by
      have := hinj h; omega
    have hbelow := ih (k + 1) p (by omega) hrest hp
    have hkids := ih (k + 1) (ids k) (by omega) hrest hk0
    cases c with
    | bookmarksCreate parent title url =>
      by_cases hpar : (parent == p) = true
      · rcases url with _ | (_ | _ | _ | _ | _ | _) <;>
          first
          | (simp [buildStore, hpar, urlLeafCount, urlLeavesOf, hbelow, hkids]; done)
          | (exfalso; apply hp; simp [storeShape] at hc; simp at hpar; rw [← hpar, hc])
      · rcases url with _ | (_ | _ | _ | _ | _ | _) <;>
          simp [buildStore, hpar, hbelow]
    | windowsCreate _ _ => simpa [buildStore] using hbelow
    | tabsCreate _ _ _ _ => simpa [buildStore] using hbelow
    | download _ _ => simpa [buildStore] using hbelow

theorem processChildren_cons_leaf (t : String) (u : String) (rest : List NativeNode)
    (p : String) :
    processChildren (.leaf t (some u) :: rest) [] p =
      (if truthyStr u then [PortableNode.bookmark t u p] else []) ++
        processChildren rest [] p := by
  rw [processChildren_leaf, processChildren_acc]
  simp [truthyUrl]

theorem processChildren_cons_pruned (t : String) (u : Option String)
    (cs rest : List NativeNode) (p : String) (h : urlLeafCount cs = 0) :
    processChildren (.dir t u cs :: rest) [] p = processChildren rest [] p := by
  rw [processChildren_dir, processChildren_of_no_urlLeaf cs h]
  simp

theorem processChildren_buildStore (ids : Nat → String) (hinj : Function.Injective ids) :
    ∀ (calls : List NativeCall) (k : Nat), 1 ≤ k →
      (∀ c ∈ calls, storeShape (ids 0) c = true) →
      processChildren (buildStore ids k calls (ids 0)) [] "" =
        processChildren (createdLeaves calls) [] "" := by
  intro calls
  induction calls with
  | nil => intro k _ _; simp [buildStore, createdLeaves]
  | cons c rest ih =>
    intro k hk hshape
    have hrest : ∀ c ∈ rest, storeShape (ids 0) c = true :=
      fun c hc => hshape c (List.mem_cons_of_mem _ hc)
    have hc := hshape c (List.mem_cons_self _ _)
    have hk0 : ids k ≠ ids 0 := fun h => by
      have := hinj h; omega
    have hbelow := ih (k + 1) (by omega) hrest
    have hkids := buildStore_no_urlLeaf ids hinj rest (k + 1) (ids k) (by omega) hrest hk0
    cases c with
    | bookmarksCreate parent title url =>
      by_cases hpar : (parent == ids 0) = true
      · rcases url with _ | (_ | _ | _ | _ | _ | _) <;>
          simp [buildStore, hpar, createdLeaves, hbelow, processChildren_cons_leaf,
            processChildren_cons_pruned, hkids]
      · rcases url with _ | (_ | _ | _ | _ | _ | _) <;>
          first
          | (simp [buildStore, hpar, createdLeaves, hbelow]; done)
          | (exfalso; apply hpar; simpa [storeShape] using hc)
    | windowsCreate _ _ => simpa [buildStore, createdLeaves] using hbelow
    | tabsCreate _ _ _ _ => simpa [buildStore, createdLeaves] using hbelow
    | download _ _ => simpa [buildStore, createdLeaves] using hbelow

theorem createdLeaves_append (l₁ l₂ : List NativeCall) :
    createdLeaves (l₁ ++ l₂) = createdLeaves l₁ ++ createdLeaves l₂ := by
  induction l₁ with
  | nil => simp [createdLeaves]
  | cons c rest ih =>
    cases c with
    | bookmarksCreate parent title url =>
      rcases url with _ | (_ | _ | _ | _ | _ | _) <;> simp [createdLeaves, ih]
    | windowsCreate _ _ => simpa [createdLeaves] using ih
    | tabsCreate _ _ _ _ => simpa [createdLeaves] using ih
    | download _ _ => simpa [createdLeaves] using ih

theorem createdLeaves_urlFree (calls : List NativeCall)
    (h : ∀ c ∈ calls, urlFreeCall c = true) : createdLeaves calls = [] := by
  induction calls with
  | nil => rfl
  | cons c rest ih =>
    have hc := h c (List.mem_cons_self _ _)
    have hrest := ih fun c hc => h c (List.mem_cons_of_mem _ hc)
    cases c with
    | bookmarksCreate parent title url =>
      rcases url with _ | (_ | _ | _ | _ | _ | _)
      · simp [createdLeaves, hrest]
      all_goals simp [urlFreeCall] at hc
    | windowsCreate _ _ => simp [urlFreeCall] at hc
    | tabsCreate _ _ _ _ => simp [urlFreeCall] at hc
    | download _ _ => simp [urlFreeCall] at hc

theorem storeShape_of_urlFree (containerId : String) (c : NativeCall)
    (h : urlFreeCall c = true) : storeShape containerId c = true := by
  cases c with
  | bookmarksCreate parent title url =>
    cases url with
    | none => rfl
    | some v => simp [urlFreeCall] at h
  | windowsCreate _ _ => rfl
  | tabsCreate _ _ _ _ => rfl
  | download _ _ => rfl

theorem storeShape_topBookmarkCalls (containerId : String) (tree : List PortableNode) :
    ∀ c ∈ topBookmarkCalls containerId tree, storeShape containerId c = true := by
  induction tree with
  | nil => intro c hc; simp [topBookmarkCalls] at hc
  | cons n rest ih =>
    intro c hc
    cases n with
    | bookmark t u p =>
      simp only [topBookmarkCalls, List.mem_cons] at hc
      rcases hc with rfl | hc
      · simp [storeShape]
      · exact ih c hc
    | folder t p cs => exact ih c (by simpa [topBookmarkCalls] using hc)

theorem processChildren_topBookmarkCalls (containerId : String) (tree : List PortableNode)
    (hpaths : pathsAgree "" tree = true) (hurls : topUrlsTruthy tree = true) :
    processChildren (createdLeaves (topBookmarkCalls containerId tree)) [] "" =
      tree.filter isBookmarkNode := by
  induction tree with
  | nil => simp [topBookmarkCalls, createdLeaves, processChildren_nil]
  | cons n rest ih =>
    simp only [pathsAgree, Bool.and_eq_true] at hpaths
    cases n with
    | bookmark t u p =>
      simp only [topUrlsTruthy, Bool.and_eq_true] at hurls
      have hp : p = "" := by simpa [pathAgrees] using hpaths.1
      subst hp
      simp [topBookmarkCalls, createdLeaves, processChildren_cons_leaf, titleText, hurls.1,
        isBookmarkNode, ih hpaths.2 hurls.2]
    | folder t p cs =>
      simp only [topUrlsTruthy] at hurls
      simp [topBookmarkCalls, isBookmarkNode, ih hpaths.2 hurls]

/-- What the flattening of a restored tree yields: the top-level bookmarks. -/
theorem reflattenRestored_eq (ids : Nat → String) (now : String) (tree : List PortableNode)
    (hinj : Function.Injective ids) (hfresh : ids 0 ≠ "1")
    (hpaths : pathsAgree "" tree = true) (hurls : topUrlsTruthy tree = true)
    (hfolders : folderPathsNonEmpty tree = true) :
    reflattenRestored ids now tree = tree.filter isBookmarkNode := by
  by_cases hne : tree = []
  · subst hne; rfl
  · obtain ⟨calls, hfree, hlog⟩ := restoreBookmarks_toJson_log ids now tree hne hpaths hfolders
    have h1 : ("1" == ids 0) = false := by
      simpa using fun h => hfresh h.symm
    have hshape : ∀ c ∈ calls ++ topBookmarkCalls (ids 0) tree, storeShape (ids 0) c = true := by
      intro c hc
      rcases List.mem_append.mp hc with hc | hc
      · exact storeShape_of_urlFree _ c (hfree c hc)
      · exact storeShape_topBookmarkCalls _ tree c hc
    simp only [reflattenRestored, hlog, buildStore, h1]
    rw [if_neg (by simp), processChildren_buildStore ids hinj _ 1 (le_refl 1) hshape,
      createdLeaves_append, createdLeaves_urlFree calls hfree, List.nil_append,
      processChildren_topBookmarkCalls _ tree hpaths hurls]

theorem topUrlsTruthy_append (l₁ l₂ : List PortableNode) :
    topUrlsTruthy (l₁ ++ l₂) = (topUrlsTruthy l₁ && topUrlsTruthy l₂) := by
  induction l₁ with
  | nil => simp [topUrlsTruthy]
  | cons n rest ih => cases n <;> simp [topUrlsTruthy, ih, Bool.and_assoc]

theorem topUrlsTruthy_processChildren (cs : List NativeNode) :
    ∀ p : String, topUrlsTruthy (processChildren cs [] p) = true := by
  induction cs using nativeForest_induction with
  | hnil => intro p; simp [processChildren_nil, topUrlsTruthy]
  | hleaf t u rest ih =>
    intro p
    rw [processChildren_leaf, processChildren_acc, topUrlsTruthy_append, ih]
    cases u with
    | none => simp [truthyUrl, topUrlsTruthy]
    | some v =>
      by_cases hv : truthyStr v = true <;> simp [truthyUrl, topUrlsTruthy, hv]
  | hdir t u cs rest _ ih =>
    intro p
    rw [processChildren_dir, processChildren_acc, topUrlsTruthy_append, ih]
    split <;> simp [topUrlsTruthy]

theorem topUrlsTruthy_processRoots (forest : List NativeNode) :
    topUrlsTruthy (processRoots forest []) = true := by
  induction forest with
  | nil => simp [processRoots, topUrlsTruthy]
  | cons r rest ih =>
    cases r with
    | leaf t u => simpa [processRoots] using ih
    | dir t u cs =>
      simp only [processRoots, processBookmarkNode]
      rw [processRoots_acc, topUrlsTruthy_append, ih, topUrlsTruthy_processChildren]
      rfl

theorem pathsAgree_processRoots (forest : List NativeNode) :
    pathsAgree "" (processRoots forest []) = true := by
  induction forest with
  | nil => simp [processRoots, pathsAgree]
  | cons r rest ih =>
    cases r with
    | leaf t u => simpa [processRoots] using ih
    | dir t u cs =>
      simp only [processRoots, processBookmarkNode]
      rw [processRoots_acc, pathsAgree_append, ih, pathsAgree_processChildren]
      rfl

theorem freshIds_injective : Function.Injective freshIds := by
  intro a b h
  have h' := congrArg String.length h
  simpa [freshIds, String.length] using h'

theorem freshIds_ne_one (k : Nat) : freshIds k ≠ "1" := by
  intro h
  have h' := congrArg String.data h
  simp [freshIds, List.replicate_succ] at h'

/-- The part of the round trip that the restore keeps: after a restore of
`getAllBookmarks forest` into an empty store with distinct fresh ids, flattening
what lies under the import container yields the same top-level bookmark nodes
(title, url, path, order) as `getAllBookmarks forest`, provided no flattened
folder has the empty path. -/
theorem restore_roundtrip_top_level (forest : List NativeNode) (ids : Nat → String)
    (now : String) (hinj : Function.Injective ids) (hfresh : ∀ k, ids k ≠ "1")
    (hfolders : folderPathsNonEmpty (getAllBookmarks forest) = true) :
    (reflattenRestored ids now (getAllBookmarks forest)).filter isBookmarkNode =
      (getAllBookmarks forest).filter isBookmarkNode := by
  have hpaths : pathsAgree "" (getAllBookmarks forest) = true := pathsAgree_processRoots forest
  have hurls : topUrlsTruthy (getAllBookmarks forest) = true := topUrlsTruthy_processRoots forest
  rw [reflattenRestored_eq ids now _ hinj (hfresh 0) hpaths hurls hfolders]
  simp

/-- The top-level bookmark `Google` of the sample forest comes back from the round
trip. -/
theorem restore_roundtrip_top_level_witness :
    (reflattenRestored freshIds "2026-11-04T09:30:00.000Z"
        (getAllBookmarks sampleForest)).filter isBookmarkNode =
      (getAllBookmarks sampleForest).filter isBookmarkNode :=
  restore_roundtrip_top_level sampleForest freshIds "2026-11-04T09:30:00.000Z"
    freshIds_injective freshIds_ne_one rfl

/-- C1: the round trip loses the bookmarks inside folders.  The sample forest
flattens to the bookmark `Google` and the folder `Work` holding `GitHub`; after
the restore into an empty store, every creation succeeding, flattening what lies
under the import container yields the bookmark `Google` only, which is not the
tree that was restored. -/
theorem restore_roundtrip_fails :
    getAllBookmarks sampleForest = [.bookmark "Google" "https://google.com" "",
      .folder "Work" "Work" [.bookmark "GitHub" "https://github.com" "Work"]] ∧
    reflattenRestored freshIds "2026-11-04T09:30:00.000Z" (getAllBookmarks sampleForest) =
      [.bookmark "Google" "https://google.com" ""] ∧
    reflattenRestored freshIds "2026-11-04T09:30:00.000Z" (getAllBookmarks sampleForest) ≠
      getAllBookmarks sampleForest := by
  have h1 : reflattenRestored freshIds "2026-11-04T09:30:00.000Z"
      (getAllBookmarks sampleForest) = [.bookmark "Google" "https://google.com" ""] := rfl
  have h2 : getAllBookmarks sampleForest = [.bookmark "Google" "https://google.com" "",
      .folder "Work" "Work" [.bookmark "GitHub" "https://github.com" "Work"]] := rfl
  refine ⟨h2, h1, ?_⟩
  intro h
  rw [h1, h2] at h
  simp at h

/-- C2: on the specification's example, the folder `Work` holding the bookmark
`Docs`, a restore in which every creation succeeds issues exactly two calls, the
container and the folder `Work`; no call creates the bookmark `Docs`. -/
theorem restoreBookmarks_skips_nested_bookmark (ids : Nat → String) (now : String) :
    restoreBookmarks (idBrowser ids) now workDocs [] =
      (.ok (), [.bookmarksCreate "1" (some (.str (importFolderTitle now))) none,
        .bookmarksCreate (ids 0) (some (.str "Work")) none]) := by
  rfl

theorem isValidUrl_str (s : String) :
    isValidUrl (some (.str s)) =
      .ok (truthyStr s && !invalidPrefixes.any fun start => startsWith s start) := by
  by_cases h : truthyStr s = true <;> simp [isValidUrl, truthyVal, Json.truthy, h]

theorem collectTabs_ok (windowId : Nat) (tabs : List NativeTab) :
    ∀ allTabs : List PortableTab, ∃ collected : List PortableTab,
      collectTabs windowId tabs allTabs = .ok (allTabs ++ collected) := by
  induction tabs with
  | nil => intro allTabs; exact ⟨[], by simp [collectTabs]⟩
  | cons tab rest ih =>
    intro allTabs
    cases hu : tab.url with
    | none =>
      obtain ⟨c, hc⟩ := ih allTabs
      exact ⟨c, by simp [collectTabs, hu, isValidUrl, truthyVal, hc]⟩
    | some u =>
      cases hv : (truthyStr u && !invalidPrefixes.any fun start => startsWith u start)
      · obtain ⟨c, hc⟩ := ih allTabs
        exact ⟨c, by simp [collectTabs, hu, isValidUrl_str, hv, hc]⟩
      · obtain ⟨c, hc⟩ := ih (allTabs ++ [⟨u, tab.title, windowId, tab.index, tab.pinned,
          tab.active⟩])
        exact ⟨⟨u, tab.title, windowId, tab.index, tab.pinned, tab.active⟩ :: c,
          by simp [collectTabs, hu, isValidUrl_str, hv, hc]⟩

theorem collectWindows_ok (windows : List NativeWindow) :
    ∀ allTabs : List PortableTab, ∃ collected : List PortableTab,
      collectWindows windows allTabs = .ok (allTabs ++ collected) := by
  induction windows with
  | nil => intro allTabs; exact ⟨[], by simp [collectWindows]⟩
  | cons w rest ih =>
    intro allTabs
    obtain ⟨c1, h1⟩ := collectTabs_ok w.id w.tabs allTabs
    obtain ⟨c2, h2⟩ := ih (allTabs ++ c1)
    exact ⟨c1 ++ c2, by simp [collectWindows, h1, h2]⟩

/-- C7: when the reads and the download succeed, `exportAll` returns, having
handed one document to the download; in that document `exportInfo.tabCount` is
the length of `openTabs` and `exportInfo.bookmarkCount` the number of bookmark
nodes in `bookmarks`, and the returned counts are the same two numbers. -/
theorem exportAll_counts (browser : Browser) (now₁ now₂ : String) (log : List NativeCall)
    (windows : List NativeWindow) (forest : List NativeNode)
    (hwindows : browser.windowsGetAll = .ok windows)
    (hforest : ∀ read, browser.bookmarksGetTree read = .ok forest)
    (hdownload : ∀ l c, browser.download l c = .ok ()) :
    ∃ (document : ExportDocument) (result : ExportResult),
      exportAll browser now₁ now₂ log =
        (.ok result, log ++ [.download document result.filename]) ∧
      document.bookmarks = getAllBookmarks forest ∧
      document.exportInfo.tabCount = document.openTabs.length ∧
      document.exportInfo.bookmarkCount = bookmarkNodes document.bookmarks ∧
      result.tabCount = document.openTabs.length ∧
      result.bookmarkCount = bookmarkNodes document.bookmarks := by
  obtain ⟨tabs, htabs⟩ := collectWindows_ok windows []
  have h1 : getAllTabs browser = .ok tabs := by
    simp [getAllTabs, hwindows, htabs]
  have h2 : ∀ read, getAllBookmarksOf browser read = .ok (getAllBookmarks forest) := by
    intro read
    simp [getAllBookmarksOf, hforest]
  have h3 : ∀ read,
      getBookmarkCountOf browser read = .ok (bookmarkNodes (getAllBookmarks forest)) := by
    intro read
    simp [getBookmarkCountOf, h2, countBookmarks_eq]
  refine ⟨⟨⟨now₁, "1.0.0", "Tabby Grabby", tabs.length,
      bookmarkNodes (getAllBookmarks forest)⟩, tabs, getAllBookmarks forest⟩,
    ⟨true, exportFilename now₂, tabs.length, bookmarkNodes (getAllBookmarks forest)⟩,
    ?_, rfl, rfl, rfl, rfl, rfl⟩
  simp [exportAll, exportAllBody, h1, h2, h3, downloadJSON, hdownload]

/-- C7 at the sample host. -/
theorem exportAll_counts_witness :
    ∃ (document : ExportDocument) (result : ExportResult),
      exportAll sampleBrowser "2026-11-04T09:30:00.000Z" "2026-11-04T09:30:00.001Z" [] =
        (.ok result, [] ++ [.download document result.filename]) ∧
      document.bookmarks = getAllBookmarks sampleForest ∧
      document.exportInfo.tabCount = document.openTabs.length ∧
      document.exportInfo.bookmarkCount = bookmarkNodes document.bookmarks ∧
      result.tabCount = document.openTabs.length ∧
      result.bookmarkCount = bookmarkNodes document.bookmarks :=
  exportAll_counts sampleBrowser _ _ [] _ sampleForest rfl (fun _ => rfl) (fun _ _ => rfl)

/-- C10: validate before act.  For a JSON file whose content does not parse,
`importFromFile` fails with 'Failed to import data: Invalid JSON format'; when it
parses to a document that `validateImportData` rejects, with 'Failed to import
data: Invalid import data format'; in both cases the log of native calls is
unchanged. -/
theorem importFromFile_rejects_before_acting (browser : Browser) (now : String)
    (file : ImportFile) (text : String) (log : List NativeCall)
    (htype : file.type = "application/json") (hread : file.content = .ok text) :
    (browser.jsonParse text = none →
      importFromFile browser now (some file) log =
        (.error "Failed to import data: Invalid JSON format", log)) ∧
    (∀ document, browser.jsonParse text = some document →
      validateImportData document = .ok false →
      importFromFile browser now (some file) log =
        (.error "Failed to import data: Invalid import data format", log)) := by
  constructor
  · intro hparse
    simp [importFromFile, importFromFileBody, htype, hread, hparse]
  · intro document hparse hvalid
    simp [importFromFile, importFromFileBody, htype, hread, hparse, hvalid]

/-- C10 at the sample host: a text that is not JSON, and the corrupted document of
the integration tests. -/
theorem importFromFile_rejects_before_acting_witness :
    importFromFile sampleBrowser "2026-11-04T09:30:00.000Z"
        (some ⟨"application/json", .ok "invalid json"⟩) [] =
      (.error "Failed to import data: Invalid JSON format", []) ∧
    importFromFile sampleBrowser "2026-11-04T09:30:00.000Z"
        (some ⟨"application/json", .ok corruptedText⟩) [] =
      (.error "Failed to import data: Invalid import data format", []) :=
  ⟨(importFromFile_rejects_before_acting sampleBrowser _ ⟨"application/json", .ok "invalid json"⟩
      "invalid json" [] rfl rfl).1 rfl,
   (importFromFile_rejects_before_acting sampleBrowser _ ⟨"application/json", .ok corruptedText⟩
      corruptedText [] rfl rfl).2 _ rfl rfl⟩

theorem isPrefixOf_iff_append (p l : List Char) :
    p.isPrefixOf l = true ↔ ∃ t, l = p ++ t := by
  induction p generalizing l with
  | nil => simp
  | cons a p ih =>
    cases l with
    | nil => simp
    | cons b l =>
      simp only [List.isPrefixOf, Bool.and_eq_true, beq_iff_eq, ih, List.cons_append,
        List.cons.injEq]
      constructor
      · rintro ⟨rfl, t, rfl⟩; exact ⟨t, rfl, rfl⟩
      · rintro ⟨t, rfl, rfl⟩; exact ⟨rfl, t, rfl⟩

theorem startsWith_iff (url start : String) :
    startsWith url start = true ↔ ∃ rest : String, url = start ++ rest := by
  unfold startsWith
  rw [isPrefixOf_iff_append]
  constructor
  · rintro ⟨t, h⟩
    refine ⟨String.mk t, ?_⟩
    apply String.ext
    simpa using h
  · rintro ⟨rest, rfl⟩
    exact ⟨rest.toList, by simp⟩

theorem startsWith_append (start rest : String) : startsWith (start ++ rest) start = true :=
  (startsWith_iff _ _).mpr ⟨rest, rfl⟩

/-- C14: characterisation of `isValidUrl`.  It is false for an absent url
(`undefined` or `null`), for the empty string and for every string that starts
with an entry of `invalidPrefixes`; it is true for every other string, in
particular for every string that starts with `http://` or `https://`. -/
theorem isValidUrl_characterisation :
    isValidUrl none = .ok false ∧
    isValidUrl (some .null) = .ok false ∧
    isValidUrl (some (.str "")) = .ok false ∧
    (∀ s start rest : String, start ∈ invalidPrefixes → s = start ++ rest →
      isValidUrl (some (.str s)) = .ok false) ∧
    (∀ s : String, s ≠ "" →
      (∀ start ∈ invalidPrefixes, ∀ rest : String, s ≠ start ++ rest) →
      isValidUrl (some (.str s)) = .ok true) ∧
    (∀ rest : String, isValidUrl (some (.str ("http://" ++ rest))) = .ok true ∧
      isValidUrl (some (.str ("https://" ++ rest))) = .ok true) := by
  refine ⟨rfl, rfl, rfl, ?_, ?_, ?_⟩
  · intro s start rest hmem hs
    have hany : (invalidPrefixes.any fun p => startsWith s p) = true :=
      List.any_eq_true.mpr ⟨start, hmem, (startsWith_iff s start).mpr ⟨rest, hs⟩⟩
    rw [isValidUrl_str, hany]; simp
  · intro s hne hno
    have hany : (invalidPrefixes.any fun p => startsWith s p) = false := by
      rw [Bool.eq_false_iff]
      intro h
      obtain ⟨start, hmem, hst⟩ := List.any_eq_true.mp h
      obtain ⟨rest, hrest⟩ := (startsWith_iff s start).mp hst
      exact hno start hmem rest hrest
    rw [isValidUrl_str, hany]
    simp [truthyStr, hne]
  · intro rest
    constructor
    · rw [isValidUrl_str]
      simp [truthyStr, invalidPrefixes, startsWith, String.ext_iff, List.isPrefixOf]
    · rw [isValidUrl_str]
      simp [truthyStr, invalidPrefixes, startsWith, String.ext_iff, List.isPrefixOf]

theorem collectTabs_eq (windowId : Nat) (tabs : List NativeTab) :
    ∀ allTabs : List PortableTab,
      collectTabs windowId tabs allTabs =
        .ok (allTabs ++ (tabs.filter fun tab => satisfiesIsValidUrl (tab.url.map Json.str)).map
          (tabRecord windowId)) := by
  induction tabs with
  | nil => intro allTabs; simp [collectTabs]
  | cons tab rest ih =>
    intro allTabs
    cases hu : tab.url with
    | none =>
      simp [collectTabs, hu, isValidUrl, truthyVal, satisfiesIsValidUrl, ih]
    | some u =>
      cases hv : (truthyStr u && !invalidPrefixes.any fun start => startsWith u start)
      · simp [collectTabs, hu, isValidUrl_str, hv, satisfiesIsValidUrl, ih]
      · simp [collectTabs, hu, isValidUrl_str, hv, satisfiesIsValidUrl, ih, tabRecord]

theorem collectWindows_eq (windows : List NativeWindow) :
    ∀ allTabs : List PortableTab,
      collectWindows windows allTabs = .ok (allTabs ++ flattenedTabs windows) := by
  induction windows with
  | nil => intro allTabs; simp [collectWindows, flattenedTabs]
  | cons w rest ih =>
    intro allTabs
    simp [collectWindows, collectTabs_eq, ih, flattenedTabs, windowTabRecords]

theorem flattenedTabs_valid (windows : List NativeWindow) :
    ∀ tab ∈ flattenedTabs windows, satisfiesIsValidUrl (some (.str tab.url)) = true := by
  induction windows with
  | nil => intro tab h; simp [flattenedTabs] at h
  | cons w rest ih =>
    intro tab h
    simp only [flattenedTabs, List.mem_append] at h
    rcases h with h | h
    · simp only [windowTabRecords, List.mem_map, List.mem_filter] at h
      obtain ⟨t, ⟨_, hvalid⟩, rfl⟩ := h
      cases hu : t.url with
      | none => simp [hu, satisfiesIsValidUrl, isValidUrl, truthyVal] at hvalid
      | some u => simpa [hu, tabRecord] using hvalid
    · exact ih tab h

theorem flattenedTabs_length (windows : List NativeWindow) :
    (flattenedTabs windows).length ≤ nativeTabCount windows := by
  induction windows with
  | nil => simp [flattenedTabs, nativeTabCount]
  | cons w rest ih =>
    have := List.length_filter_le (fun tab : NativeTab =>
      satisfiesIsValidUrl (tab.url.map Json.str)) w.tabs
    simp only [flattenedTabs, nativeTabCount, windowTabRecords, List.length_append,
      List.length_map]
    omega

/-- C15: tab flatten.  `getAllTabs` returns the concatenation, in window order, of
each window's tabs in their given order, restricted to the tabs whose url
satisfies `isValidUrl` and mapped to their records; every tab of the output
satisfies `isValidUrl` and the output is no longer than the number of native
tabs. -/
theorem getAllTabs_eq_flattenedTabs (browser : Browser) (windows : List NativeWindow)
    (hwindows : browser.windowsGetAll = .ok windows) :
    getAllTabs browser = .ok (flattenedTabs windows) ∧
    (∀ tab ∈ flattenedTabs windows, satisfiesIsValidUrl (some (.str tab.url)) = true) ∧
    (flattenedTabs windows).length ≤ nativeTabCount windows := by
  refine ⟨?_, flattenedTabs_valid windows, flattenedTabs_length windows⟩
  simp [getAllTabs, hwindows, collectWindows_eq]

/-- C15 at the sample host: of its two tabs the internal one is dropped. -/
theorem getAllTabs_eq_flattenedTabs_witness :
    getAllTabs sampleBrowser = .ok [⟨"https://example.com", "Example", 1, 0, false, true⟩] :=
  (getAllTabs_eq_flattenedTabs sampleBrowser _ rfl).1

theorem isValidUrl_of_isTabRecord (tab : Json) (h : isTabRecord tab = true) :
    isValidUrl (tab.field "url") = .ok (satisfiesIsValidUrl (tab.field "url")) ∧
    getProp tab "url" = .ok (tab.field "url") ∧
    pinnedOrFalse (tab.field "pinned") = pinnedOf tab := by
  cases tab with
  | obj fields =>
    simp only [isTabRecord, Bool.and_eq_true] at h
    refine ⟨?_, rfl, ?_⟩
    · simp only [Json.field]
      cases hu : fields.lookup "url" with
      | none => rfl
      | some v =>
        rw [hu] at h
        cases v with
        | str s =>
          rw [satisfiesIsValidUrl, isValidUrl_str]
          cases (truthyStr s && !invalidPrefixes.any fun start => startsWith s start) <;> rfl
        | _ => simp at h
    · simp only [Json.field, pinnedOf]
      cases hp : fields.lookup "pinned" with
      | none => rfl
      | some v =>
        rw [hp] at h
        cases v with
        | bool b => cases b <;> rfl
        | _ => simp at h
  | _ => simp [isTabRecord] at h

theorem createRemainingTabs_eq (browser : Browser) (windowId : Nat)
    (htabs : ∀ l c, browser.tabsCreate l c = .ok ()) (rest : List Json) :
    ∀ log : List NativeCall, rest.all isTabRecord = true →
      createRemainingTabs browser windowId rest log =
        (.ok (), log ++ expectedTabCalls windowId rest) := by
  induction rest with
  | nil => intro log _; simp [createRemainingTabs, expectedTabCalls]
  | cons tab rest ih =>
    intro log h
    simp only [List.all_cons, Bool.and_eq_true] at h
    obtain ⟨hv, hg, hp⟩ := isValidUrl_of_isTabRecord tab h.1
    cases hs : satisfiesIsValidUrl (tab.field "url")
    · simp only [createRemainingTabs, hg, hv, hs]
      simpa [expectedTabCalls, hs] using ih log h.2
    · simp only [createRemainingTabs, hg, hv, hs, htabs, hp]
      rw [ih _ h.2]
      simp [expectedTabCalls, hs]

/-- C16 (amended): tab restore.  On the empty list and on a value that is not an
array `restoreTabs` issues no call.  On a non-empty list of tab records (objects
whose `url`, when present, is a string and whose `pinned`, when present, is a
boolean), the calls succeeding, it issues one window creation with `url = tabs[0].url` and `focused =
true`, then one tab creation in the new window, with `active = false` and the
entry's `pinned` flag, for each later entry whose url satisfies `isValidUrl`, in
input order; the created tabs are no more than the later entries. -/
theorem restoreTabs_calls (browser : Browser) (first : Json) (rest : List Json)
    (log : List NativeCall) (windowId : Nat)
    (hrecords : (first :: rest).all isTabRecord = true)
    (hwindow : browser.windowsCreate log (.windowsCreate (first.field "url") true) =
      .ok windowId)
    (htabs : ∀ l c, browser.tabsCreate l c = .ok ()) :
    restoreTabs browser (.arr (first :: rest)) log =
      (.ok (), log ++ .windowsCreate (first.field "url") true ::
        expectedTabCalls windowId rest) ∧
    (expectedTabCalls windowId rest).length ≤ rest.length ∧
    restoreTabs browser (.arr []) log = (.ok (), log) ∧
    (∀ tabs : Json, (∀ items, tabs ≠ .arr items) →
      restoreTabs browser tabs log = (.ok (), log)) := by
  simp only [List.all_cons, Bool.and_eq_true] at hrecords
  refine ⟨?_, ?_, rfl, ?_⟩
  · obtain ⟨_, hg, _⟩ := isValidUrl_of_isTabRecord first hrecords.1
    simp only [restoreTabs, hg, hwindow]
    rw [createRemainingTabs_eq browser windowId htabs rest _ hrecords.2]
    simp
  · simp only [expectedTabCalls, List.length_map]
    exact List.length_filter_le _ _
  · intro tabs hnot
    cases tabs with
    | arr items => exact absurd rfl (hnot items)
    | _ => rfl

/-- C16 (amended) at the list of the test "should create new window and tabs". -/
theorem restoreTabs_calls_witness :
    restoreTabs (idBrowser freshIds) twoTabs [] =
      (.ok (), [.windowsCreate (some (.str "https://example.com")) true,
        .tabsCreate 0 (some (.str "https://google.com")) (.bool true) false]) :=
  (restoreTabs_calls (idBrowser freshIds)
    (.obj [("url", .str "https://example.com"), ("title", .str "Example"),
      ("pinned", .bool false)])
    [.obj [("url", .str "https://google.com"), ("title", .str "Google"),
      ("pinned", .bool true)]] [] 0 rfl rfl (fun _ _ => rfl)).1

/-- C17: on a list whose first entry has the internal url `chrome://settings`,
`restoreTabs` passes that url, which fails `isValidUrl`, to the window creation,
and two tabs come to exist, the window's and the one created after it. -/
theorem restoreTabs_passes_invalid_first_url (ids : Nat → String) :
    satisfiesIsValidUrl (some (.str "chrome://settings")) = false ∧
    restoreTabs (idBrowser ids) internalFirstTabs [] =
      (.ok (), [.windowsCreate (some (.str "chrome://settings")) true,
        .tabsCreate 0 (some (.str "https://example.com")) (.bool false) false]) :=
  ⟨rfl, rfl⟩

/-- C13: once the parsed document is accepted by `validateImportData`,
`importFromFile` does not raise: it returns `success = true` with the
`tabsImported`, `bookmarksImported` and `errors` of `processImport`, whatever the
two restore branches did. -/
theorem importFromFile_success (browser : Browser) (now : String) (file : ImportFile)
    (text : String) (document : Json) (log : List NativeCall)
    (htype : file.type = "application/json") (hread : file.content = .ok text)
    (hparse : browser.jsonParse text = some document)
    (hvalid : validateImportData document = .ok true) :
    importFromFile browser now (some file) log =
      (.ok ⟨true, (processImport browser now document log).1.tabsImported,
          (processImport browser now document log).1.bookmarksImported,
          (processImport browser now document log).1.errors⟩,
        (processImport browser now document log).2) := by
  simp [importFromFile, importFromFileBody, htype, hread, hparse, hvalid]

/-- C13 at a host in which both restore branches fail. -/
theorem importFromFile_success_witness :
    importFromFile failingBrowser "2026-11-04T09:30:00.000Z"
        (some ⟨"application/json", .ok validText⟩) [] =
      (.ok ⟨true, some (.num 0), 0,
          ["Failed to import tabs: Failed to restore tabs",
            "Failed to import bookmarks: Failed to restore bookmarks"]⟩,
        [.windowsCreate (some (.str "https://example.com")) true,
          .bookmarksCreate "1"
            (some (.str (importFolderTitle "2026-11-04T09:30:00.000Z"))) none]) :=
  (importFromFile_success failingBrowser "2026-11-04T09:30:00.000Z"
    ⟨"application/json", .ok validText⟩ validText validImportData [] rfl rfl rfl rfl).trans rfl

mutual
theorem countItems_ok_of_createFolders (browser : Browser) :
    ∀ (items : List Json) (parentId : String) (folderMap : FolderMap) (log : List NativeCall)
      (folderMap' : FolderMap) (log' : List NativeCall),
      createFolders browser items parentId folderMap log = (.ok folderMap', log') →
      ∀ count : Nat, ∃ n, countItems items count = .ok n
  | [], _, _, _, _, _, _, count => ⟨count, rfl⟩
  | .null :: _, _, _, _, _, _, h, _ => by simp [createFolders] at h
  | .bool _ :: rest, parentId, folderMap, log, folderMap', log', h, count => by
    simp only [createFolders] at h
    obtain ⟨n, hn⟩ := countItems_ok_of_createFolders browser rest _ _ _ _ _ h count
    exact ⟨n, by simp [countItems, countItem, hn]⟩
  | .num _ :: rest, parentId, folderMap, log, folderMap', log', h, count => by
    simp only [createFolders] at h
    obtain ⟨n, hn⟩ := countItems_ok_of_createFolders browser rest _ _ _ _ _ h count
    exact ⟨n, by simp [countItems, countItem, hn]⟩
  | .str _ :: rest, parentId, folderMap, log, folderMap', log', h, count => by
    simp only [createFolders] at h
    obtain ⟨n, hn⟩ := countItems_ok_of_createFolders browser rest _ _ _ _ _ h count
    exact ⟨n, by simp [countItems, countItem, hn]⟩
  | .arr _ :: rest, parentId, folderMap, log, folderMap', log', h, count => by
    simp only [createFolders] at h
    obtain ⟨n, hn⟩ := countItems_ok_of_createFolders browser rest _ _ _ _ _ h count
    exact ⟨n, by simp [countItems, countItem, hn]⟩
  | .obj fields :: rest, parentId, folderMap, log, folderMap', log', h, count => by
    simp only [createFolders] at h
    by_cases hf : isStr (fields.lookup "type") "folder" = true
    · simp only [hf, if_true] at h
      cases hs : createFolderStructure browser (.obj fields) parentId folderMap log with
      | mk r l1 =>
        rw [hs] at h
        cases r with
        | error e => simp at h
        | ok fm1 =>
          simp only at h
          obtain ⟨n1, hn1⟩ := countItem_ok_of_createFolderStructure browser (.obj fields) parentId
            folderMap log fm1 l1 hs count
          obtain ⟨n, hn⟩ := countItems_ok_of_createFolders browser rest _ _ _ _ _ h n1
          exact ⟨n, by simp [countItems, hn1, hn]⟩
    · simp only [hf] at h
      obtain ⟨n1, hn1⟩ : ∃ n1, countItem (.obj fields) count = .ok n1 := by
        by_cases hb : isStr (fields.lookup "type") "bookmark" = true
        · exact ⟨count + 1, by simp [countItem, hb]⟩
        · exact ⟨count, by simp [countItem, hb, hf]⟩
      obtain ⟨n, hn⟩ := countItems_ok_of_createFolders browser rest _ _ _ _ _ h n1
      exact ⟨n, by simp [countItems, hn1, hn]⟩
theorem countItem_ok_of_createFolderStructure (browser : Browser) :
    ∀ (item : Json) (parentId : String) (folderMap : FolderMap)
      (log : List NativeCall) (folderMap' : FolderMap) (log' : List NativeCall),
      createFolderStructure browser item parentId folderMap log = (.ok folderMap', log') →
      ∀ count : Nat, ∃ n, countItem item count = .ok n
  | .obj fields, parentId, folderMap, log, folderMap', log', h, count => by
    simp only [createFolderStructure] at h
    cases hc : browser.bookmarksCreate log
        (.bookmarksCreate parentId (fields.lookup "title") none) with
    | error e => rw [hc] at h; simp at h
    | ok createdId =>
      rw [hc] at h
      simp only at h
      obtain ⟨n, hn⟩ := countChildren_ok_of_createChildFolders browser fields _ _ _ _ _ h count
      by_cases hb : isStr (fields.lookup "type") "bookmark" = true
      · exact ⟨count + 1, by simp [countItem, hb]⟩
      · by_cases hf : (isStr (fields.lookup "type") "folder" &&
            truthyVal (fields.lookup "children")) = true
        · exact ⟨n, by simp only [countItem, hb, hf]; simpa using hn⟩
        · exact ⟨count, by simp only [countItem, hb, hf]; simp⟩
  | .null, _, _, _, _, _, h, _ => by simp [createFolderStructure] at h
  | .bool _, parentId, _, log, _, _, h, _ => by
    simp only [createFolderStructure] at h
    cases hc : browser.bookmarksCreate log (.bookmarksCreate parentId none none) <;>
      simp [hc] at h
  | .num _, parentId, _, log, _, _, h, _ => by
    simp only [createFolderStructure] at h
    cases hc : browser.bookmarksCreate log (.bookmarksCreate parentId none none) <;>
      simp [hc] at h
  | .str _, parentId, _, log, _, _, h, _ => by
    simp only [createFolderStructure] at h
    cases hc : browser.bookmarksCreate log (.bookmarksCreate parentId none none) <;>
      simp [hc] at h
  | .arr _, parentId, _, log, _, _, h, _ => by
    simp only [createFolderStructure] at h
    cases hc : browser.bookmarksCreate log (.bookmarksCreate parentId none none) <;>
      simp [hc] at h
theorem countChildren_ok_of_createChildFolders (browser : Browser) :
    ∀ (fields : List (String × Json)) (createdId : String) (folderMap : FolderMap)
      (log : List NativeCall) (folderMap' : FolderMap) (log' : List NativeCall),
      createChildFolders browser fields createdId folderMap log = (.ok folderMap', log') →
      ∀ count : Nat, ∃ n, countChildren fields count = .ok n
  | [], _, _, _, _, _, h, _ => by simp [createChildFolders] at h
  | (key, value) :: rest, createdId, folderMap, log, folderMap', log', h, count => by
    by_cases hk : ("children" == key) = true
    · cases value with
      | arr children =>
        simp only [createChildFolders, hk, if_true] at h
        obtain ⟨n, hn⟩ := countItems_ok_of_createFolders browser children _ _ _ _ _ h count
        exact ⟨n, by simp only [countChildren, hk, if_true, countRecursive, hn]⟩
      | str s => exact ⟨count, by simp only [countChildren, hk, if_true, countRecursive]⟩
      | null => simp [createChildFolders, hk] at h
      | bool _ => simp [createChildFolders, hk] at h
      | num _ => simp [createChildFolders, hk] at h
      | obj _ => simp [createChildFolders, hk] at h
    · cases value <;>
        (simp only [createChildFolders, hk] at h
         obtain ⟨n, hn⟩ := countChildren_ok_of_createChildFolders browser rest _ _ _ _ _ h count
         exact ⟨n, by rw [countChildren, if_neg hk]; exact hn⟩)
end

theorem countItems_ok_of_restoreBookmarks (browser : Browser) (now : String)
    (items : List Json) (log log' : List NativeCall)
    (h : restoreBookmarks browser now (.arr items) log = (.ok (), log')) :
    ∃ n, countBookmarksInData (.arr items) = .ok n := by
  cases items with
  | nil => exact ⟨0, rfl⟩
  | cons item rest =>
    simp only [restoreBookmarks, restoreBookmarksBody] at h
    cases hc : browser.bookmarksCreate log
        (.bookmarksCreate "1" (some (.str (importFolderTitle now))) none) with
    | error e => rw [hc] at h; simp at h
    | ok importFolderId =>
      rw [hc] at h
      simp only at h
      cases hf : createFolders browser (item :: rest) importFolderId
          (FolderMap.set [] (some (.str "")) importFolderId)
          (log ++ [.bookmarksCreate "1" (some (.str (importFolderTitle now))) none]) with
      | mk r l1 =>
        rw [hf] at h
        cases r with
        | error e => simp at h
        | ok fm =>
          obtain ⟨n, hn⟩ := countItems_ok_of_createFolders browser _ _ _ _ _ _ hf 0
          exact ⟨n, by simpa [countBookmarksInData, countRecursive] using hn⟩

theorem getProp_of_field {document : Json} {key : String} {v : Json}
    (h : document.field key = some v) : getProp document key = .ok (some v) := by
  cases document <;> simp [Json.field] at h
  simp [getProp, Json.field, h]

theorem positive_length (browser : Browser) (items : List Json) :
    ((Json.arr items).truthy && greaterThanZero browser (lengthOf (.arr items))) =
      !items.isEmpty := by
  cases items <;> simp [Json.truthy, greaterThanZero, lengthOf]

theorem importTabs_of_array (browser : Browser) (document : Json) (tabs : List Json)
    (log : List NativeCall) (h : document.field "openTabs" = some (.arr tabs)) :
    importTabs browser document log =
      match restoreTabs browser (.arr tabs) log with
      | (.error e, log') => ((some (.num 0), ["Failed to import tabs: " ++ e]), log')
      | (.ok _, log') => ((some (.num tabs.length), []), log') := by
  simp only [importTabs, getProp_of_field h, positive_length]
  cases tabs with
  | nil => simp [restoreTabs]
  | cons t rest =>
    simp only [List.isEmpty_cons, Bool.not_false, if_true, lengthOf]

theorem importBookmarks_of_array (browser : Browser) (now : String) (document : Json)
    (bookmarks : List Json) (log : List NativeCall)
    (h : document.field "bookmarks" = some (.arr bookmarks)) :
    importBookmarks browser now document log =
      match restoreBookmarks browser now (.arr bookmarks) log with
      | (.error e, log') => ((0, ["Failed to import bookmarks: " ++ e]), log')
      | (.ok _, log') =>
        match countBookmarksInData (.arr bookmarks) with
        | .error e => ((0, ["Failed to import bookmarks: " ++ e]), log')
        | .ok count => ((count, []), log') := by
  simp only [importBookmarks, getProp_of_field h, positive_length]
  cases bookmarks with
  | nil => simp [restoreBookmarks]; rfl
  | cons t rest =>
    simp only [List.isEmpty_cons, Bool.not_false, if_true]

/-- C11: partial-failure isolation.  `processImport` is a total function: it
returns its results and never raises.  For a document whose `openTabs` and
`bookmarks` are arrays: when the tab restore raises with message `m` and the
bookmark restore then succeeds, the bookmark restore has run on the document's
bookmarks and the results are `tabsImported = 0`, `bookmarksImported =
countBookmarksInData(bookmarks)` and `errors = ['Failed to import tabs: ' + m]`;
when the tab restore succeeds and the bookmark restore raises with `m`, the tabs
stay restored and the results are `tabsImported = openTabs.length`,
`bookmarksImported = 0` and `errors = ['Failed to import bookmarks: ' + m]`. -/
theorem processImport_isolates_failures (browser : Browser) (now : String) (document : Json)
    (log : List NativeCall) (tabs bookmarks : List Json)
    (htabs : document.field "openTabs" = some (.arr tabs))
    (hbookmarks : document.field "bookmarks" = some (.arr bookmarks)) :
    (∀ (m : String) (log₁ log₂ : List NativeCall),
      restoreTabs browser (.arr tabs) log = (.error m, log₁) →
      restoreBookmarks browser now (.arr bookmarks) log₁ = (.ok (), log₂) →
      ∃ n, countBookmarksInData (.arr bookmarks) = .ok n ∧
        processImport browser now document log =
          (⟨some (.num 0), n, ["Failed to import tabs: " ++ m]⟩, log₂)) ∧
    (∀ (m : String) (log₁ log₂ : List NativeCall),
      restoreTabs browser (.arr tabs) log = (.ok (), log₁) →
      restoreBookmarks browser now (.arr bookmarks) log₁ = (.error m, log₂) →
      processImport browser now document log =
        (⟨some (.num tabs.length), 0, ["Failed to import bookmarks: " ++ m]⟩, log₂)) := by
  constructor
  · intro m log₁ log₂ ht hb
    obtain ⟨n, hn⟩ := countItems_ok_of_restoreBookmarks browser now bookmarks log₁ log₂ hb
    refine ⟨n, hn, ?_⟩
    simp [processImport, importTabs_of_array browser document tabs log htabs, ht,
      importBookmarks_of_array browser now document bookmarks log₁ hbookmarks, hb, hn]
  · intro m log₁ log₂ ht hb
    simp [processImport, importTabs_of_array browser document tabs log htabs, ht,
      importBookmarks_of_array browser now document bookmarks log₁ hbookmarks, hb]

/-- C11 at the document `validImportData`: at a host in which window creation
fails, and at a host in which bookmark creation fails. -/
theorem processImport_isolates_failures_witness :
    processImport noWindowBrowser "2026-11-04T09:30:00.000Z" validImportData [] =
      (⟨some (.num 0), 1, ["Failed to import tabs: Failed to restore tabs"]⟩,
        [.windowsCreate (some (.str "https://example.com")) true,
          .bookmarksCreate "1"
            (some (.str (importFolderTitle "2026-11-04T09:30:00.000Z"))) none,
          .bookmarksCreate (freshIds 1) (some (.str "Google"))
            (some (.str "https://google.com"))]) ∧
    processImport noBookmarkBrowser "2026-11-04T09:30:00.000Z" validImportData [] =
      (⟨some (.num 1), 0, ["Failed to import bookmarks: Failed to restore bookmarks"]⟩,
        [.windowsCreate (some (.str "https://example.com")) true,
          .bookmarksCreate "1"
            (some (.str (importFolderTitle "2026-11-04T09:30:00.000Z"))) none]) := by
  have h1 := (processImport_isolates_failures noWindowBrowser "2026-11-04T09:30:00.000Z"
    validImportData [] _ _ rfl rfl).1 _ _ _ rfl rfl
  have h2 := (processImport_isolates_failures noBookmarkBrowser "2026-11-04T09:30:00.000Z"
    validImportData [] _ _ rfl rfl).2 _ _ _ rfl rfl
  obtain ⟨n, hn, h1⟩ := h1
  have hn1 : n = 1 := by
    have : countBookmarksInData (.arr [.obj [("type", .str "bookmark"),
      ("title", .str "Google"), ("url", .str "https://google.com")]]) = .ok 1 := rfl
    rw [this] at hn
    exact (Except.ok.inj hn).symm
  subst hn1
  exact ⟨h1, h2⟩

theorem arrays_of_validateImportData (document : Json)
    (h : validateImportData document = .ok true) :
    ∃ tabs bookmarks, document.field "openTabs" = some (.arr tabs) ∧
      document.field "bookmarks" = some (.arr bookmarks) ∧
      validateTabs tabs = .ok true ∧ validateBookmarks bookmarks = .ok true := by
  cases document with
  | obj fields =>
    simp only [validateImportData, Json.truthy, Json.typeofObject, Json.hasKey, Json.field] at h
    simp only [Json.field]
    cases ht : fields.lookup "openTabs" with
    | none => simp [ht] at h
    | some tv =>
      cases hb : fields.lookup "bookmarks" with
      | none => simp [ht, hb] at h
      | some bv =>
        rw [ht, hb] at h
        cases tv <;> cases bv <;> simp at h
        rename_i tabs bms
        refine ⟨tabs, bms, rfl, rfl, ?_⟩
        cases hvt : validateTabs tabs with
        | error e => simp [hvt] at h
        | ok b =>
          cases b with
          | false => simp [hvt] at h
          | true => exact ⟨rfl, by simpa [hvt] using h⟩
  | _ => simp [validateImportData, Json.truthy, Json.typeofObject, Json.hasKey] at h

/-- C12: import accounting.  For a validated document, `tabsImported` is the length
of `openTabs` when the tab restore completed without error and 0 otherwise,
`bookmarksImported` is `countBookmarksInData(bookmarks)` when the bookmark restore
completed without error and 0 otherwise, and `errors` has one entry for each
restore branch that raised. -/
theorem processImport_accounting (browser : Browser) (now : String) (document : Json)
    (log : List NativeCall) (hvalid : validateImportData document = .ok true) :
    ∃ tabs bookmarks : List Json,
      document.field "openTabs" = some (.arr tabs) ∧
      document.field "bookmarks" = some (.arr bookmarks) ∧
      (processImport browser now document log).1.tabsImported =
        some (.num (if raised (restoreTabs browser (.arr tabs) log).1 then 0
          else tabs.length)) ∧
      (raised (restoreBookmarks browser now (.arr bookmarks)
          (restoreTabs browser (.arr tabs) log).2).1 = true →
        (processImport browser now document log).1.bookmarksImported = 0) ∧
      (raised (restoreBookmarks browser now (.arr bookmarks)
          (restoreTabs browser (.arr tabs) log).2).1 = false →
        countBookmarksInData (.arr bookmarks) =
          .ok (processImport browser now document log).1.bookmarksImported) ∧
      (processImport browser now document log).1.errors.length =
        (if raised (restoreTabs browser (.arr tabs) log).1 then 1 else 0) +
        (if raised (restoreBookmarks browser now (.arr bookmarks)
          (restoreTabs browser (.arr tabs) log).2).1 then 1 else 0) := by
  obtain ⟨tabs, bookmarks, ht, hb, _, _⟩ := arrays_of_validateImportData document hvalid
  refine ⟨tabs, bookmarks, ht, hb, ?_⟩
  simp only [processImport, importTabs_of_array browser document tabs log ht]
  cases hrt : restoreTabs browser (.arr tabs) log with
  | mk rt log₁ =>
    simp only [importBookmarks_of_array browser now document bookmarks _ hb]
    cases hrb : restoreBookmarks browser now (.arr bookmarks) log₁ with
    | mk rb log₂ =>
      cases rb with
      | error e =>
        cases rt <;> simp [hrb, raised]
      | ok u =>
        obtain ⟨n, hn⟩ := countItems_ok_of_restoreBookmarks browser now bookmarks log₁ log₂ hrb
        cases rt <;> simp [hrb, raised, hn]

/-- C12 at the document `validImportData` and a host in which window creation
fails. -/
theorem processImport_accounting_witness :
    ∃ tabs bookmarks : List Json,
      validImportData.field "openTabs" = some (.arr tabs) ∧
      validImportData.field "bookmarks" = some (.arr bookmarks) ∧
      (processImport noWindowBrowser "2026-11-04T09:30:00.000Z" validImportData []).1.tabsImported =
        some (.num (if raised (restoreTabs noWindowBrowser (.arr tabs) []).1 then 0
          else tabs.length)) ∧
      (raised (restoreBookmarks noWindowBrowser "2026-11-04T09:30:00.000Z" (.arr bookmarks)
          (restoreTabs noWindowBrowser (.arr tabs) []).2).1 = true →
        (processImport noWindowBrowser "2026-11-04T09:30:00.000Z" validImportData
          []).1.bookmarksImported = 0) ∧
      (raised (restoreBookmarks noWindowBrowser "2026-11-04T09:30:00.000Z" (.arr bookmarks)
          (restoreTabs noWindowBrowser (.arr tabs) []).2).1 = false →
        countBookmarksInData (.arr bookmarks) =
          .ok (processImport noWindowBrowser "2026-11-04T09:30:00.000Z" validImportData
            []).1.bookmarksImported) ∧
      (processImport noWindowBrowser "2026-11-04T09:30:00.000Z" validImportData
          []).1.errors.length =
        (if raised (restoreTabs noWindowBrowser (.arr tabs) []).1 then 1 else 0) +
        (if raised (restoreBookmarks noWindowBrowser "2026-11-04T09:30:00.000Z"
          (.arr bookmarks) (restoreTabs noWindowBrowser (.arr tabs) []).2).1 then 1 else 0) :=
  processImport_accounting noWindowBrowser "2026-11-04T09:30:00.000Z" validImportData [] rfl

theorem recordCreations_append (a b : List FolderCreation) (fm : FolderMap) :
    recordCreations (a ++ b) fm = recordCreations b (recordCreations a fm) := by
  simp [recordCreations, List.foldl_append]

theorem createFolders_toJson_creations (ids : Nat → String) (tree : List PortableNode) :
    ∀ (parentId : String) (folderMap : FolderMap) (log : List NativeCall),
      createFolders (idBrowser ids) (portableToJson tree) parentId folderMap log =
        (.ok (recordCreations (folderCreations ids log.length parentId tree) folderMap),
          log ++ (folderCreations ids log.length parentId tree).map FolderCreation.toCall) := by
  induction tree using portableForest_induction with
  | hnil =>
    intro parentId folderMap log
    simp [portableToJson, createFolders, folderCreations, recordCreations]
  | hbookmark t u p rest ih =>
    intro parentId folderMap log
    simp only [portableToJson, PortableNode.toJson, createFolders]
    simpa [List.lookup, isStr, folderCreations, folderCreationsOf] using ih parentId folderMap log
  | hfolder t p cs rest ihc ih =>
    intro parentId folderMap log
    have h1 := ihc (ids log.length) (FolderMap.set folderMap (some (.str p)) (ids log.length))
        (log ++ [.bookmarksCreate parentId (some (.str t)) none])
    have h2 := ih parentId
      (recordCreations (folderCreations ids (log.length + 1) (ids log.length) cs)
        (FolderMap.set folderMap (some (.str p)) (ids log.length)))
      (log ++ [.bookmarksCreate parentId (some (.str t)) none] ++
        (folderCreations ids (log.length + 1) (ids log.length) cs).map FolderCreation.toCall)
    simp only [List.length_append, List.length_singleton, List.length_map] at h1 h2
    simp only [portableToJson, PortableNode.toJson, createFolders, createFolderStructure,
      createChildFolders_eq_lookup, idBrowser_bookmarksCreate]
    simp only [List.lookup, isStr, createFoldersOf]
    simp only [show ("type" == "type") = true from rfl, show ("children" == "type") = false from rfl,
      show ("children" == "title") = false from rfl, show ("children" == "path") = false from rfl,
      show ("children" == "children") = true from rfl, show ("title" == "type") = false from rfl,
      show ("title" == "title") = true from rfl, show ("path" == "type") = false from rfl,
      show ("path" == "title") = false from rfl, show ("path" == "path") = true from rfl,
      show ("folder" == "folder") = true from rfl, if_true]
    rw [h1]
    simp only
    rw [h2]
    simp [folderCreations, folderCreationsOf, recordCreations, FolderCreation.toCall,
      Nat.add_assoc, Nat.add_comm 1]


theorem folderCreations_length (ids : Nat → String) (tree : List PortableNode) :
    ∀ (k : Nat) (parentId : String),
      (folderCreations ids k parentId tree).length = folderNodes tree := by
  induction tree using portableForest_induction with
  | hnil => intro k parentId; simp [folderCreations, folderNodes]
  | hbookmark t u p rest ih =>
    intro k parentId
    simp [folderCreations, folderCreationsOf, folderNodes, folderNodesOf, ih]
  | hfolder t p cs rest ihc ih =>
    intro k parentId
    simp [folderCreations, folderCreationsOf, folderNodes, folderNodesOf, ih, ihc]
    omega

theorem parentsPrecede_append (a b : List FolderCreation) :
    ∀ known : List String,
      parentsPrecede known (a ++ b) =
        (parentsPrecede known a && parentsPrecede ((a.map (·.id)).reverse ++ known) b) := by
  induction a with
  | nil => intro known; simp [parentsPrecede]
  | cons c rest ih =>
    intro known
    simp [parentsPrecede, ih, Bool.and_assoc]

theorem parentsPrecede_folderCreations (ids : Nat → String) (tree : List PortableNode) :
    ∀ (k : Nat) (parentId : String) (known : List String), parentId ∈ known →
      parentsPrecede known (folderCreations ids k parentId tree) = true := by
  induction tree using portableForest_induction with
  | hnil => intro k parentId known _; simp [folderCreations, parentsPrecede]
  | hbookmark t u p rest ih =>
    intro k parentId known h
    simpa [folderCreations, folderCreationsOf] using ih k parentId known h
  | hfolder t p cs rest ihc ih =>
    intro k parentId known h
    simp only [folderCreations, folderCreationsOf, parentsPrecede, List.append_eq,
      parentsPrecede_append, Bool.and_eq_true]
    refine ⟨by simpa using h, ihc _ _ _ (List.mem_cons_self _ _), ih _ _ _ ?_⟩
    simp [h]

theorem get_recordCreations (creations : List FolderCreation) (fm : FolderMap) :
    ∀ c ∈ creations, ∃ c' ∈ creations, c'.path = c.path ∧
      (recordCreations creations fm).get (some (.str c.path)) = some c'.id := by
  induction creations using List.reverseRecOn with
  | nil => intro c h; simp at h
  | append_singleton l x ih =>
    intro c hc
    simp only [recordCreations_append]
    by_cases hx : x.path = c.path
    · refine ⟨x, by simp, hx, ?_⟩
      simp [recordCreations, FolderMap.set, FolderMap.get, sameKey, hx]
    · have hcl : c ∈ l := by
        rcases List.mem_append.mp hc with h | h
        · exact h
        · simp at h; rw [h] at hx; exact absurd rfl hx
      obtain ⟨c', hc', hp, hg⟩ := ih c hcl
      refine ⟨c', by simp [hc'], hp, ?_⟩
      simpa [recordCreations, FolderMap.set, FolderMap.get, sameKey, hx] using hg

theorem createBookmarkItems_toJson_calls (ids : Nat → String) (folderMap : FolderMap)
    (importFolderId : String) (tree : List PortableNode) :
    ∀ log : List NativeCall,
      createBookmarkItems (idBrowser ids) importFolderId folderMap (portableToJson tree) log =
        (.ok (), log ++ bookmarkCallsWith folderMap importFolderId tree) := by
  induction tree with
  | nil => intro log; simp [portableToJson, createBookmarkItems, bookmarkCallsWith]
  | cons n rest ih =>
    intro log
    cases n with
    | bookmark t u p =>
      simp only [portableToJson, PortableNode.toJson, createBookmarkItems, getProp, Json.field,
        idBrowser_bookmarksCreate]
      simp [List.lookup, isStr, ih, bookmarkCallsWith]
    | folder t p cs =>
      simp only [portableToJson, PortableNode.toJson, createBookmarkItems, getProp, Json.field]
      simp [List.lookup, isStr, ih, bookmarkCallsWith]

theorem carriesUrl_bookmarkCallsWith (folderMap : FolderMap) (importFolderId : String)
    (tree : List PortableNode) :
    ∀ c ∈ bookmarkCallsWith folderMap importFolderId tree, carriesUrl c = true := by
  induction tree with
  | nil => intro c h; simp [bookmarkCallsWith] at h
  | cons n rest ih =>
    intro c h
    cases n with
    | bookmark t u p =>
      simp only [bookmarkCallsWith, List.mem_cons] at h
      rcases h with rfl | h
      · rfl
      · exact ih c h
    | folder t p cs => exact ih c (by simpa [bookmarkCallsWith] using h)

/-- The log of a restore of a portable tree into `idBrowser ids`. -/
theorem restoreBookmarks_toJson_calls (ids : Nat → String) (now : String)
    (tree : List PortableNode) (hne : tree ≠ []) :
    restoreBookmarks (idBrowser ids) now (.arr (portableToJson tree)) [] =
      (.ok (), .bookmarksCreate "1" (some (.str (importFolderTitle now))) none ::
        ((folderCreations ids 1 (ids 0) tree).map FolderCreation.toCall ++
          bookmarkCallsWith
            (recordCreations (folderCreations ids 1 (ids 0) tree)
              (FolderMap.set [] (some (.str "")) (ids 0)))
            (ids 0) tree)) := by
  cases tree with
  | nil => exact absurd rfl hne
  | cons n rest =>
    have hj : portableToJson (n :: rest) = n.toJson :: portableToJson rest := by
      simp [portableToJson]
    rw [hj, restoreBookmarks, ← hj, restoreBookmarksBody]
    simp only [idBrowser_bookmarksCreate, List.length_nil, List.nil_append]
    rw [createFolders_toJson_creations]
    simp only [List.length_singleton]
    rw [createBookmarkItems_toJson_calls]
    simp

/-- C19: parent-before-child folder creation.  In a restore of a portable tree in
which the call number `k` returns the id `ids k`, the first loop issues exactly
the calls of `folderCreations`: one call for each folder node at any depth,
carrying its title and no url, a top-level folder under the container's id
`ids 0` and a nested folder under the id returned for its parent, whose call
comes earlier; the calls that follow all carry a url; and afterwards the folder
map sends each folder's path to the id returned for a folder with that path. -/
theorem restoreBookmarks_creates_folders_top_down (ids : Nat → String) (now : String)
    (tree : List PortableNode) (hne : tree ≠ []) :
    ∃ bookmarkCalls : List NativeCall,
      restoreBookmarks (idBrowser ids) now (.arr (portableToJson tree)) [] =
        (.ok (), .bookmarksCreate "1" (some (.str (importFolderTitle now))) none ::
          ((folderCreations ids 1 (ids 0) tree).map FolderCreation.toCall ++ bookmarkCalls)) ∧
      (∀ c ∈ bookmarkCalls, carriesUrl c = true) ∧
      (folderCreations ids 1 (ids 0) tree).length = folderNodes tree ∧
      parentsPrecede [ids 0] (folderCreations ids 1 (ids 0) tree) = true ∧
      createFolders (idBrowser ids) (portableToJson tree) (ids 0)
          (FolderMap.set [] (some (.str "")) (ids 0))
          [.bookmarksCreate "1" (some (.str (importFolderTitle now))) none] =
        (.ok (recordCreations (folderCreations ids 1 (ids 0) tree)
            (FolderMap.set [] (some (.str "")) (ids 0))),
          .bookmarksCreate "1" (some (.str (importFolderTitle now))) none ::
            (folderCreations ids 1 (ids 0) tree).map FolderCreation.toCall) ∧
      (∀ c ∈ folderCreations ids 1 (ids 0) tree,
        ∃ c' ∈ folderCreations ids 1 (ids 0) tree, c'.path = c.path ∧
          (recordCreations (folderCreations ids 1 (ids 0) tree)
            (FolderMap.set [] (some (.str "")) (ids 0))).get (some (.str c.path)) =
              some c'.id) := by
  refine ⟨_, restoreBookmarks_toJson_calls ids now tree hne,
    carriesUrl_bookmarkCallsWith _ _ tree, folderCreations_length ids tree 1 (ids 0),
    parentsPrecede_folderCreations ids tree 1 (ids 0) [ids 0] (List.mem_singleton_self _),
    ?_, get_recordCreations _ _⟩
  rw [createFolders_toJson_creations]
  simp

/-- C19 at a tree with nested folders: `A` under the container, `B` under the id
returned for `A`, then `C` under the container. -/
theorem restoreBookmarks_creates_folders_top_down_witness :
    (folderCreations freshIds 1 (freshIds 0) nestedTree).map FolderCreation.toCall =
      [.bookmarksCreate (freshIds 0) (some (.str "A")) none,
        .bookmarksCreate (freshIds 1) (some (.str "B")) none,
        .bookmarksCreate (freshIds 0) (some (.str "C")) none] ∧
    ∃ bookmarkCalls : List NativeCall,
      restoreBookmarks (idBrowser freshIds) "2026-11-04T09:30:00.000Z"
          (.arr (portableToJson nestedTree)) [] =
        (.ok (), .bookmarksCreate "1"
            (some (.str (importFolderTitle "2026-11-04T09:30:00.000Z"))) none ::
          ((folderCreations freshIds 1 (freshIds 0) nestedTree).map FolderCreation.toCall ++
            bookmarkCalls)) :=
  ⟨rfl, (restoreBookmarks_creates_folders_top_down freshIds "2026-11-04T09:30:00.000Z"
    nestedTree (by simp [nestedTree])).elim fun calls h => ⟨calls, h.1⟩⟩

theorem takeWhile_before_T (date rest : List Char) (h : 'T' ∉ date) :
    (date ++ 'T' :: rest).takeWhile (fun c => c != 'T') = date := by
  induction date with
  | nil => simp [List.takeWhile]
  | cons c cs ih =>
    have hc : c ≠ 'T' := fun hc => h (by simp [hc])
    have hcs : 'T' ∉ cs := fun hcs => h (List.mem_cons_of_mem _ hcs)
    have hb : (c != 'T') = true := by simpa using hc
    simp [List.takeWhile, hb, ih hcs]

theorem isoDate_of_timestamp (date time : String) (h : 'T' ∉ date.toList) :
    isoDate (date ++ "T" ++ time) = date := by
  unfold isoDate
  have : (date ++ "T" ++ time).toList = date.toList ++ 'T' :: time.toList := by
    simp [String.toList]
  rw [this, takeWhile_before_T _ _ h]
  rfl

theorem take_ten_of_timestamp (date time : String) (h : date.length = 10) :
    String.mk ((date ++ "T" ++ time).toList.take 10) = date := by
  have : (date ++ "T" ++ time).toList = date.toList ++ 'T' :: time.toList := by
    simp [String.toList]
  rw [this]
  have hl : date.toList.length = 10 := h
  rw [List.take_append_of_le_length (by omega), List.take_of_length_le (by omega)]
  rfl

theorem folderCreations_paths (ids : Nat → String) (tree : List PortableNode) :
    ∀ (k : Nat) (parentId : String), ∀ c ∈ folderCreations ids k parentId tree,
      c.path ∈ folderPaths tree := by
  induction tree using portableForest_induction with
  | hnil => intro k parentId c h; simp [folderCreations] at h
  | hbookmark t u p rest ih =>
    intro k parentId c h
    simp only [folderCreations, folderCreationsOf, List.nil_append] at h
    simpa [folderPaths, folderPathsOf] using ih _ _ c h
  | hfolder t p cs rest ihc ih =>
    intro k parentId c h
    simp only [folderCreations, folderCreationsOf, List.mem_append, List.mem_cons] at h
    simp only [folderPaths, folderPathsOf, List.mem_append, List.mem_cons]
    rcases h with (rfl | h) | h
    · exact Or.inl (Or.inl rfl)
    · exact Or.inl (Or.inr (ihc _ _ c h))
    · exact Or.inr (ih _ _ c h)

theorem get_recordCreations_of_not_mem (creations : List FolderCreation) (key : String)
    (h : ∀ c ∈ creations, c.path ≠ key) :
    ∀ fm : FolderMap,
      (recordCreations creations fm).get (some (.str key)) = fm.get (some (.str key)) := by
  induction creations with
  | nil => intro fm; rfl
  | cons c rest ih =>
    intro fm
    have hc : c.path ≠ key := h c (List.mem_cons_self _ _)
    have hrest := ih (fun c' hc' => h c' (List.mem_cons_of_mem _ hc'))
      (FolderMap.set fm (some (.str c.path)) c.id)
    simp only [recordCreations, List.foldl_cons] at hrest ⊢
    rw [hrest]
    simp [FolderMap.set, FolderMap.get, sameKey, hc]

theorem resolveParent_of_not_folder_path (ids : Nat → String) (tree : List PortableNode)
    (path : String) (h : path ∉ folderPaths tree) :
    resolveParent
      (recordCreations (folderCreations ids 1 (ids 0) tree)
        (FolderMap.set [] (some (.str "")) (ids 0)))
      (some (.str path)) (ids 0) = ids 0 := by
  have hno : ∀ c ∈ folderCreations ids 1 (ids 0) tree, c.path ≠ path := by
    intro c hc hp
    exact h (hp ▸ folderCreations_paths ids tree 1 (ids 0) c hc)
  by_cases hp : path = ""
  · subst hp
    simp only [resolveParent, pathOrEmpty, truthyVal, Json.truthy, truthyStr]
    simp only [bne_self_eq_false, Bool.false_eq_true, if_false]
    rw [get_recordCreations_of_not_mem _ _ hno]
    simp [FolderMap.set, FolderMap.get, sameKey]
  · have ht : truthyVal (some (.str path)) = true := by
      simp [truthyVal, Json.truthy, truthyStr, hp]
    simp only [resolveParent, pathOrEmpty, ht, if_true]
    rw [get_recordCreations_of_not_mem _ _ hno]
    have : ("" == path) = false := by simpa using fun h => hp h.symm
    simp [FolderMap.set, FolderMap.get, sameKey, this]

theorem resolveParent_of_falsy (folderMap : FolderMap) (importFolderId : String)
    (path : Option Json) (h : truthyVal path = false) :
    resolveParent folderMap path importFolderId =
      resolveParent folderMap (some (.str "")) importFolderId := by
  have h2 : truthyVal (some (.str "")) = false := rfl
  simp only [resolveParent, pathOrEmpty, h, h2]
  rfl

/-- C20 (amended): container seeding and fallback.  A restore of a non-empty
portable tree first creates, under parentId `'1'`, a folder titled 'Tabby Grabby
Import - ' followed by the date part of the timestamp (its first 10 characters);
then the folders; then each top-level bookmark under the parent its path resolves
to in the folder map, which is the container's id whenever that path (the empty
path when it is absent) is not the path of a folder node of the input. -/
theorem restoreBookmarks_container_and_fallback (ids : Nat → String) (now : String)
    (tree : List PortableNode) (hne : tree ≠ []) :
    restoreBookmarks (idBrowser ids) now (.arr (portableToJson tree)) [] =
      (.ok (), .bookmarksCreate "1" (some (.str ("Tabby Grabby Import - " ++ isoDate now)))
          none ::
        ((folderCreations ids 1 (ids 0) tree).map FolderCreation.toCall ++
          bookmarkCallsWith
            (recordCreations (folderCreations ids 1 (ids 0) tree)
              (FolderMap.set [] (some (.str "")) (ids 0)))
            (ids 0) tree)) ∧
    (∀ date time : String, 'T' ∉ date.toList →
      isoDate (date ++ "T" ++ time) = date ∧
      (date.length = 10 → String.mk ((date ++ "T" ++ time).toList.take 10) = date)) ∧
    (∀ path : String, path ∉ folderPaths tree →
      resolveParent
        (recordCreations (folderCreations ids 1 (ids 0) tree)
          (FolderMap.set [] (some (.str "")) (ids 0)))
        (some (.str path)) (ids 0) = ids 0) ∧
    (∀ (folderMap : FolderMap) (importFolderId : String) (path : Option Json),
      truthyVal path = false →
      resolveParent folderMap path importFolderId =
        resolveParent folderMap (some (.str "")) importFolderId) := by
  refine ⟨restoreBookmarks_toJson_calls ids now tree hne, ?_,
    resolveParent_of_not_folder_path ids tree, resolveParent_of_falsy⟩
  intro date time h
  exact ⟨isoDate_of_timestamp date time h, take_ten_of_timestamp date time⟩

/-- C20 (amended) at the tree of the bookmark tests: `Google` at the top level and
the folder `Work`; the bookmark is created under the container. -/
theorem restoreBookmarks_container_and_fallback_witness :
    restoreBookmarks (idBrowser freshIds) "2026-11-04T09:30:00.000Z"
        (.arr (portableToJson (getAllBookmarks sampleForest))) [] =
      (.ok (), [.bookmarksCreate "1" (some (.str "Tabby Grabby Import - 2026-11-04")) none,
        .bookmarksCreate (freshIds 0) (some (.str "Work")) none,
        .bookmarksCreate (freshIds 0) (some (.str "Google"))
          (some (.str "https://google.com"))]) :=
  (restoreBookmarks_container_and_fallback freshIds "2026-11-04T09:30:00.000Z"
    (getAllBookmarks sampleForest) (fun h => nomatch h)).1.trans rfl

/-- C20 as stated fails: with a folder of empty path in the input, the top-level
bookmark `B`, whose path is empty, is created under that folder's id and not
under the container's. -/
theorem restoreBookmarks_empty_path_not_container :
    restoreBookmarks (idBrowser freshIds) "2026-11-04T09:30:00.000Z"
        (.arr (portableToJson emptyTitleTree)) [] =
      (.ok (), [.bookmarksCreate "1" (some (.str "Tabby Grabby Import - 2026-11-04")) none,
        .bookmarksCreate (freshIds 0) (some (.str "")) none,
        .bookmarksCreate (freshIds 1) (some (.str "B"))
          (some (.str "https://b.example"))]) ∧
    freshIds 1 ≠ freshIds 0 :=
  ⟨rfl, fun h => absurd (freshIds_injective h) (by decide)⟩

theorem topTitlesTruthy_append (l₁ l₂ : List PortableNode) :
    topTitlesTruthy (l₁ ++ l₂) = (topTitlesTruthy l₁ && topTitlesTruthy l₂) := by
  induction l₁ with
  | nil => simp [topTitlesTruthy]
  | cons n rest ih => cases n <;> simp [topTitlesTruthy, ih, Bool.and_assoc]

theorem topTitlesTruthy_processChildren (cs : List NativeNode) :
    ∀ p : String, titledNodes cs = true → topTitlesTruthy (processChildren cs [] p) = true := by
  induction cs using nativeForest_induction with
  | hnil => intro p _; simp [processChildren_nil, topTitlesTruthy]
  | hleaf t u rest ih =>
    intro p h
    simp only [titledNodes, titledNode, Bool.and_eq_true] at h
    rw [processChildren_leaf, processChildren_acc, topTitlesTruthy_append, ih p h.2]
    split <;> simp [topTitlesTruthy, h.1]
  | hdir t u cs rest _ ih =>
    intro p h
    simp only [titledNodes, titledNode, Bool.and_eq_true] at h
    rw [processChildren_dir, processChildren_acc, topTitlesTruthy_append, ih p h.2]
    split <;> simp [topTitlesTruthy, h.1.1]

theorem topTitlesTruthy_processRoots (forest : List NativeNode)
    (h : titledBelowRoots forest = true) : topTitlesTruthy (processRoots forest []) = true := by
  induction forest with
  | nil => simp [processRoots, topTitlesTruthy]
  | cons r rest ih =>
    cases r with
    | leaf t u => simpa [processRoots] using ih (by simpa [titledBelowRoots] using h)
    | dir t u cs =>
      simp only [titledBelowRoots, Bool.and_eq_true] at h
      simp only [processRoots, processBookmarkNode]
      rw [processRoots_acc, topTitlesTruthy_append, ih h.2,
        topTitlesTruthy_processChildren cs "" h.1]
      rfl

theorem validateBookmarks_toJson (tree : List PortableNode)
    (htitles : topTitlesTruthy tree = true) (hurls : topUrlsTruthy tree = true) :
    validateBookmarks (portableToJson tree) = .ok true := by
  induction tree with
  | nil => rfl
  | cons n rest ih =>
    cases n with
    | bookmark t u p =>
      simp only [topTitlesTruthy, topUrlsTruthy, Bool.and_eq_true] at htitles hurls
      simp only [portableToJson, PortableNode.toJson, validateBookmarks, getProp, Json.field]
      simp [List.lookup, isStr, truthyVal, Json.truthy, htitles.1, hurls.1,
        ih htitles.2 hurls.2]
    | folder t p cs =>
      simp only [topTitlesTruthy, topUrlsTruthy, Bool.and_eq_true] at htitles hurls
      simp only [portableToJson, PortableNode.toJson, validateBookmarks, getProp, Json.field]
      simp [List.lookup, isStr, truthyVal, Json.truthy, htitles.1, ih htitles.2 hurls]

theorem truthy_of_satisfiesIsValidUrl (url : String)
    (h : satisfiesIsValidUrl (some (.str url)) = true) : truthyStr url = true := by
  rw [satisfiesIsValidUrl, isValidUrl_str] at h
  cases ht : truthyStr url
  · simp [ht] at h
  · rfl

theorem validateTabs_toJson (tabs : List PortableTab)
    (htitles : ∀ tab ∈ tabs, truthyStr tab.title = true)
    (hurls : ∀ tab ∈ tabs, satisfiesIsValidUrl (some (.str tab.url)) = true) :
    validateTabs (tabs.map PortableTab.toJson) = .ok true := by
  induction tabs with
  | nil => rfl
  | cons t rest ih =>
    have h1 := htitles t (List.mem_cons_self _ _)
    have h2 := truthy_of_satisfiesIsValidUrl _ (hurls t (List.mem_cons_self _ _))
    have hrest := ih (fun x hx => htitles x (List.mem_cons_of_mem _ hx))
      (fun x hx => hurls x (List.mem_cons_of_mem _ hx))
    simp only [List.map_cons, PortableTab.toJson, validateTabs, getProp, Json.field]
    simp only [PortableTab.toJson] at hrest
    simp [List.lookup, truthyVal, Json.truthy, h1, h2, hrest]

theorem flattenedTabs_titles (windows : List NativeWindow) (h : titledTabs windows = true) :
    ∀ tab ∈ flattenedTabs windows, truthyStr tab.title = true := by
  induction windows with
  | nil => intro tab ht; simp [flattenedTabs] at ht
  | cons w rest ih =>
    intro tab ht
    simp only [titledTabs, List.all_cons, Bool.and_eq_true] at h
    simp only [flattenedTabs, List.mem_append] at ht
    rcases ht with ht | ht
    · simp only [windowTabRecords, List.mem_map, List.mem_filter] at ht
      obtain ⟨t, ⟨hmem, _⟩, rfl⟩ := ht
      exact (List.all_eq_true.mp h.1) t hmem
    · exact ih (by simpa [titledTabs] using h.2) tab ht

theorem isTabRecord_toJson (tabs : List PortableTab) :
    (tabs.map PortableTab.toJson).all isTabRecord = true := by
  induction tabs with
  | nil => rfl
  | cons t rest ih =>
    simp only [List.map_cons, List.all_cons, ih, Bool.and_true]
    rfl

theorem restoreTabs_toJson_ok (browser : Browser) (tabs : List PortableTab)
    (log : List NativeCall)
    (hwindows : ∀ l c, ∃ windowId, browser.windowsCreate l c = .ok windowId)
    (htabs : ∀ l c, browser.tabsCreate l c = .ok ()) :
    ∃ log', restoreTabs browser (.arr (tabs.map PortableTab.toJson)) log = (.ok (), log') := by
  cases tabs with
  | nil => exact ⟨log, rfl⟩
  | cons t rest =>
    obtain ⟨windowId, hw⟩ := hwindows log (.windowsCreate (t.toJson.field "url") true)
    have hrec := isTabRecord_toJson (t :: rest)
    simp only [List.map_cons, List.all_cons, Bool.and_eq_true] at hrec ⊢
    obtain ⟨_, hg, _⟩ := isValidUrl_of_isTabRecord t.toJson hrec.1
    refine ⟨log ++ [.windowsCreate (t.toJson.field "url") true] ++
      expectedTabCalls windowId (rest.map PortableTab.toJson), ?_⟩
    simp only [restoreTabs, hg, hw]
    rw [createRemainingTabs_eq browser windowId htabs _ _ hrec.2]


theorem createFolders_toJson_ok (browser : Browser)
    (hcreate : ∀ l c, ∃ id, browser.bookmarksCreate l c = .ok id) (tree : List PortableNode) :
    ∀ (parentId : String) (folderMap : FolderMap) (log : List NativeCall),
      ∃ (folderMap' : FolderMap) (log' : List NativeCall),
        createFolders browser (portableToJson tree) parentId folderMap log =
          (.ok folderMap', log') := by
  induction tree using portableForest_induction with
  | hnil =>
    intro parentId folderMap log
    exact ⟨folderMap, log, by simp [portableToJson, createFolders]⟩
  | hbookmark t u p rest ih =>
    intro parentId folderMap log
    obtain ⟨fm', log', h1⟩ := ih parentId folderMap log
    refine ⟨fm', log', ?_⟩
    simp only [portableToJson, PortableNode.toJson, createFolders]
    simpa [List.lookup, isStr] using h1
  | hfolder t p cs rest ihc ih =>
    intro parentId folderMap log
    obtain ⟨id, hid⟩ := hcreate log (.bookmarksCreate parentId (some (.str t)) none)
    obtain ⟨fm1, log1, h1⟩ := ihc id (FolderMap.set folderMap (some (.str p)) id)
      (log ++ [.bookmarksCreate parentId (some (.str t)) none])
    obtain ⟨fm2, log2, h2⟩ := ih parentId fm1 log1
    refine ⟨fm2, log2, ?_⟩
    simp only [portableToJson, PortableNode.toJson, createFolders, createFolderStructure,
      createChildFolders_eq_lookup]
    simp only [List.lookup, isStr, createFoldersOf]
    simp only [show ("type" == "type") = true from rfl, show ("children" == "type") = false from rfl,
      show ("children" == "title") = false from rfl, show ("children" == "path") = false from rfl,
      show ("children" == "children") = true from rfl, show ("title" == "type") = false from rfl,
      show ("title" == "title") = true from rfl, show ("path" == "type") = false from rfl,
      show ("path" == "title") = false from rfl, show ("path" == "path") = true from rfl,
      show ("folder" == "folder") = true from rfl, if_true]
    rw [hid]
    simp only
    rw [h1]
    simp only
    rw [h2]

theorem createBookmarkItems_toJson_ok (browser : Browser)
    (hcreate : ∀ l c, ∃ id, browser.bookmarksCreate l c = .ok id)
    (importFolderId : String) (folderMap : FolderMap) (tree : List PortableNode) :
    ∀ log : List NativeCall, ∃ log',
      createBookmarkItems browser importFolderId folderMap (portableToJson tree) log =
        (.ok (), log') := by
  induction tree with
  | nil => intro log; exact ⟨log, by simp [portableToJson, createBookmarkItems]⟩
  | cons n rest ih =>
    intro log
    cases n with
    | bookmark t u p =>
      obtain ⟨id, hid⟩ := hcreate log (.bookmarksCreate
        (resolveParent folderMap (some (.str p)) importFolderId) (some (.str t)) (some (.str u)))
      obtain ⟨log', h⟩ := ih (log ++ [.bookmarksCreate
        (resolveParent folderMap (some (.str p)) importFolderId) (some (.str t)) (some (.str u))])
      refine ⟨log', ?_⟩
      simp only [portableToJson, PortableNode.toJson, createBookmarkItems, getProp, Json.field]
      simp only [List.lookup, isStr]
      simp only [show ("type" == "type") = true from rfl, show ("title" == "type") = false from rfl,
        show ("title" == "title") = true from rfl, show ("path" == "type") = false from rfl,
        show ("path" == "title") = false from rfl, show ("path" == "url") = false from rfl,
        show ("path" == "path") = true from rfl, show ("url" == "type") = false from rfl,
        show ("url" == "title") = false from rfl, show ("url" == "url") = true from rfl,
        show ("bookmark" == "bookmark") = true from rfl, if_true]
      rw [hid]
      simp only
      exact h
    | folder t p cs =>
      obtain ⟨log', h⟩ := ih log
      refine ⟨log', ?_⟩
      simp only [portableToJson, PortableNode.toJson, createBookmarkItems, getProp, Json.field]
      simpa [List.lookup, isStr] using h

theorem restoreBookmarks_toJson_ok (browser : Browser) (now : String)
    (hcreate : ∀ l c, ∃ id, browser.bookmarksCreate l c = .ok id) (tree : List PortableNode)
    (log : List NativeCall) :
    ∃ log', restoreBookmarks browser now (.arr (portableToJson tree)) log = (.ok (), log') := by
  cases tree with
  | nil => exact ⟨log, rfl⟩
  | cons n rest =>
    have hj : portableToJson (n :: rest) = n.toJson :: portableToJson rest := by
      simp [portableToJson]
    obtain ⟨id, hid⟩ := hcreate log
      (.bookmarksCreate "1" (some (.str (importFolderTitle now))) none)
    obtain ⟨fm, log1, h1⟩ := createFolders_toJson_ok browser hcreate (n :: rest) id
      (FolderMap.set [] (some (.str "")) id)
      (log ++ [.bookmarksCreate "1" (some (.str (importFolderTitle now))) none])
    obtain ⟨log2, h2⟩ := createBookmarkItems_toJson_ok browser hcreate id fm (n :: rest) log1
    refine ⟨log2, ?_⟩
    rw [hj, restoreBookmarks, ← hj, restoreBookmarksBody, hid]
    simp only
    rw [h1]
    simp only
    rw [h2]

theorem exportAll_eq (browser : Browser) (now₁ now₂ : String) (log : List NativeCall)
    (windows : List NativeWindow) (forest : List NativeNode)
    (hwindows : browser.windowsGetAll = .ok windows)
    (hforest : ∀ read, browser.bookmarksGetTree read = .ok forest)
    (hdownload : ∀ l c, browser.download l c = .ok ()) :
    exportAll browser now₁ now₂ log =
      (.ok ⟨true, exportFilename now₂, (flattenedTabs windows).length,
          bookmarkNodes (getAllBookmarks forest)⟩,
        log ++ [.download (exportedDocument now₁ windows forest) (exportFilename now₂)]) := by
  have h1 : getAllTabs browser = .ok (flattenedTabs windows) := by
    simp [getAllTabs, hwindows, collectWindows_eq]
  have h2 : ∀ read, getAllBookmarksOf browser read = .ok (getAllBookmarks forest) := by
    intro read
    simp [getAllBookmarksOf, hforest]
  have h3 : ∀ read,
      getBookmarkCountOf browser read = .ok (bookmarkNodes (getAllBookmarks forest)) := by
    intro read
    simp [getBookmarkCountOf, h2, countBookmarks_eq]
  simp [exportAll, exportAllBody, h1, h2, h3, downloadJSON, hdownload, exportedDocument]

theorem validateImportData_exported (now : String) (windows : List NativeWindow)
    (forest : List NativeNode) (htabs : titledTabs windows = true)
    (htitles : titledBelowRoots forest = true) :
    validateImportData (exportedDocument now windows forest).toJson = .ok true := by
  have h1 := validateTabs_toJson (flattenedTabs windows)
    (flattenedTabs_titles windows htabs) (flattenedTabs_valid windows)
  have h2 := validateBookmarks_toJson (getAllBookmarks forest)
    (topTitlesTruthy_processRoots forest htitles) (topUrlsTruthy_processRoots forest)
  simp only [validateImportData, ExportDocument.toJson, exportedDocument, Json.truthy,
    Json.typeofObject, Json.hasKey, Json.field]
  simp [List.lookup, h1, h2]

/-- C18: export then import agrees on counts.  When all tabs and all bookmark
nodes below the roots have non-empty titles, importing the document that
`exportAll` hands to the download, into a browser in which every creation
succeeds, returns `success = true`, no errors, `tabsImported` equal to the
export's `tabCount` and `bookmarksImported` equal to its `bookmarkCount`. -/
theorem export_then_import_counts (source target : Browser) (now₁ now₂ now₃ : String)
    (windows : List NativeWindow) (forest : List NativeNode) (text : String)
    (log log' : List NativeCall)
    (hwindows : source.windowsGetAll = .ok windows)
    (hforest : ∀ read, source.bookmarksGetTree read = .ok forest)
    (hdownload : ∀ l c, source.download l c = .ok ())
    (htabs : titledTabs windows = true) (htitles : titledBelowRoots forest = true)
    (hparse : target.jsonParse text = some (exportedDocument now₁ windows forest).toJson)
    (hbookmark : ∀ l c, ∃ id, target.bookmarksCreate l c = .ok id)
    (hwindow : ∀ l c, ∃ windowId, target.windowsCreate l c = .ok windowId)
    (htab : ∀ l c, target.tabsCreate l c = .ok ()) :
    ∃ (result : ExportResult) (report : ImportReport) (imported : List NativeCall),
      exportAll source now₁ now₂ log =
        (.ok result,
          log ++ [.download (exportedDocument now₁ windows forest) result.filename]) ∧
      importFromFile target now₃ (some ⟨"application/json", .ok text⟩) log' =
        (.ok report, imported) ∧
      report.success = true ∧ report.errors = [] ∧
      report.tabsImported = some (.num result.tabCount) ∧
      report.bookmarksImported = result.bookmarkCount := by
  obtain ⟨log₁, hrt⟩ := restoreTabs_toJson_ok target (flattenedTabs windows) log' hwindow htab
  obtain ⟨log₂, hrb⟩ := restoreBookmarks_toJson_ok target now₃ hbookmark
    (getAllBookmarks forest) log₁
  have hvalid := validateImportData_exported now₁ windows forest htabs htitles
  have hf1 : (exportedDocument now₁ windows forest).toJson.field "openTabs" =
      some (.arr ((flattenedTabs windows).map PortableTab.toJson)) := rfl
  have hf2 : (exportedDocument now₁ windows forest).toJson.field "bookmarks" =
      some (.arr (portableToJson (getAllBookmarks forest))) := rfl
  have hp : processImport target now₃ (exportedDocument now₁ windows forest).toJson log' =
      (⟨some (.num (flattenedTabs windows).length), bookmarkNodes (getAllBookmarks forest), []⟩,
        log₂) := by
    simp [processImport, importTabs_of_array target _ _ log' hf1, hrt,
      importBookmarks_of_array target now₃ _ _ log₁ hf2, hrb, countBookmarksInData_toJson]
  refine ⟨_, ⟨true, some (.num (flattenedTabs windows).length),
    bookmarkNodes (getAllBookmarks forest), []⟩, log₂,
    exportAll_eq source now₁ now₂ log windows forest hwindows hforest hdownload, ?_,
    rfl, rfl, rfl, rfl⟩
  simp [importFromFile, importFromFileBody, hparse, hvalid, hp]

/-- C18 at the sample host, its document imported into `importingBrowser`. -/
theorem export_then_import_counts_witness :
    ∃ (result : ExportResult) (report : ImportReport) (imported : List NativeCall),
      exportAll sampleBrowser "2026-11-04T09:30:00.000Z" "2026-11-04T09:30:00.001Z" [] =
        (.ok result, [] ++ [.download
          (exportedDocument "2026-11-04T09:30:00.000Z" sampleWindows sampleForest)
          result.filename]) ∧
      importFromFile importingBrowser "2026-11-05T10:00:00.000Z"
          (some ⟨"application/json", .ok exportedText⟩) [] = (.ok report, imported) ∧
      report.success = true ∧ report.errors = [] ∧
      report.tabsImported = some (.num result.tabCount) ∧
      report.bookmarksImported = result.bookmarkCount :=
  export_then_import_counts sampleBrowser importingBrowser _ _ _ sampleWindows sampleForest
    exportedText [] [] rfl (fun _ => rfl) (fun _ _ => rfl) rfl rfl (by simp [importingBrowser])
    (fun _ _ => ⟨_, rfl⟩)
    (fun _ _ => ⟨_, rfl⟩) (fun _ _ => rfl)

theorem processChildren_append (a b : List NativeNode) (p : String) :
    processChildren (a ++ b) [] p = processChildren a [] p ++ processChildren b [] p := by
  induction a using nativeForest_induction with
  | hnil => simp [processChildren_nil]
  | hleaf t u rest ih =>
    rw [List.cons_append, processChildren_leaf, processChildren_leaf]
    generalize (if truthyUrl u = true then _ else _) = acc
    rw [processChildren_acc (rest ++ b), ih, processChildren_acc rest acc]
    simp
  | hdir t u cs rest _ ih =>
    rw [List.cons_append, processChildren_dir, processChildren_dir]
    generalize (if (processChildren cs [] (folderPathOf p t)).length > 0 then _ else _) = acc
    rw [processChildren_acc (rest ++ b), ih, processChildren_acc rest acc]
    simp

theorem processChildren_eq_filterMap (cs : List NativeNode) (p : String) :
    processChildren cs [] p = cs.filterMap (nodeImage p) := by
  induction cs with
  | nil => simp [processChildren_nil]
  | cons n rest ih =>
    cases n with
    | leaf t u =>
      rw [processChildren_leaf, processChildren_acc, ih]
      by_cases h : truthyUrl u = true <;> simp [List.filterMap_cons, nodeImage, h]
    | dir t u cs =>
      rw [processChildren_dir, processChildren_acc, ih]
      by_cases h : (processChildren cs [] (folderPathOf p t)).length > 0 <;>
        simp [List.filterMap_cons, nodeImage, h]

/-- C25: sibling order.  The flattened content of a native folder is the list of
the images of its children, in their order, with the children that have no image
left out; a retained folder's node holds the flattened content of its own
children; and a child has no image exactly when it is a leaf without a url or a
folder whose subtree holds no URL leaf. -/
theorem flatten_keeps_sibling_order :
    (∀ (cs : List NativeNode) (p : String),
      processChildren cs [] p = cs.filterMap (nodeImage p)) ∧
    (∀ (p t : String) (u : Option String) (cs : List NativeNode) (node : PortableNode),
      nodeImage p (.dir t u cs) = some node →
      node = .folder t (folderPathOf p t) (cs.filterMap (nodeImage (folderPathOf p t)))) ∧
    (∀ (p : String) (n : NativeNode), nodeImage p n = none ↔ urlLeavesOf n = 0) := by
  refine ⟨processChildren_eq_filterMap, ?_, ?_⟩
  · intro p t u cs node h
    simp only [nodeImage] at h
    split at h
    · rw [processChildren_eq_filterMap] at h
      exact (Option.some.inj h).symm
    · cases h
  · intro p n
    cases n with
    | leaf t u =>
      by_cases h : truthyUrl u = true <;> simp [nodeImage, urlLeavesOf, h]
    | dir t u cs =>
      have hcount := bookmarkNodes_processChildren cs (folderPathOf p t)
      simp only [nodeImage, urlLeavesOf]
      constructor
      · intro h
        have h0 : processChildren cs [] (folderPathOf p t) = [] := by
          by_contra hne
          have : (processChildren cs [] (folderPathOf p t)).length > 0 :=
            List.length_pos.mpr hne
          simp [this] at h
        rw [h0] at hcount
        simpa [bookmarkNodes] using hcount.symm
      · intro h
        rw [processChildren_of_no_urlLeaf cs h]
        simp

theorem processRoots_eq_contributions (forest : List NativeNode) :
    processRoots forest [] = rootContributions forest := by
  induction forest with
  | nil => rfl
  | cons r rest ih =>
    cases r with
    | leaf t u => simpa [processRoots, rootContributions, rootContribution] using ih
    | dir t u cs =>
      simp only [processRoots, processBookmarkNode, rootContributions, rootContribution]
      rw [processRoots_acc, ih]

/-- C26: transparent roots.  `getAllBookmarks` returns the concatenation, in root
order, of the flattening of each root's children with parent path `''`, a root
without a `children` list contributing nothing; the output does not depend on
the titles of the roots. -/
theorem getAllBookmarks_roots_transparent (forest : List NativeNode) :
    getAllBookmarks forest = rootContributions forest ∧
    (∀ title : String,
      getAllBookmarks (forest.map (retitled title)) = getAllBookmarks forest) := by
  refine ⟨processRoots_eq_contributions forest, ?_⟩
  intro title
  unfold getAllBookmarks
  rw [processRoots_eq_contributions, processRoots_eq_contributions]
  induction forest with
  | nil => rfl
  | cons r rest ih =>
    cases r <;> simp [rootContributions, rootContribution, retitled, ih]

theorem topBookmarks_eq_length (folderMap : FolderMap) (importFolderId : String)
    (tree : List PortableNode) :
    (bookmarkCallsWith folderMap importFolderId tree).length = topBookmarks tree := by
  induction tree with
  | nil => rfl
  | cons n rest ih =>
    cases n <;> simp [bookmarkCallsWith, topBookmarks, ih]
    omega

/-- C29: native call count of the bookmark restore.  On the empty list and on a
value that is not an array `restoreBookmarks` issues no call; on a non-empty
portable tree, every creation succeeding, it issues exactly `1 + F + B` calls,
`F` the number of folder nodes at all depths and `B` the number of top-level
bookmark entries. -/
theorem restoreBookmarks_call_count (ids : Nat → String) (now : String)
    (tree : List PortableNode) (hne : tree ≠ []) :
    (restoreBookmarks (idBrowser ids) now (.arr (portableToJson tree)) []).1 = .ok () ∧
    (restoreBookmarks (idBrowser ids) now (.arr (portableToJson tree)) []).2.length =
      1 + folderNodes tree + topBookmarks tree ∧
    (∀ (browser : Browser) (log : List NativeCall),
      restoreBookmarks browser now (.arr []) log = (.ok (), log)) ∧
    (∀ (browser : Browser) (log : List NativeCall) (bookmarks : Json),
      (∀ items, bookmarks ≠ .arr items) →
      restoreBookmarks browser now bookmarks log = (.ok (), log)) := by
  refine ⟨?_, ?_, fun _ _ => rfl, ?_⟩
  · rw [restoreBookmarks_toJson_calls ids now tree hne]
  · rw [restoreBookmarks_toJson_calls ids now tree hne]
    simp [folderCreations_length, topBookmarks_eq_length]
    omega
  · intro browser log bookmarks hnot
    cases bookmarks with
    | arr items => exact absurd rfl (hnot items)
    | _ => rfl

/-- C29 at the input of the test "should create import folder and restore
bookmarks": three calls. -/
theorem restoreBookmarks_call_count_witness :
    (restoreBookmarks (idBrowser freshIds) "2026-11-04T09:30:00.000Z"
      (.arr (portableToJson restoreTestTree)) []).2.length = 3 :=
  (restoreBookmarks_call_count freshIds "2026-11-04T09:30:00.000Z" restoreTestTree
    (fun h => nomatch h)).2.1

theorem exportCheck (e t b : Option Json) :
    (if (!true || !true) = true then false
      else if (!e.isSome || (!t.isSome || (!b.isSome || false))) = true then false
      else if (!isArrayVal t || !isArrayVal b) = true then false else true) =
      (e.isSome && isArrayVal t && isArrayVal b) := by
  cases e <;> rcases t with _ | (_ | _ | _ | _ | _ | _) <;>
    rcases b with _ | (_ | _ | _ | _ | _ | _) <;> rfl

theorem validateExportData_obj (fields : List (String × Json)) :
    validateExportData (.obj fields) =
      ((fields.lookup "exportInfo").isSome && isArrayVal (fields.lookup "openTabs") &&
        isArrayVal (fields.lookup "bookmarks")) := by
  simp only [validateExportData, Json.truthy, Json.typeofObject, requiredProps, Json.hasKey,
    Json.field, List.any_cons, List.any_nil]
  exact exportCheck _ _ _

theorem validateExportData_iff (data : Json) :
    validateExportData data = true ↔
      ∃ fields exportInfo openTabs bookmarks, data = .obj fields ∧
        fields.lookup "exportInfo" = some exportInfo ∧
        fields.lookup "openTabs" = some (.arr openTabs) ∧
        fields.lookup "bookmarks" = some (.arr bookmarks) := by
  constructor
  · intro h
    cases data with
    | obj fields =>
      rw [validateExportData_obj] at h
      simp only [Bool.and_eq_true, Option.isSome_iff_exists] at h
      obtain ⟨⟨⟨info, hi⟩, ht⟩, hb⟩ := h
      rcases hto : fields.lookup "openTabs" with _ | (_ | _ | _ | _ | tabs | _) <;>
        simp [hto, isArrayVal] at ht
      rcases hbo : fields.lookup "bookmarks" with _ | (_ | _ | _ | _ | bms | _) <;>
        simp [hbo, isArrayVal] at hb
      exact ⟨fields, info, tabs, bms, rfl, hi, hto, hbo⟩
    | null => simp [validateExportData, Json.truthy] at h
    | bool _ => simp [validateExportData, Json.typeofObject] at h
    | num _ => simp [validateExportData, Json.typeofObject] at h
    | str _ => simp [validateExportData, Json.typeofObject] at h
    | arr _ =>
      simp [validateExportData, Json.truthy, Json.typeofObject, requiredProps, Json.hasKey] at h
  · rintro ⟨fields, info, tabs, bms, rfl, hi, ht, hb⟩
    rw [validateExportData_obj]
    simp [hi, ht, hb, isArrayVal]

/-- C27 (amended): `validateExportData` returns true exactly for a non-null object
that has the keys `exportInfo`, `openTabs` and `bookmarks` with `openTabs` and
`bookmarks` arrays; and every document accepted by `validateImportData` that has
the key `exportInfo` is accepted by `validateExportData`. -/
theorem validateExportData_characterisation (data : Json) :
    (validateExportData data = true ↔
      ∃ fields exportInfo openTabs bookmarks, data = .obj fields ∧
        fields.lookup "exportInfo" = some exportInfo ∧
        fields.lookup "openTabs" = some (.arr openTabs) ∧
        fields.lookup "bookmarks" = some (.arr bookmarks)) ∧
    (validateImportData data = .ok true → data.hasKey "exportInfo" = true →
      validateExportData data = true) := by
  refine ⟨validateExportData_iff data, ?_⟩
  intro hvalid hkey
  obtain ⟨tabs, bookmarks, ht, hb, _, _⟩ := arrays_of_validateImportData data hvalid
  cases data with
  | obj fields =>
    simp only [Json.field] at ht hb
    simp only [Json.hasKey, Option.isSome_iff_exists] at hkey
    obtain ⟨info, hinfo⟩ := hkey
    exact (validateExportData_iff _).mpr ⟨fields, info, tabs, bookmarks, rfl, hinfo, ht, hb⟩
  | _ => simp [Json.field] at ht

/-- C27 as stated fails: `validateExportData` accepts a document whose tab entry
has neither `url` nor `title`, which `validateImportData` rejects. -/
theorem validateExportData_accepts_more :
    validateExportData emptyTabDocument = true ∧
    validateImportData emptyTabDocument = .ok false :=
  ⟨rfl, rfl⟩

/-- C28 (amended): `getImportPreview` returns a preview for every file and host.
When the content cannot be read or parsed, or the document is not accepted by
`validateImportData`, or `countBookmarksInData` raises on its bookmarks, the
preview is `valid = false` with an error message; when the document is accepted
and the count does not raise, the preview is `valid = true` with `tabCount` the
length of `openTabs`, `bookmarkCount` the count and `exportInfo` the document's
`exportInfo`, `null` when that is absent or falsy. -/
theorem getImportPreview_result (browser : Browser) (file : ImportFile) :
    (∀ e, file.content = .error e → getImportPreview browser file = .invalid e) ∧
    (∀ text, file.content = .ok text → browser.jsonParse text = none →
      ∃ e, getImportPreview browser file = .invalid e) ∧
    (∀ text document, file.content = .ok text → browser.jsonParse text = some document →
      validateImportData document ≠ .ok true →
      ∃ e, getImportPreview browser file = .invalid e) ∧
    (∀ text document, file.content = .ok text → browser.jsonParse text = some document →
      validateImportData document = .ok true →
      ∃ tabs bookmarks, document.field "openTabs" = some (.arr tabs) ∧
        document.field "bookmarks" = some (.arr bookmarks) ∧
        (∀ n, countBookmarksInData (.arr bookmarks) = .ok n →
          getImportPreview browser file =
            .valid (some (.num tabs.length)) n
              (exportInfoOrNull (document.field "exportInfo"))) ∧
        (∀ e, countBookmarksInData (.arr bookmarks) = .error e →
          getImportPreview browser file = .invalid e)) := by
  refine ⟨?_, ?_, ?_, ?_⟩
  · intro e h
    simp [getImportPreview, h]
  · intro text h hp
    exact ⟨browser.parseFailure text, by simp [getImportPreview, h, hp]⟩
  · intro text document h hp hv
    cases hr : validateImportData document with
    | error e => exact ⟨e, by simp [getImportPreview, h, hp, hr]⟩
    | ok b =>
      cases b with
      | false => exact ⟨"Invalid import data format", by simp [getImportPreview, h, hp, hr]⟩
      | true => exact absurd hr hv
  · intro text document h hp hv
    obtain ⟨tabs, bookmarks, ht, hb, _, _⟩ := arrays_of_validateImportData document hv
    refine ⟨tabs, bookmarks, ht, hb, ?_, ?_⟩
    · intro n hn
      simp [getImportPreview, h, hp, hv, ht, hb, previewBookmarkCount, previewTabCount,
        Json.truthy, hn, lengthOf]
    · intro e he
      simp [getImportPreview, h, hp, hv, hb, previewBookmarkCount, Json.truthy, he]

/-- C28 (amended) at the document `validImportData`: one tab, one bookmark, no
`exportInfo`. -/
theorem getImportPreview_result_witness :
    getImportPreview previewBrowser ⟨"application/json", .ok validText⟩ =
      .valid (some (.num 1)) 1 .null := by
  obtain ⟨tabs, bookmarks, ht, hb, h, _⟩ :=
    (getImportPreview_result previewBrowser ⟨"application/json", .ok validText⟩).2.2.2
      validText validImportData rfl (by simp [previewBrowser]) rfl
  cases Option.some.inj ht
  cases Option.some.inj hb
  exact h 1 rfl

/-- C28 as stated fails: the document `nullChildDocument` is accepted by
`validateImportData`, yet its preview is `valid = false`, because counting its
bookmarks raises. -/
theorem getImportPreview_invalid_for_accepted :
    validateImportData nullChildDocument = .ok true ∧
    getImportPreview previewBrowser ⟨"application/json", .ok nullChildText⟩ =
      .invalid (cannotReadNull "type") := by
  refine ⟨rfl, ?_⟩
  have hp : previewBrowser.jsonParse nullChildText = some nullChildDocument := by
    simp [previewBrowser, nullChildText, validText, String.ext_iff]
  have hv : validateImportData nullChildDocument = .ok true := rfl
  have hc : previewBookmarkCount (nullChildDocument.field "bookmarks") =
      .error (cannotReadNull "type") := rfl
  simp [getImportPreview, hp, hv, hc]

theorem intercalate_go_append (sep : String) (as : List String) :
    ∀ (acc a : String), String.intercalate.go acc sep (as ++ [a]) =
      String.intercalate.go acc sep as ++ sep ++ a := by
  induction as with
  | nil => intro acc a; simp [String.intercalate.go]
  | cons b bs ih => intro acc a; simp [String.intercalate.go, ih]

theorem intercalate_go_data (sep : String) (as : List String) :
    ∀ acc : String, ∃ more, (String.intercalate.go acc sep as).data = acc.data ++ more := by
  induction as with
  | nil => intro acc; exact ⟨[], by simp [String.intercalate.go]⟩
  | cons b bs ih =>
    intro acc
    obtain ⟨more, h⟩ := ih (acc ++ sep ++ b)
    exact ⟨sep.data ++ b.data ++ more, by simp [String.intercalate.go, h]⟩

theorem joinTitles_ne_empty (t : String) (ts : List String) (h : t ≠ "") :
    joinTitles (t :: ts) ≠ "" := by
  intro h0
  obtain ⟨more, hm⟩ := intercalate_go_data "/" ts t
  have : (joinTitles (t :: ts)).data = t.data ++ more := by
    simpa [joinTitles, String.intercalate] using hm
  rw [h0] at this
  have h1 : ([] : List Char) = t.data ++ more := this
  exact h (String.ext (List.append_eq_nil.mp h1.symm).1)

theorem joinFromFirstNonEmpty_singleton (t : String) : joinFromFirstNonEmpty [t] = t := by
  by_cases ht : t = ""
  · subst ht
    rfl
  · have hb : (t == "") = false := by simpa using ht
    simp [joinFromFirstNonEmpty, List.dropWhile, hb, joinTitles, String.intercalate,
      String.intercalate.go]

theorem folderPathOf_joinFromFirstNonEmpty (chain : List String) (t : String) :
    folderPathOf (joinFromFirstNonEmpty chain) t = joinFromFirstNonEmpty (chain ++ [t]) := by
  unfold joinFromFirstNonEmpty
  cases hd : chain.dropWhile (fun title => title == "") with
  | nil =>
    have hall : ∀ x ∈ chain, (x == "") = true := by
      intro x hx
      by_contra hne
      have := List.dropWhile_eq_nil_iff.mp hd x hx
      exact hne this
    rw [List.dropWhile_append, hd]
    have h1 := joinFromFirstNonEmpty_singleton t
    unfold joinFromFirstNonEmpty at h1
    simp only [List.isEmpty_nil, if_true]
    rw [h1]
    simp [folderPathOf, joinTitles, String.intercalate, truthyStr]
  | cons a as =>
    have ha : a ≠ "" := by
      have := List.head_dropWhile_not (fun title : String => title == "") chain
      intro h0
      simp [hd, h0] at this
    rw [List.dropWhile_append, hd]
    have hne := joinTitles_ne_empty a as ha
    simp only [List.isEmpty_cons, Bool.false_eq_true, if_false, List.cons_append]
    simp only [folderPathOf, truthyStr, bne_iff_ne, ne_eq, hne, not_false_eq_true, if_true]
    simp [joinTitles, String.intercalate, intercalate_go_append]

theorem pathsAre_append (expected : List String → String) (ancestors : List String)
    (l₁ l₂ : List PortableNode) :
    pathsAre expected ancestors (l₁ ++ l₂) =
      (pathsAre expected ancestors l₁ && pathsAre expected ancestors l₂) := by
  induction l₁ with
  | nil => simp [pathsAre]
  | cons n rest ih => simp [pathsAre, ih, Bool.and_assoc]

theorem pathsAre_processChildren (cs : List NativeNode) :
    ∀ chain : List String,
      pathsAre joinFromFirstNonEmpty chain
        (processChildren cs [] (joinFromFirstNonEmpty chain)) = true := by
  induction cs using nativeForest_induction with
  | hnil => intro chain; simp [processChildren_nil, pathsAre]
  | hleaf t u rest ih =>
    intro chain
    rw [processChildren_leaf, processChildren_acc, pathsAre_append, ih]
    split <;> simp [pathsAre, pathIsOf]
  | hdir t u cs rest ihc ih =>
    intro chain
    rw [processChildren_dir, processChildren_acc, pathsAre_append, ih,
      folderPathOf_joinFromFirstNonEmpty]
    have hc := ihc (chain ++ [t])
    split <;> simp [pathsAre, pathIsOf, hc]

theorem pathsAre_processRoots (forest : List NativeNode) :
    pathsAre joinFromFirstNonEmpty [] (processRoots forest []) = true := by
  rw [processRoots_eq_contributions]
  induction forest with
  | nil => simp [rootContributions, pathsAre]
  | cons r rest ih =>
    cases r with
    | leaf t u => simpa [rootContributions, rootContribution] using ih
    | dir t u cs =>
      simp only [rootContributions, rootContribution]
      rw [pathsAre_append, ih]
      have := pathsAre_processChildren cs []
      simpa [joinFromFirstNonEmpty, joinTitles, String.intercalate] using this

theorem topPathsAreTitles_of_pathsAre (l : List PortableNode)
    (h : pathsAre joinFromFirstNonEmpty [] l = true) : topPathsAreTitles l = true := by
  induction l with
  | nil => rfl
  | cons n rest ih =>
    cases n with
    | bookmark t u p =>
      simp only [pathsAre, pathIsOf, Bool.true_and] at h
      simpa [topPathsAreTitles] using ih h
    | folder t p cs =>
      simp only [pathsAre, pathIsOf, Bool.and_eq_true, decide_eq_true_eq] at h
      obtain ⟨⟨hp, _⟩, hrest⟩ := h
      have hj : joinFromFirstNonEmpty ([] ++ [t]) = t := joinFromFirstNonEmpty_singleton t
      rw [hj] at hp
      simp [topPathsAreTitles, hp, ih hrest]

theorem pathsAre_congr (e₁ e₂ : List String → String) (l : List PortableNode) :
    ∀ ancestors : List String,
      (∀ suffix, suffix ≠ [] → e₁ (ancestors ++ suffix) = e₂ (ancestors ++ suffix)) →
      pathsAre e₁ ancestors l = pathsAre e₂ ancestors l := by
  induction l using portableForest_induction with
  | hnil => intro _ _; simp [pathsAre]
  | hbookmark t u p rest ih =>
    intro ancestors h
    simp [pathsAre, pathIsOf, ih ancestors h]
  | hfolder t p cs rest ihc ih =>
    intro ancestors h
    have hc := ihc (ancestors ++ [t]) (fun suffix hs => by
      rw [List.append_assoc]
      exact h ([t] ++ suffix) (by simp))
    simp [pathsAre, pathIsOf, ih ancestors h, hc, h [t] (by simp)]

theorem pathsAre_joinTitles (l : List PortableNode)
    (hne : ∀ t ∈ topFolderTitles l, t ≠ "")
    (h : pathsAre joinFromFirstNonEmpty [] l = true) : pathsAre joinTitles [] l = true := by
  induction l with
  | nil => simp [pathsAre]
  | cons n rest ih =>
    cases n with
    | bookmark t u p =>
      simp only [pathsAre, pathIsOf, Bool.true_and] at h ⊢
      exact ih (fun t ht => hne t (by simpa [topFolderTitles] using ht)) h
    | folder t p cs =>
      have ht : t ≠ "" := hne t (by simp [topFolderTitles])
      have hb : (t == "") = false := by simpa using ht
      have hj : ∀ suffix : List String,
          joinFromFirstNonEmpty ([t] ++ suffix) = joinTitles ([t] ++ suffix) := by
        intro suffix
        simp [joinFromFirstNonEmpty, List.dropWhile, hb]
      simp only [pathsAre, pathIsOf, Bool.and_eq_true, decide_eq_true_eq] at h ⊢
      obtain ⟨⟨hp, hcs⟩, hrest⟩ := h
      refine ⟨⟨?_, ?_⟩, ih (fun t' ht' => hne t' (by simp [topFolderTitles, ht'])) hrest⟩
      · rw [hp]
        exact hj []
      · rw [← pathsAre_congr joinFromFirstNonEmpty joinTitles cs ([] ++ [t])
          (fun suffix _ => hj suffix)]
        exact hcs

/-- C24 (amended): path construction.  For every native forest, the path of every
folder node in the output of `getAllBookmarks` is the titles of the folder nodes
on the chain from its top-level ancestor down to itself, taken from the first
non-empty title on and joined with `'/'`; the path of a top-level folder is its
own title; and when no top-level folder of the output has the empty title, the
path of every folder node is the titles on its chain joined with `'/'`. -/
theorem flatten_paths_join_titles (forest : List NativeNode) :
    pathsAre joinFromFirstNonEmpty [] (getAllBookmarks forest) = true ∧
    topPathsAreTitles (getAllBookmarks forest) = true ∧
    ((∀ t ∈ topFolderTitles (getAllBookmarks forest), t ≠ "") →
      pathsAre joinTitles [] (getAllBookmarks forest) = true) :=
  ⟨pathsAre_processRoots forest,
    topPathsAreTitles_of_pathsAre _ (pathsAre_processRoots forest),
    fun hne => pathsAre_joinTitles _ hne (pathsAre_processRoots forest)⟩

/-- C24 as stated fails: below a folder with the empty title, the folder `x` gets
the path `x`, while the titles on its chain joined with `'/'` are `/x`. -/
theorem flatten_path_drops_empty_title :
    getAllBookmarks emptyTitleForest =
      [.folder "" "" [.folder "x" "x" [.bookmark "b" "https://b.example" "x"]]] ∧
    joinTitles ["", "x"] = "/x" ∧
    pathsAre joinTitles [] (getAllBookmarks emptyTitleForest) = false := by
  refine ⟨rfl, rfl, ?_⟩
  decide


theorem intercalate_go_joinedTail (as : List String) :
    ∀ acc : String, (String.intercalate.go acc "/" as).data = acc.data ++ joinedTail as := by
  induction as with
  | nil => intro acc; simp [String.intercalate.go, joinedTail]
  | cons b bs ih =>
    intro acc
    rw [String.intercalate.go, ih]
    simp [joinedTail]

theorem joinTitles_data (t : String) (ts : List String) :
    (joinTitles (t :: ts)).data = t.data ++ joinedTail ts := by
  simp [joinTitles, String.intercalate, intercalate_go_joinedTail]

theorem append_slash_cancel (x : List Char) :
    ∀ (y r₁ r₂ : List Char), '/' ∉ x → '/' ∉ y →
      (r₁ = [] ∨ ∃ r, r₁ = '/' :: r) → (r₂ = [] ∨ ∃ r, r₂ = '/' :: r) →
      x ++ r₁ = y ++ r₂ → x = y ∧ r₁ = r₂ := by
  induction x with
  | nil =>
    intro y r₁ r₂ _ hy h1 h2 h
    cases y with
    | nil => exact ⟨rfl, by simpa using h⟩
    | cons c y =>
      rcases h1 with rfl | ⟨r, rfl⟩
      · simp at h
      · simp only [List.nil_append, List.cons_append, List.cons.injEq] at h
        exact absurd (h.1 ▸ List.mem_cons_self _ _) hy
  | cons c x ih =>
    intro y r₁ r₂ hx hy h1 h2 h
    cases y with
    | nil =>
      rcases h2 with rfl | ⟨r, rfl⟩
      · simp at h
      · simp only [List.nil_append, List.cons_append, List.cons.injEq] at h
        exact absurd (h.1 ▸ List.mem_cons_self _ _) hx
    | cons d y =>
      simp only [List.cons_append, List.cons.injEq] at h
      obtain ⟨hcd, hrest⟩ := h
      obtain ⟨hxy, hr⟩ := ih y r₁ r₂ (fun hm => hx (List.mem_cons_of_mem _ hm))
        (fun hm => hy (List.mem_cons_of_mem _ hm)) h1 h2 hrest
      exact ⟨by rw [hcd, hxy], hr⟩

theorem joinedTail_shape (ts : List String) :
    joinedTail ts = [] ∨ ∃ r, joinedTail ts = '/' :: r := by
  cases ts with
  | nil => exact Or.inl rfl
  | cons t ts => exact Or.inr ⟨_, rfl⟩

theorem slash_not_mem_of_cleanTitle {t : String} (h : cleanTitle t = true) : '/' ∉ t.data := by
  simp only [cleanTitle, Bool.and_eq_true, Bool.not_eq_true', bne_iff_ne] at h
  intro hm
  have := h.2
  simp [hm] at this

theorem joinedTail_injective (as : List String) :
    ∀ bs : List String, (∀ a ∈ as, cleanTitle a = true) → (∀ b ∈ bs, cleanTitle b = true) →
      joinedTail as = joinedTail bs → as = bs := by
  induction as with
  | nil =>
    intro bs _ _ h
    cases bs with
    | nil => rfl
    | cons b bs => simp [joinedTail] at h
  | cons a as ih =>
    intro bs ha hb h
    cases bs with
    | nil => simp [joinedTail] at h
    | cons b bs =>
      simp only [joinedTail, List.cons.injEq, true_and] at h
      obtain ⟨hab, hr⟩ := append_slash_cancel a.data b.data _ _
        (slash_not_mem_of_cleanTitle (ha a (List.mem_cons_self _ _)))
        (slash_not_mem_of_cleanTitle (hb b (List.mem_cons_self _ _)))
        (joinedTail_shape as) (joinedTail_shape bs) h
      rw [String.ext hab, ih bs (fun x hx => ha x (List.mem_cons_of_mem _ hx))
        (fun x hx => hb x (List.mem_cons_of_mem _ hx)) hr]

theorem joinFromFirstNonEmpty_of_clean (t : String) (ts : List String)
    (h : cleanTitle t = true) : joinFromFirstNonEmpty (t :: ts) = joinTitles (t :: ts) := by
  simp only [cleanTitle, Bool.and_eq_true, bne_iff_ne] at h
  have hb : (t == "") = false := by simpa using h.1
  simp [joinFromFirstNonEmpty, List.dropWhile, hb]

theorem joinFromFirstNonEmpty_injective (c₁ c₂ : List String)
    (h₁ : c₁ ≠ []) (h₂ : c₂ ≠ []) (hc₁ : ∀ a ∈ c₁, cleanTitle a = true)
    (hc₂ : ∀ b ∈ c₂, cleanTitle b = true)
    (h : joinFromFirstNonEmpty c₁ = joinFromFirstNonEmpty c₂) : c₁ = c₂ := by
  cases c₁ with
  | nil => exact absurd rfl h₁
  | cons a as =>
    cases c₂ with
    | nil => exact absurd rfl h₂
    | cons b bs =>
      rw [joinFromFirstNonEmpty_of_clean a as (hc₁ a (List.mem_cons_self _ _)),
        joinFromFirstNonEmpty_of_clean b bs (hc₂ b (List.mem_cons_self _ _))] at h
      have hd := congrArg String.data h
      rw [joinTitles_data, joinTitles_data] at hd
      obtain ⟨hab, hr⟩ := append_slash_cancel a.data b.data _ _
        (slash_not_mem_of_cleanTitle (hc₁ a (List.mem_cons_self _ _)))
        (slash_not_mem_of_cleanTitle (hc₂ b (List.mem_cons_self _ _)))
        (joinedTail_shape as) (joinedTail_shape bs) hd
      rw [String.ext hab, joinedTail_injective as bs
        (fun x hx => hc₁ x (List.mem_cons_of_mem _ hx))
        (fun x hx => hc₂ x (List.mem_cons_of_mem _ hx)) hr]

theorem folderPaths_eq_map_chains (expected : List String → String) (l : List PortableNode) :
    ∀ ancestors : List String, pathsAre expected ancestors l = true →
      folderPaths l = (folderChains ancestors l).map expected := by
  induction l using portableForest_induction with
  | hnil => intro _ _; simp [folderPaths, folderChains]
  | hbookmark t u p rest ih =>
    intro ancestors h
    simp only [pathsAre, pathIsOf, Bool.true_and] at h
    simp [folderPaths, folderPathsOf, folderChains, folderChainsOf, ih ancestors h]
  | hfolder t p cs rest ihc ih =>
    intro ancestors h
    simp only [pathsAre, pathIsOf, Bool.and_eq_true, decide_eq_true_eq] at h
    obtain ⟨⟨hp, hcs⟩, hrest⟩ := h
    simp [folderPaths, folderPathsOf, folderChains, folderChainsOf, ih ancestors hrest,
      ihc _ hcs, hp]

theorem mem_folderChains (l : List PortableNode) :
    ∀ (ancestors chain : List String), chain ∈ folderChains ancestors l →
      ∃ t more, chain = ancestors ++ t :: more ∧ t ∈ topFolderTitles l ∧
        (titlesClean l = true → ∀ x ∈ t :: more, cleanTitle x = true) := by
  induction l using portableForest_induction with
  | hnil => intro _ _ h; simp [folderChains] at h
  | hbookmark t u p rest ih =>
    intro ancestors chain h
    simp only [folderChains, folderChainsOf, List.nil_append] at h
    obtain ⟨t', more, hc, ht, hclean⟩ := ih ancestors chain h
    exact ⟨t', more, hc, by simpa [topFolderTitles] using ht,
      fun hcl => hclean (by simpa [titlesClean, titlesCleanOf] using hcl)⟩
  | hfolder t p cs rest ihc ih =>
    intro ancestors chain h
    simp only [folderChains, folderChainsOf, List.cons_append, List.mem_cons,
      List.mem_append] at h
    rcases h with rfl | h | h
    · refine ⟨t, [], rfl, by simp [topFolderTitles], ?_⟩
      intro hcl x hx
      simp only [titlesClean, titlesCleanOf, Bool.and_eq_true] at hcl
      simp only [List.mem_singleton] at hx
      rw [hx]
      exact hcl.1.1
    · obtain ⟨t', more, hc, _, hclean⟩ := ihc (ancestors ++ [t]) chain h
      refine ⟨t, t' :: more, by simp [hc], by simp [topFolderTitles], ?_⟩
      intro hcl x hx
      simp only [titlesClean, titlesCleanOf, Bool.and_eq_true] at hcl
      rcases List.mem_cons.mp hx with rfl | hx
      · exact hcl.1.1
      · exact hclean hcl.1.2 x hx
    · obtain ⟨t', more, hc, ht, hclean⟩ := ih ancestors chain h
      refine ⟨t', more, hc, by simp [topFolderTitles, ht], ?_⟩
      intro hcl
      simp only [titlesClean, titlesCleanOf, Bool.and_eq_true] at hcl
      exact hclean hcl.2

theorem folderChains_nodup (l : List PortableNode) :
    ∀ ancestors : List String, (topFolderTitles l).Nodup → distinctBelow l = true →
      (folderChains ancestors l).Nodup := by
  induction l using portableForest_induction with
  | hnil => intro _ _ _; simp [folderChains]
  | hbookmark t u p rest ih =>
    intro ancestors hn hd
    simp only [folderChains, folderChainsOf, List.nil_append]
    exact ih ancestors (by simpa [topFolderTitles] using hn)
      (by simpa [distinctBelow, distinctBelowOf] using hd)
  | hfolder t p cs rest ihc ih =>
    intro ancestors hn hd
    simp only [topFolderTitles, List.nodup_cons] at hn
    simp only [distinctBelow, distinctBelowOf, Bool.and_eq_true, decide_eq_true_eq] at hd
    obtain ⟨⟨hcn, hcd⟩, hrd⟩ := hd
    simp only [folderChains, folderChainsOf]
    rw [List.nodup_append]
    refine ⟨List.nodup_cons.mpr ⟨?_, ihc _ hcn hcd⟩, ih ancestors hn.2 hrd, ?_⟩
    · intro hm
      obtain ⟨t', more, hc, _, _⟩ := mem_folderChains cs _ _ hm
      have := congrArg List.length hc
      simp at this
    · intro chain h1 h2
      obtain ⟨t₂, more₂, hc₂, ht₂, _⟩ := mem_folderChains rest _ _ h2
      have hform : ∃ more, chain = ancestors ++ t :: more := by
        rcases List.mem_cons.mp h1 with rfl | h1
        · exact ⟨[], rfl⟩
        · obtain ⟨t', more, hc, _, _⟩ := mem_folderChains cs _ _ h1
          exact ⟨t' :: more, by simp [hc]⟩
      obtain ⟨more, hc⟩ := hform
      rw [hc] at hc₂
      have := List.append_cancel_left hc₂
      simp only [List.cons.injEq] at this
      exact hn.1 (this.1 ▸ ht₂)

theorem folderPaths_nodup (l : List PortableNode)
    (hpaths : pathsAre joinFromFirstNonEmpty [] l = true) (hclean : titlesClean l = true)
    (hdistinct : siblingTitlesDistinct l = true) : (folderPaths l).Nodup := by
  simp only [siblingTitlesDistinct, Bool.and_eq_true, decide_eq_true_eq] at hdistinct
  rw [folderPaths_eq_map_chains _ l [] hpaths]
  refine List.Nodup.map_on ?_ (folderChains_nodup l [] hdistinct.1 hdistinct.2)
  intro c₁ h₁ c₂ h₂ h
  obtain ⟨t₁, m₁, hc₁, _, hcl₁⟩ := mem_folderChains l [] c₁ h₁
  obtain ⟨t₂, m₂, hc₂, _, hcl₂⟩ := mem_folderChains l [] c₂ h₂
  simp only [List.nil_append] at hc₁ hc₂
  subst hc₁ hc₂
  exact joinFromFirstNonEmpty_injective _ _ (by simp) (by simp) (hcl₁ hclean) (hcl₂ hclean) h

/-- C23 (amended): path uniqueness.  For every native forest whose flattened output
has folder titles that are not empty and hold no `'/'`, with sibling folders
(the top-level folders of all roots taken together) of pairwise distinct titles,
any two distinct folder nodes of the output of `getAllBookmarks`, at any depth,
have distinct paths. -/
theorem flatten_folder_paths_distinct (forest : List NativeNode)
    (hclean : titlesClean (getAllBookmarks forest) = true)
    (hdistinct : siblingTitlesDistinct (getAllBookmarks forest) = true) :
    (folderPaths (getAllBookmarks forest)).Nodup :=
  folderPaths_nodup _ (pathsAre_processRoots forest) hclean hdistinct

/-- C23 as stated fails: the folders `Work` of the two roots are distinct folder
nodes of the output with the same path `Work`. -/
theorem flatten_folder_paths_collide :
    getAllBookmarks twoWorkForest =
      [.folder "Work" "Work" [.bookmark "a" "https://a.example" "Work"],
        .folder "Work" "Work" [.bookmark "b" "https://b.example" "Work"]] ∧
    folderPaths (getAllBookmarks twoWorkForest) = ["Work", "Work"] ∧
    ¬ (folderPaths (getAllBookmarks twoWorkForest)).Nodup := by
  refine ⟨rfl, rfl, ?_⟩
  decide

theorem createFolders_toJson_bookmark (browser : Browser) (t u p : String)
    (rest : List PortableNode) (parentId : String) (folderMap : FolderMap)
    (log : List NativeCall) :
    createFolders browser (portableToJson (.bookmark t u p :: rest)) parentId folderMap log =
      createFolders browser (portableToJson rest) parentId folderMap log := by
  simp only [portableToJson, PortableNode.toJson, createFolders]
  simp [List.lookup, isStr]

theorem createFolders_toJson_folder (browser : Browser) (t p : String)
    (cs rest : List PortableNode) (parentId : String) (folderMap : FolderMap)
    (log : List NativeCall) :
    createFolders browser (portableToJson (.folder t p cs :: rest)) parentId folderMap log =
      match browser.bookmarksCreate log (.bookmarksCreate parentId (some (.str t)) none) with
      | .error e => (.error e, log ++ [.bookmarksCreate parentId (some (.str t)) none])
      | .ok id =>
        match createFolders browser (portableToJson cs) id
            (FolderMap.set folderMap (some (.str p)) id)
            (log ++ [.bookmarksCreate parentId (some (.str t)) none]) with
        | (.error e, log') => (.error e, log')
        | (.ok folderMap', log') =>
          createFolders browser (portableToJson rest) parentId folderMap' log' := by
  simp only [portableToJson, PortableNode.toJson, createFolders, createFolderStructure,
    createChildFolders_eq_lookup]
  simp only [List.lookup, isStr, createFoldersOf]
  simp only [show ("type" == "type") = true from rfl, show ("children" == "type") = false from rfl,
    show ("children" == "title") = false from rfl, show ("children" == "path") = false from rfl,
    show ("children" == "children") = true from rfl, show ("title" == "type") = false from rfl,
    show ("title" == "title") = true from rfl, show ("path" == "type") = false from rfl,
    show ("path" == "title") = false from rfl, show ("path" == "path") = true from rfl,
    show ("folder" == "folder") = true from rfl, if_true]
  cases browser.bookmarksCreate log (.bookmarksCreate parentId (some (.str t)) none) with
  | error e => rfl
  | ok id => rfl

theorem createBookmarkItems_toJson_folder (browser : Browser) (importFolderId : String)
    (folderMap : FolderMap) (t p : String) (cs rest : List PortableNode)
    (log : List NativeCall) :
    createBookmarkItems browser importFolderId folderMap
        (portableToJson (.folder t p cs :: rest)) log =
      createBookmarkItems browser importFolderId folderMap (portableToJson rest) log := by
  simp only [portableToJson, PortableNode.toJson, createBookmarkItems, getProp, Json.field]
  simp [List.lookup, isStr]

theorem createBookmarkItems_toJson_bookmark (browser : Browser) (importFolderId : String)
    (folderMap : FolderMap) (t u p : String) (rest : List PortableNode)
    (log : List NativeCall) :
    createBookmarkItems browser importFolderId folderMap
        (portableToJson (.bookmark t u p :: rest)) log =
      match browser.bookmarksCreate log (.bookmarksCreate
        (resolveParent folderMap (some (.str p)) importFolderId) (some (.str t))
        (some (.str u))) with
      | .error e => (.error e, log ++ [.bookmarksCreate
        (resolveParent folderMap (some (.str p)) importFolderId) (some (.str t))
        (some (.str u))])
      | .ok _ => createBookmarkItems browser importFolderId folderMap (portableToJson rest)
        (log ++ [.bookmarksCreate (resolveParent folderMap (some (.str p)) importFolderId)
          (some (.str t)) (some (.str u))]) := by
  simp only [portableToJson, PortableNode.toJson, createBookmarkItems, getProp, Json.field]
  simp only [List.lookup, isStr]
  simp only [show ("type" == "type") = true from rfl, show ("title" == "type") = false from rfl,
    show ("title" == "title") = true from rfl, show ("path" == "type") = false from rfl,
    show ("path" == "title") = false from rfl, show ("path" == "url") = false from rfl,
    show ("path" == "path") = true from rfl, show ("url" == "type") = false from rfl,
    show ("url" == "title") = false from rfl, show ("url" == "url") = true from rfl,
    show ("bookmark" == "bookmark") = true from rfl, if_true]

theorem succeedFrom_append (browser : Browser) (x : List NativeCall) :
    ∀ (log y : List NativeCall), succeedFrom browser log (x ++ y) =
      (succeedFrom browser log x && succeedFrom browser (log ++ x) y) := by
  induction x with
  | nil => intro log y; simp [succeedFrom]
  | cons c x ih =>
    intro log y
    simp [succeedFrom, ih, Bool.and_assoc]

theorem succeedFrom_at (browser : Browser) (log pre : List NativeCall) (call : NativeCall)
    (post : List NativeCall) (h : succeedFrom browser log (pre ++ call :: post) = true) :
    ∃ id, browser.bookmarksCreate (log ++ pre) call = .ok id := by
  rw [succeedFrom_append] at h
  simp only [succeedFrom, Bool.and_eq_true] at h
  cases hb : browser.bookmarksCreate (log ++ pre) call with
  | ok id => exact ⟨id, rfl⟩
  | error e => simp [hb] at h

theorem aborts_of_ok {α : Type} (browser : Browser) (log : List NativeCall) (a : α) :
    AbortsAtFailure browser log ((.ok a : Except String α), log) :=
  ⟨[], by simp, by simp, Or.inl ⟨⟨a, rfl⟩, rfl⟩⟩

theorem aborts_of_failed_call {α : Type} (browser : Browser) (log : List NativeCall)
    {call : NativeCall} {e : String} (h : browser.bookmarksCreate log call = .error e)
    (hcall : isBookmarkCreation call = true) :
    AbortsAtFailure browser log ((.error e : Except String α), log ++ [call]) :=
  ⟨[call], rfl, by simp [hcall], Or.inr ⟨[], call, e, rfl, rfl, by simpa using h, rfl⟩⟩

theorem aborts_after_call {α : Type} (browser : Browser) (log : List NativeCall)
    {call : NativeCall} {id : String} {out : Except String α × List NativeCall}
    (h : browser.bookmarksCreate log call = .ok id) (hcall : isBookmarkCreation call = true)
    (hout : AbortsAtFailure browser (log ++ [call]) out) : AbortsAtFailure browser log out := by
  obtain ⟨new, hlog, hall, hcase⟩ := hout
  refine ⟨call :: new, by simp [hlog], by simp [hcall, hall], ?_⟩
  rcases hcase with ⟨hok, hs⟩ | ⟨pre, c, e, hnew, hs, hfail, herr⟩
  · exact Or.inl ⟨hok, by simp [succeedFrom, h, hs]⟩
  · refine Or.inr ⟨call :: pre, c, e, by simp [hnew], by simp [succeedFrom, h, hs], ?_, herr⟩
    simpa using hfail

theorem aborts_trans {α β : Type} (browser : Browser) (log log₁ : List NativeCall) (a : α)
    (out : Except String β × List NativeCall)
    (h₁ : AbortsAtFailure browser log ((.ok a : Except String α), log₁))
    (h₂ : AbortsAtFailure browser log₁ out) : AbortsAtFailure browser log out := by
  obtain ⟨new₁, hlog₁, hall₁, hcase₁⟩ := h₁
  obtain ⟨new₂, hlog₂, hall₂, hcase₂⟩ := h₂
  simp only at hlog₁
  have hs₁ : succeedFrom browser log new₁ = true := by
    rcases hcase₁ with ⟨_, hs⟩ | ⟨_, _, _, _, _, _, herr⟩
    · exact hs
    · cases herr
  subst hlog₁
  refine ⟨new₁ ++ new₂, by simp [hlog₂], by simp [hall₁, hall₂], ?_⟩
  rcases hcase₂ with ⟨hok, hs⟩ | ⟨pre, c, e, hnew, hs, hfail, herr⟩
  · exact Or.inl ⟨hok, by simp [succeedFrom_append, hs₁, hs]⟩
  · refine Or.inr ⟨new₁ ++ pre, c, e, by simp [hnew], by simp [succeedFrom_append, hs₁, hs],
      ?_, herr⟩
    simpa using hfail

theorem aborts_of_error {α β : Type} (browser : Browser) (log log₁ : List NativeCall)
    (e : String) (h : AbortsAtFailure browser log ((.error e : Except String α), log₁)) :
    AbortsAtFailure browser log ((.error e : Except String β), log₁) := by
  obtain ⟨new, hlog, hall, hcase⟩ := h
  refine ⟨new, hlog, hall, ?_⟩
  rcases hcase with ⟨⟨a, ha⟩, _⟩ | ⟨pre, c, e', hnew, hs, hfail, herr⟩
  · cases ha
  · exact Or.inr ⟨pre, c, e', hnew, hs, hfail, by
      simp only at herr ⊢
      cases herr
      rfl⟩

theorem createFolders_aborts (browser : Browser) (tree : List PortableNode) :
    ∀ (parentId : String) (folderMap : FolderMap) (log : List NativeCall),
      AbortsAtFailure browser log
        (createFolders browser (portableToJson tree) parentId folderMap log) := by
  induction tree using portableForest_induction with
  | hnil =>
    intro parentId folderMap log
    simpa [portableToJson, createFolders] using aborts_of_ok browser log folderMap
  | hbookmark t u p rest ih =>
    intro parentId folderMap log
    rw [createFolders_toJson_bookmark]
    exact ih parentId folderMap log
  | hfolder t p cs rest ihc ih =>
    intro parentId folderMap log
    rw [createFolders_toJson_folder]
    cases hb : browser.bookmarksCreate log (.bookmarksCreate parentId (some (.str t)) none) with
    | error e => exact aborts_of_failed_call browser log hb rfl
    | ok id =>
      simp only
      have h₁ := ihc id (FolderMap.set folderMap (some (.str p)) id)
        (log ++ [.bookmarksCreate parentId (some (.str t)) none])
      generalize createFolders browser (portableToJson cs) id
        (FolderMap.set folderMap (some (.str p)) id)
        (log ++ [.bookmarksCreate parentId (some (.str t)) none]) = out at h₁ ⊢
      obtain ⟨r₁, log₁⟩ := out
      cases r₁ with
      | error e => exact aborts_after_call browser log hb rfl (aborts_of_error _ _ _ e h₁)
      | ok folderMap' =>
        exact aborts_after_call browser log hb rfl
          (aborts_trans _ _ _ folderMap' _ h₁ (ih parentId folderMap' log₁))

theorem createBookmarkItems_aborts (browser : Browser) (importFolderId : String)
    (folderMap : FolderMap) (tree : List PortableNode) :
    ∀ log : List NativeCall, AbortsAtFailure browser log
      (createBookmarkItems browser importFolderId folderMap (portableToJson tree) log) := by
  induction tree with
  | nil =>
    intro log
    simpa [portableToJson, createBookmarkItems] using aborts_of_ok browser log ()
  | cons n rest ih =>
    intro log
    cases n with
    | folder t p cs =>
      rw [createBookmarkItems_toJson_folder]
      exact ih log
    | bookmark t u p =>
      rw [createBookmarkItems_toJson_bookmark]
      cases hb : browser.bookmarksCreate log (.bookmarksCreate
        (resolveParent folderMap (some (.str p)) importFolderId) (some (.str t))
        (some (.str u))) with
      | error e => exact aborts_of_failed_call browser log hb rfl
      | ok id => exact aborts_after_call browser log hb rfl (ih _)

theorem restoreBookmarksBody_aborts (browser : Browser) (now : String)
    (tree : List PortableNode) (log : List NativeCall) :
    AbortsAtFailure browser log
      (restoreBookmarksBody browser now (portableToJson tree) log) := by
  unfold restoreBookmarksBody
  simp only
  cases hb : browser.bookmarksCreate log
    (.bookmarksCreate "1" (some (.str (importFolderTitle now))) none) with
  | error e => exact aborts_of_failed_call browser log hb rfl
  | ok id =>
    simp only
    have h₁ := createFolders_aborts browser tree id (FolderMap.set [] (some (.str "")) id)
      (log ++ [.bookmarksCreate "1" (some (.str (importFolderTitle now))) none])
    generalize createFolders browser (portableToJson tree) id
      (FolderMap.set [] (some (.str "")) id)
      (log ++ [.bookmarksCreate "1" (some (.str (importFolderTitle now))) none]) = out at h₁ ⊢
    obtain ⟨r₁, log₁⟩ := out
    cases r₁ with
    | error e => exact aborts_after_call browser log hb rfl (aborts_of_error _ _ _ e h₁)
    | ok folderMap =>
      exact aborts_after_call browser log hb rfl
        (aborts_trans _ _ _ folderMap _ h₁ (createBookmarkItems_aborts browser id folderMap tree log₁))

theorem restoreBookmarks_of_body (browser : Browser) (now : String) (tree : List PortableNode)
    (log : List NativeCall) (hne : tree ≠ []) :
    restoreBookmarks browser now (.arr (portableToJson tree)) log =
      match restoreBookmarksBody browser now (portableToJson tree) log with
      | (.error _, log') => (.error "Failed to restore bookmarks", log')
      | (.ok _, log') => (.ok (), log') := by
  cases tree with
  | nil => exact absurd rfl hne
  | cons n rest =>
    have hj : portableToJson (n :: rest) = n.toJson :: portableToJson rest := by
      simp [portableToJson]
    rw [hj, restoreBookmarks]

/-- C21: non-transactional abort.  For every non-empty portable tree, every host
and every log of calls issued before, `restoreBookmarks` only adds bookmark
creations to the log, so nothing created is deleted; when a call it issues
fails, no call follows the failing one and the restore raises 'Failed to restore
bookmarks'; and when every call it issues succeeds, it returns. -/
theorem restoreBookmarks_aborts_at_failure (browser : Browser) (now : String)
    (tree : List PortableNode) (log : List NativeCall) (hne : tree ≠ []) :
    ∃ new : List NativeCall,
      (restoreBookmarks browser now (.arr (portableToJson tree)) log).2 = log ++ new ∧
      new.all isBookmarkCreation = true ∧
      (∀ pre call post e, new = pre ++ call :: post →
        browser.bookmarksCreate (log ++ pre) call = .error e →
        post = [] ∧ succeedFrom browser log pre = true ∧
          (restoreBookmarks browser now (.arr (portableToJson tree)) log).1 =
            .error "Failed to restore bookmarks") ∧
      (succeedFrom browser log new = true →
        (restoreBookmarks browser now (.arr (portableToJson tree)) log).1 = .ok ()) := by
  rw [restoreBookmarks_of_body browser now tree log hne]
  obtain ⟨new, hlog, hall, hcase⟩ := restoreBookmarksBody_aborts browser now tree log
  rcases hbody : restoreBookmarksBody browser now (portableToJson tree) log with ⟨r, log'⟩
  rw [hbody] at hlog hcase
  simp only at hlog hcase
  have hlog' : (match ((r, log') : Except String Unit × List NativeCall) with
      | (.error _, log') => ((.error "Failed to restore bookmarks" : Except String Unit), log')
      | (.ok _, log') => (.ok (), log')).2 = log ++ new := by
    cases r <;> exact hlog
  refine ⟨new, hlog', hall, ?_, ?_⟩
  · intro pre call post e hnew hfail
    rcases hcase with ⟨_, hs⟩ | ⟨pre', c, e', hnew', hs, hfail', herr⟩
    · obtain ⟨id, hid⟩ := succeedFrom_at browser log pre call post (hnew ▸ hs)
      rw [hid] at hfail
      cases hfail
    · rcases List.eq_nil_or_concat post with hpost | ⟨init, last, hpost⟩
      · subst hpost
        rw [hnew'] at hnew
        have hpre : pre' = pre := by
          have := List.append_inj_left' hnew (by simp)
          exact this
        subst hpre
        refine ⟨rfl, hs, ?_⟩
        cases herr
        rfl
      · exfalso
        subst hpost
        rw [hnew'] at hnew
        have hpre : pre' = pre ++ call :: init := by
          have h' : pre' ++ [c] = (pre ++ call :: init) ++ [last] := by
            simpa [List.concat_eq_append] using hnew
          exact List.append_inj_left' h' (by simp)
        rw [hpre] at hs
        obtain ⟨id, hid⟩ := succeedFrom_at browser log pre call init hs
        rw [hid] at hfail
        cases hfail
  · intro hs
    rcases hcase with ⟨⟨a, ha⟩, _⟩ | ⟨pre', c, e', hnew', _, hfail', _⟩
    · cases ha
      rfl
    · rw [hnew'] at hs
      obtain ⟨id, hid⟩ := succeedFrom_at browser log pre' c [] hs
      rw [hid] at hfail'
      cases hfail'

/-- C21 at the test's tree, on a host whose second creation fails: the restore
raises after the container and the folder `Work` have been requested. -/
theorem restoreBookmarks_aborts_at_failure_witness :
    (restoreBookmarks (failingAt 1) "2026-11-04T09:30:00.000Z"
        (.arr (portableToJson restoreTestTree)) []).2 =
      [.bookmarksCreate "1" (some (.str "Tabby Grabby Import - 2026-11-04")) none,
        .bookmarksCreate "n" (some (.str "Work")) none] ∧
    (restoreBookmarks (failingAt 1) "2026-11-04T09:30:00.000Z"
        (.arr (portableToJson restoreTestTree)) []).1 = .error "Failed to restore bookmarks" := by
  obtain ⟨new, hlog, _, hfail, _⟩ := restoreBookmarks_aborts_at_failure (failingAt 1)
    "2026-11-04T09:30:00.000Z" restoreTestTree [] (by simp [restoreTestTree])
  have heval : (restoreBookmarks (failingAt 1) "2026-11-04T09:30:00.000Z"
        (.arr (portableToJson restoreTestTree)) []).2 =
      [.bookmarksCreate "1" (some (.str "Tabby Grabby Import - 2026-11-04")) none,
        .bookmarksCreate "n" (some (.str "Work")) none] := by
    rfl
  refine ⟨heval, ?_⟩
  rw [heval] at hlog
  exact (hfail [.bookmarksCreate "1" (some (.str "Tabby Grabby Import - 2026-11-04")) none]
    (.bookmarksCreate "n" (some (.str "Work")) none) [] "Bookmark quota exceeded"
    (by simpa using hlog.symm) rfl).2.2

/-- C27 (amended) at the document exported from the sample host: it is accepted by
`validateImportData` and has the key `exportInfo`, so `validateExportData`
accepts it. -/
theorem validateExportData_characterisation_witness :
    validateExportData
      (exportedDocument "2026-11-04T09:30:00.000Z" sampleWindows sampleForest).toJson = true :=
  (validateExportData_characterisation _).2 rfl rfl

/-- C22 (amended): export failure.  When the tab collection or the first read of
the bookmark tree fails, or the second read made for `exportInfo` fails,
`exportAll` raises one error whose message is 'Failed to export data: ' followed
by 'Failed to collect tabs' or 'Failed to collect bookmarks' (that of the
collection that settles first when both fail), and the log is unchanged: the
download is never invoked.  When the third read, made after the download for the
returned count, fails, `exportAll` raises 'Failed to export data: Failed to
collect bookmarks' after the document has been handed to the download. -/
theorem exportAll_collection_failure (browser : Browser) (now₁ now₂ : String)
    (log : List NativeCall) :
    (∀ e, browser.windowsGetAll = .error e →
      (browser.tabsSettleFirst = true ∨ ∃ forest, browser.bookmarksGetTree 0 = .ok forest) →
      exportAll browser now₁ now₂ log =
        (.error "Failed to export data: Failed to collect tabs", log)) ∧
    (∀ e, browser.bookmarksGetTree 0 = .error e →
      (browser.tabsSettleFirst = false ∨ ∃ windows, browser.windowsGetAll = .ok windows) →
      exportAll browser now₁ now₂ log =
        (.error "Failed to export data: Failed to collect bookmarks", log)) ∧
    (∀ windows forest e, browser.windowsGetAll = .ok windows →
      browser.bookmarksGetTree 0 = .ok forest → browser.bookmarksGetTree 1 = .error e →
      exportAll browser now₁ now₂ log =
        (.error "Failed to export data: Failed to collect bookmarks", log)) ∧
    (∀ windows forest₀ forest₁ e, browser.windowsGetAll = .ok windows →
      browser.bookmarksGetTree 0 = .ok forest₀ → browser.bookmarksGetTree 1 = .ok forest₁ →
      (∀ l c, browser.download l c = .ok ()) → browser.bookmarksGetTree 2 = .error e →
      exportAll browser now₁ now₂ log =
        (.error "Failed to export data: Failed to collect bookmarks",
          log ++ [.download
            ⟨⟨now₁, "1.0.0", "Tabby Grabby", (flattenedTabs windows).length,
                bookmarkNodes (getAllBookmarks forest₁)⟩,
              flattenedTabs windows, getAllBookmarks forest₀⟩
            (exportFilename now₂)])) := by
  refine ⟨?_, ?_, ?_, ?_⟩
  · intro e hw hfirst
    have ht : getAllTabs browser = .error "Failed to collect tabs" := by
      simp [getAllTabs, hw]
    rcases hfirst with hs | ⟨forest, hf⟩
    · cases hb : browser.bookmarksGetTree 0 with
      | error e' => simp [exportAll, exportAllBody, ht, getAllBookmarksOf, hb, hs]
      | ok forest => simp [exportAll, exportAllBody, ht, getAllBookmarksOf, hb]
    · simp [exportAll, exportAllBody, ht, getAllBookmarksOf, hf]
  · intro e hb hfirst
    have hbm : getAllBookmarksOf browser 0 = .error "Failed to collect bookmarks" := by
      simp [getAllBookmarksOf, hb]
    rcases hfirst with hs | ⟨windows, hw⟩
    · cases hw : browser.windowsGetAll with
      | error e' => simp [exportAll, exportAllBody, getAllTabs, hw, hbm, hs]
      | ok windows => simp [exportAll, exportAllBody, getAllTabs, hw, collectWindows_eq, hbm]
    · simp [exportAll, exportAllBody, getAllTabs, hw, collectWindows_eq, hbm]
  · intro windows forest e hw h0 h1
    simp [exportAll, exportAllBody, getAllTabs, hw, collectWindows_eq, getAllBookmarksOf,
      getBookmarkCountOf, h0, h1]
  · intro windows forest₀ forest₁ e hw h0 h1 hd h2
    simp [exportAll, exportAllBody, getAllTabs, hw, collectWindows_eq, getAllBookmarksOf,
      getBookmarkCountOf, h0, h1, h2, downloadJSON, hd, countBookmarks_eq]

/-- C22 as stated fails: on a host whose bookmark tree can no longer be read
after the download, the bookmark collection fails and `exportAll` raises
'Failed to export data: Failed to collect bookmarks', yet the download has been
invoked with the document. -/
theorem exportAll_fails_after_download :
    exportAll lateFailingBrowser "2026-11-04T09:30:00.000Z" "2026-11-04T09:30:00.001Z" [] =
      (.error "Failed to export data: Failed to collect bookmarks",
        [.download (exportedDocument "2026-11-04T09:30:00.000Z" sampleWindows sampleForest)
          (exportFilename "2026-11-04T09:30:00.001Z")]) := by
  rfl

theorem validateTabs_toJson_eq (tabs : List PortableTab)
    (hurls : ∀ tab ∈ tabs, satisfiesIsValidUrl (some (.str tab.url)) = true) :
    validateTabs (tabs.map PortableTab.toJson) =
      .ok (tabs.all fun tab => truthyStr tab.title) := by
  induction tabs with
  | nil => rfl
  | cons t rest ih =>
    have h2 := truthy_of_satisfiesIsValidUrl _ (hurls t (List.mem_cons_self _ _))
    have hrest := ih (fun x hx => hurls x (List.mem_cons_of_mem _ hx))
    simp only [List.map_cons, PortableTab.toJson, validateTabs, getProp, Json.field]
    simp only [PortableTab.toJson] at hrest
    cases h1 : truthyStr t.title <;>
      simp [List.lookup, truthyVal, Json.truthy, h1, h2, hrest]

theorem validateBookmarks_toJson_eq (tree : List PortableNode)
    (hurls : topUrlsTruthy tree = true) :
    validateBookmarks (portableToJson tree) = .ok (topTitlesTruthy tree) := by
  induction tree with
  | nil => rfl
  | cons n rest ih =>
    cases n with
    | bookmark t u p =>
      simp only [topUrlsTruthy, Bool.and_eq_true] at hurls
      simp only [portableToJson, PortableNode.toJson, validateBookmarks, getProp, Json.field]
      cases h1 : truthyStr t <;>
        simp [List.lookup, isStr, truthyVal, Json.truthy, h1, hurls.1, ih hurls.2,
          topTitlesTruthy]
    | folder t p cs =>
      simp only [topUrlsTruthy] at hurls
      simp only [portableToJson, PortableNode.toJson, validateBookmarks, getProp, Json.field]
      cases h1 : truthyStr t <;>
        simp [List.lookup, isStr, truthyVal, Json.truthy, h1, ih hurls, topTitlesTruthy]

theorem validateImportData_exported_eq (now : String) (windows : List NativeWindow)
    (forest : List NativeNode) :
    validateImportData (exportedDocument now windows forest).toJson =
      .ok (exportedTitlesTruthy windows forest) := by
  have h1 := validateTabs_toJson_eq (flattenedTabs windows) (flattenedTabs_valid windows)
  have h2 := validateBookmarks_toJson_eq (getAllBookmarks forest)
    (topUrlsTruthy_processRoots forest)
  simp only [validateImportData, ExportDocument.toJson, exportedDocument, Json.truthy,
    Json.typeofObject, Json.hasKey, Json.field]
  cases hb : (flattenedTabs windows).all fun tab => truthyStr tab.title <;>
    simp [List.lookup, h1, h2, hb, exportedTitlesTruthy]

/-- C30 (amended): for every native state on which the reads and the download
succeed, the document that `exportAll` hands to the download is accepted by
`validateImportData` exactly when every exported tab and every top-level node of
the exported bookmark tree has a non-empty title, and it is rejected (the
validator returns false) otherwise. -/
theorem exported_document_importable (browser : Browser) (now₁ now₂ : String)
    (log : List NativeCall) (windows : List NativeWindow) (forest : List NativeNode)
    (hwindows : browser.windowsGetAll = .ok windows)
    (hforest : ∀ read, browser.bookmarksGetTree read = .ok forest)
    (hdownload : ∀ l c, browser.download l c = .ok ()) :
    ∃ (document : ExportDocument) (result : ExportResult),
      exportAll browser now₁ now₂ log =
        (.ok result, log ++ [.download document result.filename]) ∧
      document.openTabs = flattenedTabs windows ∧
      document.bookmarks = getAllBookmarks forest ∧
      validateImportData document.toJson = .ok (exportedTitlesTruthy windows forest) :=
  ⟨exportedDocument now₁ windows forest, _,
    exportAll_eq browser now₁ now₂ log windows forest hwindows hforest hdownload, rfl, rfl,
    validateImportData_exported_eq now₁ windows forest⟩

/-- C30 (amended) on a host where a tab with an internal url and a bookmark
inside a folder have no title: neither is a top-level entry of the exported
document, which is accepted. -/
theorem exported_document_importable_witness :
    exportedTitlesTruthy internalUntitledWindows nestedUntitledForest = true ∧
    ∃ (document : ExportDocument) (result : ExportResult),
      exportAll internalUntitledBrowser "2026-11-04T09:30:00.000Z"
          "2026-11-04T09:30:00.001Z" [] =
        (.ok result, [] ++ [.download document result.filename]) ∧
      document.openTabs = flattenedTabs internalUntitledWindows ∧
      document.bookmarks = getAllBookmarks nestedUntitledForest ∧
      validateImportData document.toJson =
        .ok (exportedTitlesTruthy internalUntitledWindows nestedUntitledForest) :=
  ⟨by decide, exported_document_importable internalUntitledBrowser _ _ [] internalUntitledWindows
    nestedUntitledForest rfl (fun _ => rfl) (fun _ _ => rfl)⟩

/-- C30 as stated fails: for a forest holding a top-level bookmark with an empty
title the export succeeds and the exported document is rejected by
`validateImportData`. -/
theorem exported_document_rejected :
    exportAll untitledBrowser "2026-11-04T09:30:00.000Z" "2026-11-04T09:30:00.001Z" [] =
      (.ok ⟨true, exportFilename "2026-11-04T09:30:00.001Z", 1, 1⟩,
        [.download (exportedDocument "2026-11-04T09:30:00.000Z" sampleWindows untitledForest)
          (exportFilename "2026-11-04T09:30:00.001Z")]) ∧
    validateImportData
      (exportedDocument "2026-11-04T09:30:00.000Z" sampleWindows untitledForest).toJson =
        .ok false :=
  ⟨rfl, rfl⟩

/-- C16 as stated fails: on a list of three titled tabs whose second `url` is the
number 5, which `validateImportData` accepts as `openTabs`, `restoreTabs` raises
after the window creation, every native call succeeding, and no tab is created
for the third entry, whose url satisfies `isValidUrl`. -/
theorem restoreTabs_raises_on_number_url :
    validateImportData (.obj [("openTabs", .arr numberUrlTabs), ("bookmarks", .arr [])]) =
      .ok true ∧
    satisfiesIsValidUrl (some (.str "https://c.example")) = true ∧
    restoreTabs (idBrowser freshIds) (.arr numberUrlTabs) [] =
      (.error "Failed to restore tabs",
        [.windowsCreate (some (.str "https://a.example")) true]) :=
  ⟨rfl, rfl, rfl⟩

/-- C23 (amended) at a forest with the folders `A`, `A/B` and `C`. -/
theorem flatten_folder_paths_distinct_witness :
    folderPaths (getAllBookmarks nestedForest) = ["A", "A/B", "C"] ∧
    (folderPaths (getAllBookmarks nestedForest)).Nodup :=
  ⟨rfl, flatten_folder_paths_distinct nestedForest (by decide) (by decide)⟩

end TabbyGrabby
